import Mathlib

/-!
# TrendzN backend: authentication, authorization and resource routes

A shallow embedding of `server.js`.  The document store is a record of lists
(one list per collection, in insertion order), the uploads directory is a list
of file names, and every Express middleware or route handler is a function
from the current world and request to a result.  Library calls whose
implementation is not part of the repository (`jsonwebtoken`, `bcryptjs`,
ObjectId casting, regular expressions) are fields of `Env`.
-/

set_option linter.unusedTactic false
set_option linter.unreachableTactic false

namespace Trendzn

/-! ## Data model -/

/-- MongoDB ObjectId of a stored document. -/
abbrev ObjectId := Nat

/-- Instants in milliseconds since the epoch (`Date.now()`). -/
abbrev Time := Int

/-- Document of the `User` collection (`UserSchema`). -/
structure User where
  id : ObjectId
  username : String
  email : String
  password : String
  role : String := "user"
  avatar : String := ""
  createdAt : Time
  lastLogin : Option Time := none
  isActive : Bool := true
  deriving DecidableEq, Repr

/-- Document of the `Trend` collection (`TrendSchema`). -/
structure Trend where
  id : ObjectId
  title : String
  description : String
  category : String
  imageUrl : String := ""
  views : Nat := 0
  shares : Nat := 0
  memeScore : Nat := 0
  status : String := "trending"
  tags : List String := []
  createdBy : Option ObjectId := none
  createdAt : Time
  updatedAt : Time
  deriving DecidableEq, Repr

/-- Document of the `Template` collection (`TemplateSchema`). -/
structure Template where
  id : ObjectId
  name : String
  description : Option String := none
  category : String
  imageUrl : String
  icon : String := "🎭"
  uses : Nat := 0
  rating : ℚ := 0
  tags : List String := []
  isPopular : Bool := false
  createdBy : Option ObjectId := none
  createdAt : Time
  deriving DecidableEq, Repr

/-- Document of the `Meme` collection (`MemeSchema`). -/
structure Meme where
  id : ObjectId
  title : String
  imageUrl : String
  templateId : Option ObjectId := none
  trendId : Option ObjectId := none
  createdBy : Option ObjectId := none
  views : Nat := 0
  likes : Nat := 0
  shares : Nat := 0
  isPublic : Bool := true
  createdAt : Time
  deriving DecidableEq, Repr

/-- Document of the `Analytics` collection (`AnalyticsSchema`). -/
structure Analytics where
  id : ObjectId
  date : Time
  totalUsers : Nat := 0
  totalTrends : Nat := 0
  totalTemplates : Nat := 0
  totalMemes : Nat := 0
  dailyViews : Nat := 0
  dailyShares : Nat := 0
  deriving DecidableEq, Repr

/-- The persistent state the server acts on: the five collections, each in
insertion order, and the names of the files present in `uploads/`. -/
structure World where
  users : List User := []
  trends : List Trend := []
  templates : List Template := []
  memes : List Meme := []
  analytics : List Analytics := []
  files : List String := []
  deriving DecidableEq, Repr

/-! ## Requests and responses -/

/-- Payload passed to `jwt.sign`: `{ userId, username, role }`. -/
structure Payload where
  userId : ObjectId
  username : String
  role : String
  deriving DecidableEq, Repr

/-- Decoded token as returned by `jwt.verify`: the signed payload together
with the `iat` and `exp` fields added at issuance. -/
structure Claims where
  userId : ObjectId
  username : String
  role : String
  iat : Int
  exp : Int
  deriving DecidableEq, Repr

/-- Parsed JSON or multipart body.  Every field is optional (`undefined` when
the key is absent); `extra` holds any further keys the client sent. -/
structure Body where
  username : Option String := none
  email : Option String := none
  password : Option String := none
  role : Option String := none
  isActive : Option Bool := none
  title : Option String := none
  description : Option String := none
  category : Option String := none
  tags : Option String := none
  name : Option String := none
  icon : Option String := none
  templateId : Option ObjectId := none
  trendId : Option ObjectId := none
  createdBy : Option ObjectId := none
  extra : List (String × String) := []
  deriving DecidableEq, Repr

/-- Query string of a request, with numeric parameters already read as
integers (`page - 1` and `limit * 1` coerce them in the source). -/
structure Query where
  category : Option String := none
  status : Option String := none
  page : Option Int := none
  limit : Option Int := none
  search : Option String := none
  days : Option Int := none
  q : Option String := none
  type : Option String := none
  deriving DecidableEq, Repr

/-- File part of a multipart request, as seen by multer. -/
structure UploadPart where
  fieldname : String
  originalname : String
  mimetype : String
  size : Nat
  deriving DecidableEq, Repr

/-- Value of `req.file` after `upload.single` stored the part. -/
structure StoredFile where
  filename : String
  deriving DecidableEq, Repr

/-- An Express request object, restricted to what `server.js` reads or writes. -/
structure Request where
  authorization : Option String := none
  id : String := ""
  query : Query := {}
  body : Body := {}
  upload : Option UploadPart := none
  file : Option StoredFile := none
  user : Option Claims := none
  deriving DecidableEq, Repr

/-- User object embedded in the register and login responses. -/
structure UserInfo where
  id : ObjectId
  username : String
  email : String
  role : String
  avatar : Option String := none
  deriving DecidableEq, Repr

/-- User document after `.select('-password')`. -/
structure PublicUser where
  id : ObjectId
  username : String
  email : String
  role : String
  avatar : String
  createdAt : Time
  lastLogin : Option Time
  isActive : Bool
  deriving DecidableEq, Repr

/-- The `stats` object of the admin dashboard. -/
structure Stats where
  totalUsers : Nat
  totalTrends : Nat
  totalTemplates : Nat
  totalMemes : Nat
  activeUsers : Nat
  viralTrends : Nat
  popularTemplates : Nat
  todaysMemes : Nat
  deriving DecidableEq, Repr

/-- The `growth` object of the admin dashboard: four strings produced by
`.toFixed(1)`. -/
structure Growth where
  users : String
  trends : String
  templates : String
  memes : String
  deriving DecidableEq, Repr

/-- JSON bodies sent by the server. -/
inductive ResBody where
  | error (msg : String)
  | internal (error message : String)
  | message (msg : String)
  | auth (message token : String) (user : UserInfo)
  | trendList (trends : List (Trend × Option String)) (totalPages : Option Int)
      (currentPage : Int) (total : Nat)
  | templateList (templates : List (Template × Option String)) (totalPages : Option Int)
      (currentPage : Int) (total : Nat)
  | memeList (memes : List (Meme × Option (String × String) × Option String))
      (totalPages : Option Int) (currentPage : Int) (total : Nat)
  | userList (users : List PublicUser) (totalPages : Option Int) (currentPage : Int)
      (total : Nat)
  | trend (message : String) (trend : Trend × Option String)
  | template (message : String) (template : Template × Option String)
  | meme (message : String) (meme : Meme × Option (String × String) × Option String)
  | views (message : String) (views : Nat)
  | uses (message : String) (uses : Nat)
  | stats (stats : Stats) (growth : Growth)
  | user (message : String) (user : PublicUser)
  | analytics (items : List Analytics)
  | health (status : String) (timestamp : Time) (uptime : Nat)
  | search (trends : Option (List Trend)) (templates : Option (List Template))
  | page (file : String)
  deriving DecidableEq, Repr

/-- A response: `res.status(status).json(body)`. -/
structure Response where
  status : Nat
  body : ResBody
  deriving DecidableEq, Repr

/-! ## Library functions and ambient inputs -/

/-- The two `jsonwebtoken` calls the server makes.  `sign payload secret
expiresIn now` is `jwt.sign(payload, secret, { expiresIn })` evaluated at clock
`now`; `verify token secret now` is `jwt.verify(token, secret, cb)`, `none`
standing for the callback receiving an error. -/
structure Jwt where
  sign : Payload → String → String → Time → String
  verify : String → String → Time → Option Claims

/-- The two `bcryptjs` calls the server makes, on string arguments:
`hash password rounds` and `compare password hash`. -/
structure Bcrypt where
  hash : String → Nat → String
  compare : String → String → Bool

/-- Everything a request handler reads besides the request and the store:
the clock, the process environment, the values drawn for new documents and
file names, and the library functions.  `castObjectId` is the cast Mongoose
applies to an id given as a string (`none` when it raises a cast error),
`regex pattern flags` is the matcher of a `$regex` query condition (`none`
when the store rejects the pattern), and `basename`, `extname` are those of
the `path` module. -/
structure Env where
  now : Time
  tzOffset : Int := 0
  uptime : Nat := 0
  jwtSecret : Option String := none
  nodeEnv : Option String := none
  jwt : Jwt
  bcrypt : Bcrypt
  newId : ObjectId
  random : Nat := 0
  castObjectId : String → Option ObjectId
  regex : String → String → Option (String → Bool)
  basename : String → String
  extname : String → String

/-- The expression `process.env.JWT_SECRET || 'trendzn-secret-key'`. -/
def Env.secret (env : Env) : String :=
  match env.jwtSecret with
  | some s => if s = "" then "trendzn-secret-key" else s
  | none => "trendzn-secret-key"

/-! ## Middleware -/

/-- What one middleware or handler did with a request. -/
inductive MwResult where
  /-- It called `next()` once and sent nothing. -/
  | next (w : World) (req : Request)
  /-- It sent a response and did not call `next()`. -/
  | respond (w : World) (req : Request) (res : Response)
  /-- It threw, or called `next(err)`. -/
  | fail (w : World) (req : Request) (msg : String)
  deriving DecidableEq, Repr

/-- A middleware of the Express chain. -/
abbrev Middleware := Env → World → Request → MwResult

/-- JavaScript `s.split(sep)` for a one-character separator, on the list of
characters of `s`. -/
def jsSplit (sep : Char) : List Char → List (List Char)
  | [] => [[]]
  | c :: cs =>
    if c = sep then [] :: jsSplit sep cs
    else
      match jsSplit sep cs with
      | [] => [[c]]
      | w :: ws => (c :: w) :: ws

/-- The expression `authHeader && authHeader.split(' ')[1]`: `none` is
`undefined`, and an empty header is returned as is. -/
def bearerToken (authHeader : Option String) : Option String :=
  match authHeader with
  | none => none
  | some h =>
    if h = "" then some ""
    else ((jsSplit ' ' h.toList)[1]?).map String.mk

/-- JavaScript truthiness of a value that is a string or `undefined`. -/
def truthy (v : Option String) : Bool :=
  match v with
  | none => false
  | some s => s ≠ ""

/-- The `authenticateToken` middleware. -/
def authenticateToken : Middleware := fun env w req =>
  let authHeader := req.authorization
  let token := bearerToken authHeader
  if !truthy token then
    .respond w req ⟨401, .error "Access token required"⟩
  else
    match env.jwt.verify (token.getD "") env.secret env.now with
    | none => .respond w req ⟨403, .error "Invalid token"⟩
    | some user => .next w { req with user := some user }

/-- The `requireAdmin` middleware.  Reading `req.user.role` throws when no
identity is attached. -/
def requireAdmin : Middleware := fun _ w req =>
  match req.user with
  | none => .fail w req "TypeError: req.user is undefined"
  | some user =>
    if user.role ≠ "admin" then
      .respond w req ⟨403, .error "Admin access required"⟩
    else
      .next w req

/-- The error-handling middleware registered last: it answers every error
raised by a middleware. -/
def errorHandler (env : Env) (msg : String) : Response :=
  ⟨500, .internal "Internal server error"
    (if env.nodeEnv = some "development" then msg else "Something went wrong")⟩

/-- A route handler: it always ends the request with a response, its own
`try`/`catch` turning exceptions into a 500 response. -/
abbrev Handler := Env → World → Request → World × Response

/-- The route `app.METHOD(path, mw₁, …, mwₙ, handler)`: the middlewares run in
order; the first one that does not call `next()` ends the request. -/
def route (mws : List Middleware) (handler : Handler) : Handler := fun env w req =>
  match mws with
  | [] => handler env w req
  | mw :: rest =>
    match mw env w req with
    | .next w' req' => route rest handler env w' req'
    | .respond w' _ res => (w', res)
    | .fail w' _ msg => (w', errorHandler env msg)

/-- The method `s.toLowerCase()`, character by character. -/
def toLowerCase (s : String) : String :=
  String.mk (s.toList.map Char.toLower)

/-- The test `/jpeg|jpg|png|gif|webp/.test(s)`: one of the five words occurs
in `s`. -/
def allowedTypes (s : String) : Bool :=
  ["jpeg", "jpg", "png", "gif", "webp"].any (fun t => decide (t.toList <:+: s.toList))

/-- The multer `fileFilter`: the pattern must match both the lower-cased
extension and the MIME type. -/
def fileFilter (env : Env) (file : UploadPart) : Bool :=
  let extname := allowedTypes (toLowerCase (env.extname file.originalname))
  let mimetype := allowedTypes file.mimetype
  mimetype && extname

/-- The multer `filename` callback. -/
def uploadFilename (env : Env) (file : UploadPart) : String :=
  let uniqueSuffix := toString env.now ++ "-" ++ toString env.random
  file.fieldname ++ "-" ++ uniqueSuffix ++ env.extname file.originalname

/-- The middleware `upload.single('image')`: without a file part it passes the
request on; a part under another field name, a part the filter refuses or a
part over 10MB raises an error; otherwise the file is written to `uploads/` and
`req.file` is set. -/
def uploadSingleImage : Middleware := fun env w req =>
  match req.upload with
  | none => .next w req
  | some file =>
    if file.fieldname ≠ "image" then .fail w req "Unexpected field"
    else if !fileFilter env file then .fail w req "Only image files are allowed"
    else if file.size > 10 * 1024 * 1024 then .fail w req "File too large"
    else
      let filename := uploadFilename env file
      .next { w with files := filename :: w.files.erase filename }
        { req with file := some ⟨filename⟩ }

/-! ## Store operations -/

/-- Replace the first element satisfying `p` by its image under `f`
(`updateOne`, and `save()` of a loaded document). -/
def updateFirst {α : Type} (p : α → Bool) (f : α → α) : List α → List α
  | [] => []
  | a :: as => if p a then f a :: as else a :: updateFirst p f as

/-- Remove the first element satisfying `p` (`findByIdAndDelete`). -/
def removeFirst {α : Type} (p : α → Bool) : List α → List α
  | [] => []
  | a :: as => if p a then as else a :: removeFirst p as

/-- The Mongoose `required` validator on a string path: the value must be
present and non-empty. -/
def required (v : Option String) : Bool := truthy v

/-- The query `find(..).sort(..).limit(limit).skip(skip)` applied to the
matching documents already in sort order: the server skips first and limits
second, rejects a negative skip (`none`), reads a limit of zero as no limit
and a negative limit as its absolute value. -/
def findPage {α : Type} (sorted : List α) (limit skip : Int) : Option (List α) :=
  if skip < 0 then none
  else
    let rest := sorted.drop skip.toNat
    some (if limit = 0 then rest else rest.take limit.natAbs)

/-- The value sent for `Math.ceil(total / limit)`; a division by zero gives
`Infinity` or `NaN`, which JSON renders as `null`. -/
def totalPages (total : Nat) (limit : Int) : Option Int :=
  if limit = 0 then none else some ⌈(total : ℚ) / (limit : ℚ)⌉

/-- Sort newest first (`sort({ createdAt: -1 })`), ties kept in store order. -/
def newestFirst {α : Type} (createdAt : α → Time) (l : List α) : List α :=
  l.insertionSort (fun a b => createdAt a ≥ createdAt b)

/-- The populated `createdBy` field: the username of the referenced user, when
that user exists. -/
def populateUsername (w : World) (createdBy : Option ObjectId) : Option String :=
  match createdBy with
  | none => none
  | some uid => (w.users.find? (fun u => u.id = uid)).map (fun u => u.username)

/-! ## Authentication routes -/

/-- Handler of `POST /api/auth/register`.  A query condition on an absent
(`undefined`) field matches no stored user, since every stored user has a
username and an email. -/
def register : Handler := fun env w req =>
  let username := req.body.username
  let email := req.body.email
  let password := req.body.password
  let existingUser := w.users.find? (fun u => some u.email = email || some u.username = username)
  match existingUser with
  | some _ => (w, ⟨400, .error "User already exists"⟩)
  | none =>
    match password with
    | none => (w, ⟨500, .error "Illegal arguments: undefined, number"⟩)
    | some pw =>
      let hashedPassword := env.bcrypt.hash pw 12
      if required username && required email && required (some hashedPassword) then
        let user : User :=
          { id := env.newId, username := username.getD "", email := email.getD "",
            password := hashedPassword, createdAt := env.now }
        let w' := { w with users := w.users ++ [user] }
        let token := env.jwt.sign ⟨user.id, user.username, user.role⟩ env.secret "7d" env.now
        (w', ⟨201, .auth "User created successfully" token
          { id := user.id, username := user.username, email := user.email, role := user.role }⟩)
      else (w, ⟨500, .error "User validation failed"⟩)

/-- Handler of `POST /api/auth/login`. -/
def login : Handler := fun env w req =>
  let email := req.body.email
  let password := req.body.password
  match w.users.find? (fun u => some u.email = email) with
  | none => (w, ⟨400, .error "Invalid credentials"⟩)
  | some user =>
    match password with
    | none => (w, ⟨500, .error "Illegal arguments: undefined, string"⟩)
    | some pw =>
      let isValidPassword := env.bcrypt.compare pw user.password
      if !isValidPassword then (w, ⟨400, .error "Invalid credentials"⟩)
      else
        let user := { user with lastLogin := some env.now }
        let users := updateFirst (fun u => u.id = user.id)
          (fun u => { u with lastLogin := some env.now }) w.users
        let w' := { w with users := users }
        let token := env.jwt.sign ⟨user.id, user.username, user.role⟩ env.secret "7d" env.now
        (w', ⟨200, .auth "Login successful" token
          { id := user.id, username := user.username, email := user.email, role := user.role,
            avatar := some user.avatar }⟩)

/-! ## Trend routes -/

/-- The filter object built by `GET /api/trends`. -/
def trendFilter (q : Query) (t : Trend) : Bool :=
  (if truthy q.category && q.category != some "all" then some t.category == q.category
    else true) &&
  (if truthy q.status then some t.status == q.status else true)

/-- Handler of `GET /api/trends`. -/
def getTrends : Handler := fun _ w req =>
  let page := req.query.page.getD 1
  let limit := req.query.limit.getD 10
  let matching := w.trends.filter (trendFilter req.query)
  match findPage (newestFirst (fun t => t.createdAt) matching) (limit * 1)
      ((page - 1) * limit) with
  | none => (w, ⟨500, .error "Skip value must be non-negative"⟩)
  | some trends =>
    let total := matching.length
    (w, ⟨200, .trendList (trends.map (fun t => (t, populateUsername w t.createdBy)))
      (totalPages total limit) page total⟩)

/-- The expression `tags ? tags.split(',') : []`. -/
def splitTags (tags : Option String) : List String :=
  if truthy tags then (jsSplit ',' (tags.getD "").toList).map String.mk else []

/-- Handler of `POST /api/trends`, run after `authenticateToken` and the upload
middleware. -/
def createTrend : Handler := fun env w req =>
  match req.user with
  | none => (w, ⟨500, .error "TypeError: req.user is undefined"⟩)
  | some user =>
    let title := req.body.title
    let description := req.body.description
    let category := req.body.category
    let imageUrl := match req.file with
      | some f => "/uploads/" ++ f.filename
      | none => ""
    if required title && required description && required category then
      let trend : Trend :=
        { id := env.newId, title := title.getD "", description := description.getD "",
          category := category.getD "", tags := splitTags req.body.tags,
          imageUrl := imageUrl, createdBy := some user.userId,
          createdAt := env.now, updatedAt := env.now }
      let w' := { w with trends := w.trends ++ [trend] }
      (w', ⟨201, .trend "Trend created successfully"
        (trend, populateUsername w' trend.createdBy)⟩)
    else (w, ⟨500, .error "Trend validation failed"⟩)

/-- Handler of `POST /api/trends/:id/view`. -/
def viewTrend : Handler := fun env w req =>
  match env.castObjectId req.id with
  | none => (w, ⟨500, .error "Cast to ObjectId failed"⟩)
  | some id =>
    match w.trends.find? (fun t => t.id = id) with
    | none => (w, ⟨404, .error "Trend not found"⟩)
    | some trend =>
      let trends := updateFirst (fun t => t.id = id)
        (fun t => { t with views := t.views + 1 }) w.trends
      ({ w with trends := trends }, ⟨200, .views "View recorded" (trend.views + 1)⟩)

/-! ## Template routes -/

/-- The filter object built by `GET /api/templates`. -/
def templateFilter (q : Query) (t : Template) : Bool :=
  if truthy q.category && q.category != some "popular" then some t.category == q.category
  else true

/-- Sort by `{ uses: -1, rating: -1 }`, ties kept in store order. -/
def popularFirst (l : List Template) : List Template :=
  l.insertionSort (fun a b => a.uses > b.uses ∨ (a.uses = b.uses ∧ a.rating ≥ b.rating))

/-- Handler of `GET /api/templates`. -/
def getTemplates : Handler := fun _ w req =>
  let category := req.query.category
  let page := req.query.page.getD 1
  let limit := req.query.limit.getD 10
  let matching := w.templates.filter (templateFilter req.query)
  let sorted :=
    if category = some "popular" then popularFirst matching
    else newestFirst (fun t => t.createdAt) matching
  match findPage sorted (limit * 1) ((page - 1) * limit) with
  | none => (w, ⟨500, .error "Skip value must be non-negative"⟩)
  | some templates =>
    let total := matching.length
    (w, ⟨200, .templateList (templates.map (fun t => (t, populateUsername w t.createdBy)))
      (totalPages total limit) page total⟩)

/-- Handler of `POST /api/templates`, run after `authenticateToken` and the
upload middleware. -/
def createTemplate : Handler := fun env w req =>
  match req.file with
  | none => (w, ⟨400, .error "Image is required"⟩)
  | some file =>
    match req.user with
    | none => (w, ⟨500, .error "TypeError: req.user is undefined"⟩)
    | some user =>
      let name := req.body.name
      let category := req.body.category
      let icon := if truthy req.body.icon then req.body.icon.getD "" else "🎭"
      if required name && required category then
        let template : Template :=
          { id := env.newId, name := name.getD "", description := req.body.description,
            category := category.getD "", icon := icon, tags := splitTags req.body.tags,
            imageUrl := "/uploads/" ++ file.filename, createdBy := some user.userId,
            createdAt := env.now }
        let w' := { w with templates := w.templates ++ [template] }
        (w', ⟨201, .template "Template created successfully"
          (template, populateUsername w' template.createdBy)⟩)
      else (w, ⟨500, .error "Template validation failed"⟩)

/-- Handler of `POST /api/templates/:id/use`. -/
def useTemplate : Handler := fun env w req =>
  match env.castObjectId req.id with
  | none => (w, ⟨500, .error "Cast to ObjectId failed"⟩)
  | some id =>
    match w.templates.find? (fun t => t.id = id) with
    | none => (w, ⟨404, .error "Template not found"⟩)
    | some template =>
      let templates := updateFirst (fun t => t.id = id)
        (fun t => { t with uses := t.uses + 1 }) w.templates
      ({ w with templates := templates }, ⟨200, .uses "Usage recorded" (template.uses + 1)⟩)

/-! ## Meme routes -/

/-- The populated `templateId` (`name icon`) and `trendId` (`title`) of a meme. -/
def populateMeme (w : World) (m : Meme) : Meme × Option (String × String) × Option String :=
  (m,
   m.templateId.bind (fun i =>
     (w.templates.find? (fun t => t.id = i)).map (fun t => (t.name, t.icon))),
   m.trendId.bind (fun i => (w.trends.find? (fun t => t.id = i)).map (fun t => t.title)))

/-- Handler of `GET /api/memes`, run after `authenticateToken`. -/
def getMemes : Handler := fun _ w req =>
  match req.user with
  | none => (w, ⟨500, .error "TypeError: req.user is undefined"⟩)
  | some user =>
    let page := req.query.page.getD 1
    let limit := req.query.limit.getD 10
    let matching := w.memes.filter (fun m => m.createdBy = some user.userId)
    match findPage (newestFirst (fun m => m.createdAt) matching) (limit * 1)
        ((page - 1) * limit) with
    | none => (w, ⟨500, .error "Skip value must be non-negative"⟩)
    | some memes =>
      let total := matching.length
      (w, ⟨200, .memeList (memes.map (populateMeme w)) (totalPages total limit) page total⟩)

/-- Handler of `POST /api/memes`, run after `authenticateToken` and the upload
middleware. -/
def createMeme : Handler := fun env w req =>
  match req.file with
  | none => (w, ⟨400, .error "Meme image is required"⟩)
  | some file =>
    match req.user with
    | none => (w, ⟨500, .error "TypeError: req.user is undefined"⟩)
    | some user =>
      let title := req.body.title
      if required title then
        let meme : Meme :=
          { id := env.newId, title := title.getD "",
            imageUrl := "/uploads/" ++ file.filename,
            templateId := req.body.templateId, trendId := req.body.trendId,
            createdBy := some user.userId, createdAt := env.now }
        let w' := { w with memes := w.memes ++ [meme] }
        (w', ⟨201, .meme "Meme created successfully" (populateMeme w' meme)⟩)
      else (w, ⟨500, .error "Meme validation failed"⟩)

/-! ## Admin routes -/

/-- Milliseconds in a day. -/
def dayMs : Int := 86400000

/-- The instant `new Date().setHours(0, 0, 0, 0)`: the last local midnight. -/
def midnight (env : Env) : Time :=
  env.now - (env.now + env.tzOffset) % dayMs

/-- The instant `new Date(new Date().setDate(new Date().getDate() - 1))`: the
same time of day one calendar day earlier. -/
def yesterday (env : Env) : Time :=
  env.now - dayMs

/-- Round to the nearest integer, a tie going to the even one. -/
def roundHalfEven (x : ℚ) : Int :=
  if x - ⌊x⌋ < 1 / 2 then ⌊x⌋
  else if 1 / 2 < x - ⌊x⌋ then ⌊x⌋ + 1
  else if ⌊x⌋ % 2 = 0 then ⌊x⌋ else ⌊x⌋ + 1

/-- The double nearest to `x`.  A JavaScript number is held as the rational it
denotes; a result is rounded to 53 significant bits, a tie going to the even
significand (IEEE 754 binary64, round to nearest).  The exponent is not
bounded: infinities, `NaN`, the sign of zero and subnormal numbers do not
occur for the counts and quotients formed here. -/
def roundDouble (x : ℚ) : ℚ :=
  if x = 0 then 0
  else roundHalfEven (x / 2 ^ (Int.log 2 |x| - 52)) * 2 ^ (Int.log 2 |x| - 52)

/-- The difference `a - b` of two doubles. -/
def fsub (a b : ℚ) : ℚ := roundDouble (a - b)

/-- The quotient `a / b` of two doubles, for a divisor other than zero. -/
def fdiv (a b : ℚ) : ℚ := roundDouble (a / b)

/-- The product `a * b` of two doubles. -/
def fmul (a b : ℚ) : ℚ := roundDouble (a * b)

/-- The divisor `before || 1`. -/
def orOne (before : Nat) : ℚ :=
  if before = 0 then 1 else (before : ℚ)

/-- The number `(total - before) / (before || 1) * 100` as the route computes
it, each operation rounding to a double; the counts are below `2^53` and so
held exactly. -/
def growthOf (total before : Nat) : ℚ :=
  fmul (fdiv (fsub (total : ℚ) (before : ℚ)) (orOne before)) 100

/-- The integer `n` that `x.toFixed(1)` prints as tenths: `n / 10` is as close
to `x` as possible, the sign is that of `x`, and of two candidates the one
larger in absolute value is taken. -/
def roundTenths (x : ℚ) : Int :=
  if x < 0 then -⌊(-x) * 10 + 1 / 2⌋ else ⌊x * 10 + 1 / 2⌋

/-- The method `x.toFixed(1)` on the double `x`, for `|x| < 10^21`: a minus
sign when `x < 0`, the digits of the rounded tenths before the last one, a
point, the last digit. -/
def toFixed1 (x : ℚ) : String :=
  let n := (roundTenths x).natAbs
  (if x < 0 then "-" else "") ++ toString (n / 10) ++ "." ++ toString (n % 10)

/-- Handler of `GET /api/admin/stats`. -/
def adminStats : Handler := fun env w _ =>
  let stats : Stats :=
    { totalUsers := w.users.length
      totalTrends := w.trends.length
      totalTemplates := w.templates.length
      totalMemes := w.memes.length
      activeUsers := (w.users.filter (fun u => u.isActive)).length
      viralTrends := (w.trends.filter (fun t => t.status = "viral")).length
      popularTemplates := (w.templates.filter (fun t => t.isPopular)).length
      todaysMemes := (w.memes.filter (fun m => m.createdAt ≥ midnight env)).length }
  let yesterday := yesterday env
  let users := (w.users.filter (fun u => u.createdAt < yesterday)).length
  let trends := (w.trends.filter (fun t => t.createdAt < yesterday)).length
  let templates := (w.templates.filter (fun t => t.createdAt < yesterday)).length
  let memes := (w.memes.filter (fun m => m.createdAt < yesterday)).length
  let growth : Growth :=
    { users := toFixed1 (growthOf stats.totalUsers users)
      trends := toFixed1 (growthOf stats.totalTrends trends)
      templates := toFixed1 (growthOf stats.totalTemplates templates)
      memes := toFixed1 (growthOf stats.totalMemes memes) }
  (w, ⟨200, .stats stats growth⟩)

/-- A user document without its password (`.select('-password')`). -/
def publicUser (u : User) : PublicUser :=
  { id := u.id, username := u.username, email := u.email, role := u.role, avatar := u.avatar,
    createdAt := u.createdAt, lastLogin := u.lastLogin, isActive := u.isActive }

/-- Handler of `GET /api/admin/users`. -/
def adminUsers : Handler := fun env w req =>
  let page := req.query.page.getD 1
  let limit := req.query.limit.getD 10
  let search := req.query.search
  let filter : Option (User → Bool) :=
    if truthy search then
      (env.regex (search.getD "") "i").map (fun m => fun u => m u.username || m u.email)
    else some (fun _ => true)
  match filter with
  | none => (w, ⟨500, .error "Regular expression is invalid"⟩)
  | some f =>
    let matching := w.users.filter f
    match findPage (newestFirst (fun u => u.createdAt) matching) (limit * 1)
        ((page - 1) * limit) with
    | none => (w, ⟨500, .error "Skip value must be non-negative"⟩)
    | some users =>
      let total := matching.length
      (w, ⟨200, .userList (users.map publicUser) (totalPages total limit) page total⟩)

/-- Handler of `PUT /api/admin/users/:id`.  The update `{ role, isActive }`
sets the keys the body carries; a key whose value is `undefined` is dropped
from the update, and no schema validator runs. -/
def updateUser : Handler := fun env w req =>
  let role := req.body.role
  let isActive := req.body.isActive
  match env.castObjectId req.id with
  | none => (w, ⟨500, .error "Cast to ObjectId failed"⟩)
  | some id =>
    match w.users.find? (fun u => u.id = id) with
    | none => (w, ⟨404, .error "User not found"⟩)
    | some user =>
      let set := fun (u : User) =>
        { u with role := role.getD u.role, isActive := isActive.getD u.isActive }
      let users := updateFirst (fun u => u.id = id) set w.users
      ({ w with users := users }, ⟨200, .user "User updated successfully" (publicUser (set user))⟩)

/-- Removal of the image behind `imageUrl` from `uploads/`, when the URL is
non-empty and the file exists. -/
def deleteImage (env : Env) (imageUrl : String) (files : List String) : List String :=
  if imageUrl ≠ "" then
    let imagePath := env.basename imageUrl
    if imagePath ∈ files then files.erase imagePath else files
  else files

/-- Handler of `DELETE /api/admin/trends/:id`. -/
def deleteTrend : Handler := fun env w req =>
  match env.castObjectId req.id with
  | none => (w, ⟨500, .error "Cast to ObjectId failed"⟩)
  | some id =>
    match w.trends.find? (fun t => t.id = id) with
    | none => (w, ⟨404, .error "Trend not found"⟩)
    | some trend =>
      let trends := removeFirst (fun t => t.id = id) w.trends
      ({ w with trends := trends, files := deleteImage env trend.imageUrl w.files },
        ⟨200, .message "Trend deleted successfully"⟩)

/-- Handler of `DELETE /api/admin/templates/:id`. -/
def deleteTemplate : Handler := fun env w req =>
  match env.castObjectId req.id with
  | none => (w, ⟨500, .error "Cast to ObjectId failed"⟩)
  | some id =>
    match w.templates.find? (fun t => t.id = id) with
    | none => (w, ⟨404, .error "Template not found"⟩)
    | some template =>
      let templates := removeFirst (fun t => t.id = id) w.templates
      ({ w with templates := templates, files := deleteImage env template.imageUrl w.files },
        ⟨200, .message "Template deleted successfully"⟩)

/-! ## Analytics and utility routes -/

/-- Handler of `POST /api/analytics/update`. -/
def updateAnalytics : Handler := fun env w _ =>
  let today := midnight env
  let analytics :=
    match w.analytics.find? (fun a => a.date = today) with
    | none =>
      w.analytics ++
        [{ id := env.newId, date := today, totalUsers := w.users.length,
           totalTrends := w.trends.length, totalTemplates := w.templates.length,
           totalMemes := w.memes.length }]
    | some found =>
      updateFirst (fun a => a.id = found.id)
        (fun a => { a with totalUsers := w.users.length, totalTrends := w.trends.length,
                           totalTemplates := w.templates.length,
                           totalMemes := w.memes.length })
        w.analytics
  ({ w with analytics := analytics }, ⟨200, .message "Analytics updated"⟩)

/-- Handler of `GET /api/analytics`. -/
def getAnalytics : Handler := fun env w req =>
  let days := req.query.days.getD 7
  let startDate := env.now - days * dayMs
  let analytics := (w.analytics.filter (fun a => a.date ≥ startDate)).insertionSort
    (fun a b => a.date ≤ b.date)
  (w, ⟨200, .analytics analytics⟩)

/-- Handler of `GET /api/health`. -/
def health : Handler := fun env w _ =>
  (w, ⟨200, .health "OK" env.now env.uptime⟩)

/-- Handler of `GET /api/search`. -/
def search : Handler := fun env w req =>
  let q := req.query.q
  let type := req.query.type.getD "all"
  if !truthy q then (w, ⟨400, .error "Search query required"⟩)
  else
    match env.regex (q.getD "") "i" with
    | none => (w, ⟨500, .error "Regular expression is invalid"⟩)
    | some m =>
      let trends :=
        if type = "all" ∨ type = "trends" then
          some ((w.trends.filter (fun t => m t.title || m t.description || t.tags.any m)).take 5)
        else none
      let templates :=
        if type = "all" ∨ type = "templates" then
          some ((w.templates.filter
            (fun t => m t.name || (t.description.map m).getD false || t.tags.any m)).take 5)
        else none
      (w, ⟨200, .search trends templates⟩)

/-- Handler of `GET *`: the frontend page. -/
def frontend : Handler := fun _ w _ =>
  (w, ⟨200, .page "index.html"⟩)

/-! ## The API -/

/-- The routes registered by `server.js`; the `:id` parameter of a route is the
field `id` of the request. -/
inductive Route where
  | register
  | login
  | getTrends
  | createTrend
  | viewTrend
  | getTemplates
  | createTemplate
  | useTemplate
  | getMemes
  | createMeme
  | adminStats
  | adminUsers
  | updateUser
  | deleteTrend
  | deleteTemplate
  | updateAnalytics
  | getAnalytics
  | health
  | search
  | frontend
  deriving DecidableEq, Repr

/-- One request served by the application: the middleware chain and handler
registered for the route. -/
def handle (r : Route) : Handler :=
  match r with
  | .register => route [] register
  | .login => route [] login
  | .getTrends => route [] getTrends
  | .createTrend => route [authenticateToken, uploadSingleImage] createTrend
  | .viewTrend => route [] viewTrend
  | .getTemplates => route [] getTemplates
  | .createTemplate => route [authenticateToken, uploadSingleImage] createTemplate
  | .useTemplate => route [] useTemplate
  | .getMemes => route [authenticateToken] getMemes
  | .createMeme => route [authenticateToken, uploadSingleImage] createMeme
  | .adminStats => route [authenticateToken, requireAdmin] adminStats
  | .adminUsers => route [authenticateToken, requireAdmin] adminUsers
  | .updateUser => route [authenticateToken, requireAdmin] updateUser
  | .deleteTrend => route [authenticateToken, requireAdmin] deleteTrend
  | .deleteTemplate => route [authenticateToken, requireAdmin] deleteTemplate
  | .updateAnalytics => route [] updateAnalytics
  | .getAnalytics => route [authenticateToken, requireAdmin] getAnalytics
  | .health => route [] health
  | .search => route [] search
  | .frontend => route [] frontend

/-- The admin-tier routes. -/
def adminRoutes : List Route :=
  [.adminStats, .adminUsers, .updateUser, .deleteTrend, .deleteTemplate, .getAnalytics]

/-- The header has no token segment after its first space: either it has no
space at all, or what follows the first space is empty or starts with another
space. -/
def NoTokenSegment (h : String) : Prop :=
  ∀ pre rest, h.toList = pre ++ ' ' :: rest → ' ' ∉ pre →
    rest = [] ∨ ∃ rest', rest = ' ' :: rest'

/-- The ids of the items carried by the response of a list route. -/
def listedIds : ResBody → List ObjectId
  | .trendList items _ _ _ => items.map (fun x => x.1.id)
  | .templateList items _ _ _ => items.map (fun x => x.1.id)
  | .memeList items _ _ _ => items.map (fun x => x.1.id)
  | _ => []

/-- The request `req` asking for page `p`. -/
def withPage (req : Request) (p : Int) : Request :=
  { req with query := { req.query with page := some p } }

/-- The request passes `authenticateToken` and then `requireAdmin`: its token
verifies to an identity whose role is `admin`. -/
def AdminAuthenticated (env : Env) (req : Request) : Prop :=
  truthy (bearerToken req.authorization) = true ∧
  ∃ c, env.jwt.verify ((bearerToken req.authorization).getD "") env.secret env.now = some c ∧
    c.role = "admin"

/-- Every user of `w` is still in `w'`, at the same position, under the same
id and with the same role; `w'` may hold further users after them. -/
def RolesKept (w w' : World) : Prop :=
  ∃ added, w'.users.map (fun u => (u.id, u.role)) =
    w.users.map (fun u => (u.id, u.role)) ++ added

/-- What the server relies on from the token library for the payload `p`
signed at clock `issued` with `expiresIn: '7d'`: the token is a non-empty
string without spaces, and until its expiry (whole seconds, 604800 of them
after issuance) verification returns claims carrying the fields of `p`. -/
def Jwt.Honours (jwt : Jwt) (secret : String) (p : Payload) (issued : Time) : Prop :=
  jwt.sign p secret "7d" issued ≠ "" ∧
  ' ' ∉ (jwt.sign p secret "7d" issued).toList ∧
  ∀ now : Time, issued ≤ now → now / 1000 < issued / 1000 + 604800 →
    ∃ c, jwt.verify (jwt.sign p secret "7d" issued) secret now = some c ∧
      c.userId = p.userId ∧ c.username = p.username ∧ c.role = p.role

/-- The store and files a middleware left behind. -/
def MwResult.world : MwResult → World
  | .next w _ => w
  | .respond w _ _ => w
  | .fail w _ _ => w

/-- What a middleware decided, without the store and without the parts of the
request it did not produce: the identity it passed downstream, the response it
sent, or the error it raised. -/
inductive Verdict where
  | identity (user : Option Claims)
  | rejected (res : Response)
  | failed (msg : String)
  deriving DecidableEq, Repr

/-- The verdict of a middleware run. -/
def MwResult.verdict : MwResult → Verdict
  | .next _ req => .identity req.user
  | .respond _ _ res => .rejected res
  | .fail _ _ msg => .failed msg

/-! ## Sample values used to instantiate the theorems -/

/-- A token service that accepts exactly the token `tok-alice` before its expiry. -/
def sampleJwt : Jwt where
  sign := fun p _ _ _ => "tok-" ++ p.username
  verify := fun t _ now =>
    if t = "tok-alice" ∧ now / 1000 < 604801 then
      some { userId := 1, username := "alice", role := "user", iat := 1, exp := 604801 }
    else none

/-- A password hasher that tags the clear text. -/
def sampleBcrypt : Bcrypt where
  hash := fun p _ => "hash:" ++ p
  compare := fun p h => h = "hash:" ++ p

/-- A sample ObjectId cast: decimal numerals are ids, every other string is
refused. -/
def sampleCast (s : String) : Option ObjectId :=
  if s.toList ≠ [] ∧ s.toList.all Char.isDigit then
    some (s.toList.foldl (fun n c => 10 * n + (c.toNat - 48)) 0)
  else none

/-- A sample matcher: case-insensitive containment of the pattern. -/
def sampleRegex (pat : String) (_flags : String) : Option (String → Bool) :=
  some (fun s => decide ((toLowerCase pat).toList <:+: (toLowerCase s).toList))

/-- A sample `path.basename`: what follows the last slash. -/
def sampleBasename (s : String) : String :=
  String.mk ((jsSplit '/' s.toList).getLastD [])

/-- A sample `path.extname`: the last dot and what follows it. -/
def sampleExtname (s : String) : String :=
  if (jsSplit '.' s.toList).length > 1 then
    String.mk ('.' :: (jsSplit '.' s.toList).getLastD [])
  else ""

/-- A sample environment. -/
def sampleEnv : Env where
  now := 1000
  jwt := sampleJwt
  bcrypt := sampleBcrypt
  newId := 100
  castObjectId := sampleCast
  regex := sampleRegex
  basename := sampleBasename
  extname := sampleExtname

/-- The identity the sample token service returns for `tok-alice`. -/
def aliceClaims : Claims :=
  { userId := 1, username := "alice", role := "user", iat := 1, exp := 604801 }

/-- A sample user with role `user`. -/
def alice : User :=
  { id := 1, username := "alice", email := "alice@example.com", password := "hash:secret",
    createdAt := 10 }

/-- A sample user with role `admin`. -/
def root : User :=
  { id := 2, username := "root", email := "root@example.com", password := "hash:admin",
    role := "admin", createdAt := 5 }

/-- A sample store: two users, three trends, one stored image. -/
def sampleWorld : World :=
  { users := [alice, root]
    trends :=
      [{ id := 10, title := "a", description := "a", category := "tech",
         imageUrl := "/uploads/image-1.png", createdBy := some 2, createdAt := 20,
         updatedAt := 20 },
       { id := 11, title := "b", description := "b", category := "tech", createdAt := 30,
         updatedAt := 30 },
       { id := 12, title := "c", description := "c", category := "fun", createdAt := 40,
         updatedAt := 40 }]
    files := ["image-1.png"] }

/-- The sample store after an admin made `alice` an inactive admin. -/
def laterWorld : World :=
  { sampleWorld with
    users := [{ alice with role := "admin", isActive := false }, root] }

/-- A login request of `alice` with her password. -/
def aliceLogin : Request :=
  { body := { email := some "alice@example.com", password := some "secret" } }

/-- A request presenting the token of `alice`. -/
def aliceRequest : Request :=
  { authorization := some "Bearer tok-alice", id := "10" }

/-- A registration whose body also carries a `role` key. -/
def bobRegister : Request :=
  { body := { username := some "bob", email := some "bob@example.com",
              password := some "pw", role := some "admin" } }

/-! ## Statements in the words of the interface -/

/-- The filter of `GET /api/trends` as the interface describes it: the category
when one is given and is not `all`, the status when one is given; a parameter
is given when it is present and not empty. -/
def MatchesTrendQuery (q : Query) (t : Trend) : Prop :=
  (∀ c, q.category = some c → c ≠ "" → c ≠ "all" → t.category = c) ∧
  (∀ s, q.status = some s → s ≠ "" → t.status = s)

/-- Template `a` may stand before template `b` in the popularity order: more
uses first, and for equal uses the higher rating first. -/
def PopularBefore (a b : Template) : Prop :=
  a.uses ≥ b.uses ∧ (a.uses = b.uses → a.rating ≥ b.rating)

/-- Template `a` may stand before template `b` in the newest-first order. -/
def NewerBefore (a b : Template) : Prop :=
  a.createdAt ≥ b.createdAt

/-- A trend request for page 2 of the category `tech`, one item per page. -/
def techPage : Request :=
  { query := { category := some "tech", page := some 2, limit := some 1 } }

/-- A sample store holding three templates. -/
def templateWorld : World :=
  { sampleWorld with
    templates :=
      [{ id := 20, name := "x", category := "classic", imageUrl := "/uploads/image-2.png",
         uses := 5, rating := 3, createdAt := 50 },
       { id := 21, name := "y", category := "classic", imageUrl := "/uploads/image-3.png",
         uses := 9, rating := 1, createdAt := 60 },
       { id := 22, name := "z", category := "fresh", imageUrl := "/uploads/image-4.png",
         uses := 5, rating := 4, createdAt := 70 }]
    files := ["image-1.png", "image-2.png", "image-3.png", "image-4.png"] }

/-- A create request of `alice` without a file part, whose body names another
owner. -/
def aliceCreate : Request :=
  { authorization := some "Bearer tok-alice"
    body := { title := some "T", description := some "d", category := some "tech",
              name := some "N", createdBy := some 2 } }

/-- A create request of `alice` with an image, whose body names another owner. -/
def aliceUpload : Request :=
  { aliceCreate with
    upload := some { fieldname := "image", originalname := "cat.png",
                     mimetype := "image/png", size := 1024 } }

/-- The identity the admin token service returns for `tok-root`. -/
def rootClaims : Claims :=
  { userId := 2, username := "root", role := "admin", iat := 1, exp := 604801 }

/-- A token service that accepts exactly the token `tok-root`, of an admin. -/
def rootJwt : Jwt where
  sign := fun p _ _ _ => "tok-" ++ p.username
  verify := fun t _ now =>
    if t = "tok-root" ∧ now / 1000 < 604801 then some rootClaims else none

/-- The sample environment with the admin token service. -/
def adminEnv : Env :=
  { sampleEnv with jwt := rootJwt }

/-- A request of the admin `root` on the route parameter `id`. -/
def rootRequest (id : String) : Request :=
  { authorization := some "Bearer tok-root", id := id }

/-- A matcher that reads the pattern `.` as a regular expression does (any
character but a line break matches) and any other pattern as the sample
matcher does. -/
def dotRegex (pat : String) (flags : String) : Option (String → Bool) :=
  if pat = "." then some (fun s => s.toList.any (fun c => c ≠ '\n'))
  else sampleRegex pat flags

/-- The admin environment with `dotRegex` as matcher. -/
def regexEnv : Env :=
  { adminEnv with regex := dotRegex }

/-- A sample user whose username and email contain no dot. -/
def bob : User :=
  { id := 3, username := "bob", email := "bob@localhost", password := "hash:pw",
    createdAt := 15 }

/-- A store holding `bob` only. -/
def bobWorld : World :=
  { users := [bob] }

/-- A meme upload of `alice` titled `Test`. -/
def aliceMeme : Request :=
  { authorization := some "Bearer tok-alice"
    body := { title := some "Test" }
    upload := some { fieldname := "image", originalname := "meme.png",
                     mimetype := "image/png", size := 2048 } }

/-- A snapshot with the current collection counts written into it. -/
def withCounts (w : World) (a : Analytics) : Analytics :=
  { a with totalUsers := w.users.length, totalTrends := w.trends.length,
           totalTemplates := w.templates.length, totalMemes := w.memes.length }

/-- The sample store with a snapshot of an earlier day and a stale snapshot of
the current day. -/
def snapshotWorld : World :=
  { sampleWorld with
    analytics := [{ id := 30, date := -86400000, totalUsers := 1 },
                  { id := 31, date := 0, totalUsers := 7, totalTrends := 7, dailyViews := 4 }] }

/-- The growth entry `printed` for the counts `total` and `before` is not
negative: `before` does not exceed `total`, the number formatted and its
rounded tenths are at least 0, and the string is those tenths without a sign. -/
def NonNegativeGrowth (total before : Nat) (printed : String) : Prop :=
  before ≤ total ∧ 0 ≤ growthOf total before ∧ 0 ≤ roundTenths (growthOf total before) ∧
  printed = toString ((roundTenths (growthOf total before)).natAbs / 10) ++ "." ++
    toString ((roundTenths (growthOf total before)).natAbs % 10)

/-- The sample store with `alice` deactivated. -/
def inactiveWorld : World :=
  { sampleWorld with users := [{ alice with isActive := false }, root] }

/-- The sample environment run with `NODE_ENV=production`. -/
def productionEnv : Env :=
  { sampleEnv with nodeEnv := some "production" }

/-- A trend creation of `alice` whose body has no title. -/
def untitledTrend : Request :=
  { authorization := some "Bearer tok-alice"
    body := { description := some "d", category := some "tech" } }

/-- A registration whose body has no password. -/
def passwordlessRegister : Request :=
  { body := { username := some "carol", email := some "carol@example.com" } }

/-! ## The client (`app.js`)

The client is a state machine over the fields that the session and navigation
code of `TrendzNApp` writes: the token kept in `localStorage`, `user`,
`isAdmin` and `currentSection`, together with the notifications shown, the
modals open and the requests handed to `fetch`.  The network is a function from
the request to what `fetch` followed by `response.json()` gives.  Rendering and
the data loaders (`updateUI`, `loadUserData`, `loadUserMemes`, `loadAdminData`,
`loadUsersTable`) write none of these fields, catch their own errors and send
`GET` requests only; they are left out, and the page is taken to contain the
elements that the code looks up.  The message of an error that the engine
raises is the one of SpiderMonkey. -/

/-- Body of a request of the client, before `JSON.stringify`. -/
inductive SentBody where
  | credentials (email password : String)
  | registration (username email password : String)
  | status (isActive : Bool)
  deriving DecidableEq, Repr

/-- The second argument of `apiCall`. -/
structure Options where
  method : Option String := none
  authorization : Option String := none
  contentType : Option String := none
  body : Option SentBody := none
  deriving DecidableEq, Repr

/-- A request handed to `fetch`. -/
structure Sent where
  url : String
  method : Option String := none
  authorization : Option String := none
  contentType : Option String := none
  body : Option SentBody := none
  deriving DecidableEq, Repr

/-- The fields that the client reads of a parsed response body. -/
structure Data where
  error : Option String := none
  token : Option String := none
  user : Option UserInfo := none
  deriving DecidableEq, Repr

/-- A response whose body was parsed; `data = none` is the JSON value `null`. -/
structure Reply where
  status : Nat
  data : Option Data := some {}
  deriving DecidableEq, Repr

/-- How an awaited call ends. -/
inductive Completion (α : Type) where
  | returns (value : α)
  | throws (message : String)
  deriving DecidableEq, Repr

/-- The network: `fetch` followed by `response.json()`, which throw when the
request fails or the body is not JSON. -/
abbrev Fetch := Sent → Completion Reply

/-- The state of the client. -/
structure Client where
  apiBase : String := "/api"
  token : Option String := none
  user : Option UserInfo := none
  isAdmin : Bool := false
  currentSection : String := "home"
  notifications : List (String × String) := []
  modals : List String := []
  sent : List Sent := []
  deriving DecidableEq, Repr

/-- The state that the constructor of `TrendzNApp` sets up, with the token that
the browser has kept. -/
def initialClient (stored : Option String) : Client :=
  { token := stored }

/-- The property `response.ok`. -/
def Reply.ok (r : Reply) : Bool :=
  200 ≤ r.status && r.status ≤ 299

/-- The method `showNotification(message, type)`. -/
def Client.showNotification (c : Client) (message type : String) : Client :=
  { c with notifications := c.notifications ++ [(message, type)] }

/-- The method `showModal(modalId)`. -/
def Client.showModal (c : Client) (modalId : String) : Client :=
  { c with modals := modalId :: c.modals.filter (fun m => m ≠ modalId) }

/-- The method `closeModal(modalId)`. -/
def Client.closeModal (c : Client) (modalId : String) : Client :=
  { c with modals := c.modals.filter (fun m => m ≠ modalId) }

/-- The method `apiCall(endpoint, options)`: the stored token is attached
unless the options carry an `Authorization` header, the request is sent, and a
response that is not `ok` is thrown as `data.error || 'API request failed'`. -/
def Client.apiCall (c : Client) (fetch : Fetch) (endpoint : String) (options : Options) :
    Client × Completion (Option Data) :=
  let defaultAuthorization :=
    if truthy c.token then c.token.map (fun t => "Bearer " ++ t) else none
  let request : Sent :=
    { url := c.apiBase ++ endpoint
      method := options.method
      authorization := options.authorization <|> defaultAuthorization
      contentType := options.contentType
      body := options.body }
  let c1 := { c with sent := c.sent ++ [request] }
  match fetch request with
  | .throws m => (c1, .throws m)
  | .returns response =>
    if response.ok then (c1, .returns response.data)
    else
      match response.data with
      | none => (c1, .throws "data is null")
      | some data =>
        (c1, .throws (if truthy data.error then data.error.getD "" else "API request failed"))

/-- The method `checkAuth()`. -/
def Client.checkAuth (c : Client) (fetch : Fetch) : Client :=
  if truthy c.token then
    match c.apiCall fetch "/auth/verify"
        { method := some "GET"
          authorization := some ("Bearer " ++ c.token.getD "") } with
    | (c1, .returns (some response)) =>
      match response.user with
      | some user => { c1 with user := some user, isAdmin := user.role == "admin" }
      | none => c1
    | (c1, .returns none) => { c1 with token := none }
    | (c1, .throws _) => { c1 with token := none }
  else c

/-- The method `login(email, password)`. -/
def Client.login (c : Client) (fetch : Fetch) (email password : String) : Client :=
  match c.apiCall fetch "/auth/login"
      { method := some "POST"
        contentType := some "application/json"
        body := some (.credentials email password) } with
  | (c1, .throws m) => c1.showNotification ("❌ " ++ m) "error"
  | (c1, .returns none) =>
    c1.showNotification ("❌ " ++ "response is null") "error"
  | (c1, .returns (some response)) =>
    let c2 := { c1 with token := some (response.token.getD "undefined"), user := response.user }
    match response.user with
    | none =>
      c2.showNotification ("❌ " ++ "response.user is undefined")
        "error"
    | some user =>
      ({ c2 with isAdmin := user.role == "admin" }.closeModal "authModal").showNotification
        ("🎉 Welcome back, " ++ user.username ++ "!") "success"

/-- The method `register(username, email, password)`. -/
def Client.register (c : Client) (fetch : Fetch) (username email password : String) : Client :=
  match c.apiCall fetch "/auth/register"
      { method := some "POST"
        contentType := some "application/json"
        body := some (.registration username email password) } with
  | (c1, .throws m) => c1.showNotification ("❌ " ++ m) "error"
  | (c1, .returns none) =>
    c1.showNotification ("❌ " ++ "response is null") "error"
  | (c1, .returns (some response)) =>
    let c2 := { c1 with token := some (response.token.getD "undefined"), user := response.user }
    match response.user with
    | none =>
      c2.showNotification ("❌ " ++ "response.user is undefined")
        "error"
    | some user =>
      ({ c2 with isAdmin := user.role == "admin" }.closeModal "authModal").showNotification
        "🚀 Account created! Welcome to TrendzN!" "success"

/-- The method `navigateToSection(sectionName)`. -/
def Client.navigateToSection (c : Client) (sectionName : String) : Client :=
  if sectionName = c.currentSection then c
  else if (sectionName = "memes" ∨ sectionName = "admin") ∧ c.user = none then
    c.showModal "authModal"
  else if sectionName = "admin" ∧ c.isAdmin = false then
    c.showNotification "❌ Admin access required" "error"
  else { c with currentSection := sectionName }

/-- The method `logout()`. -/
def Client.logout (c : Client) : Client :=
  ({ c with token := none, user := none, isAdmin := false }.navigateToSection
    "home").showNotification "👋 Logged out successfully" "info"

/-- The function `window.enableAdmin`. -/
def enableAdmin (c : Client) : Client :=
  if c.user.isSome then
    let c1 := { c with isAdmin := true }.showNotification "👑 Admin mode activated!" "success"
    if c1.currentSection ≠ "admin" then c1.navigateToSection "admin" else c1
  else c

/-- The function `window.disableAdmin`. -/
def disableAdmin (c : Client) : Client :=
  let c1 := { c with isAdmin := false }.showNotification "👤 Admin mode disabled" "info"
  if c1.currentSection = "admin" then c1.navigateToSection "home" else c1

/-- The method `toggleUserStatus(userId)`.  The body of the request reads the
free identifier `isActive`, which `app.js` declares nowhere: `isActive` is the
truthiness of a global of that name defined outside `app.js`, `none` when there
is no such global, and reading it then throws before `apiCall` is called. -/
def Client.toggleUserStatus (c : Client) (fetch : Fetch) (isActive : Option Bool)
    (userId : String) : Client :=
  match isActive with
  | none => c.showNotification ("❌ " ++ "isActive is not defined") "error"
  | some active =>
    match c.apiCall fetch ("/admin/users/" ++ userId)
        { method := some "PUT"
          contentType := some "application/json"
          body := some (.status (!active)) } with
    | (c1, .throws m) => c1.showNotification ("❌ " ++ m) "error"
    | (c1, .returns _) => c1.showNotification "✅ User status updated" "success"

/-- The method `formatNumber(num)` on an integer below `2^53`, which a double
holds exactly; the quotient is the double that the division gives. -/
def formatNumber (num : Nat) : String :=
  if num > 1000000 then toFixed1 (fdiv (num : ℚ) 1000000) ++ "M"
  else if num > 1000 then toFixed1 (fdiv (num : ℚ) 1000) ++ "K"
  else toString num

/-- A call of the client that the page offers. -/
inductive ClientOp where
  | navigateToSection (sectionName : String)
  | login (fetch : Fetch) (email password : String)
  | register (fetch : Fetch) (username email password : String)
  | logout
  | enableAdmin
  | disableAdmin

/-- The state after one call. -/
def ClientOp.run (op : ClientOp) (c : Client) : Client :=
  match op with
  | .navigateToSection sectionName => c.navigateToSection sectionName
  | .login fetch email password => c.login fetch email password
  | .register fetch username email password => c.register fetch username email password
  | .logout => c.logout
  | .enableAdmin => Trendzn.enableAdmin c
  | .disableAdmin => Trendzn.disableAdmin c

/-- The state after a sequence of calls. -/
def runOps (c : Client) (ops : List ClientOp) : Client :=
  ops.foldl (fun c op => op.run c) c

/-- The call is a `login` or `register` only while nobody is logged in. -/
def ClientOp.loggedOutEntry (op : ClientOp) (c : Client) : Bool :=
  match op with
  | .login _ _ _ => c.user.isNone
  | .register _ _ _ _ => c.user.isNone
  | _ => true

/-- Every `login` and `register` of the sequence is called while nobody is
logged in. -/
def entriesLoggedOut (c : Client) (ops : List ClientOp) : Bool :=
  match ops with
  | [] => true
  | op :: rest => op.loggedOutEntry c && entriesLoggedOut (op.run c) rest

/-- The navigation invariant: the admin section is shown only to a logged-in
user in admin mode, the memes section only to a logged-in user. -/
def SectionInvariant (c : Client) : Prop :=
  (c.currentSection = "admin" → c.user ≠ none ∧ c.isAdmin = true) ∧
  (c.currentSection = "memes" → c.user ≠ none)

/-- The gate of `navigateToSection` rejects the section. -/
def GateRejects (c : Client) (sectionName : String) : Prop :=
  sectionName ≠ c.currentSection ∧
  (((sectionName = "memes" ∨ sectionName = "admin") ∧ c.user = none) ∨
    (sectionName = "admin" ∧ c.isAdmin = false))

/-- The session state is cleared. -/
def SessionCleared (c : Client) : Prop :=
  c.token = none ∧ c.user = none ∧ c.isAdmin = false

/-- The user that the sample server reports for `alice`. -/
def aliceInfo : UserInfo :=
  { id := 1, username := "alice", email := "alice@example.com", role := "user" }

/-- A client in which `alice` is logged in. -/
def aliceClient : Client :=
  { token := some "tok-alice", user := some aliceInfo }

/-- A network that answers every request 401. -/
def unauthorized : Fetch := fun _ =>
  .returns { status := 401, data := some { error := some "Access token required" } }

/-- A network that answers every request 200 with a token and `alice`. -/
def aliceFetch : Fetch := fun _ =>
  .returns { status := 200, data := some { token := some "tok-alice", user := some aliceInfo } }

/-- The request carries a file part under the field name `image` that the
filter accepts and that does not exceed 10MB. -/
def UploadAccepted (env : Env) (req : Request) : Prop :=
  ∃ file, req.upload = some file ∧ file.fieldname = "image" ∧ fileFilter env file = true ∧
    file.size ≤ 10 * 1024 * 1024

/-! ## Splitting the Authorization header -/

theorem jsSplit_ne_nil (sep : Char) (l : List Char) : jsSplit sep l ≠ [] := by
  cases l with
  | nil => simp [jsSplit]
  | cons c cs =>
    unfold jsSplit
    split
    · simp
    · split <;> simp

theorem jsSplit_of_not_mem (sep : Char) (l : List Char) (h : sep ∉ l) :
    jsSplit sep l = [l] := by
  induction l with
  | nil => simp [jsSplit]
  | cons c cs ih =>
    have hc : c ≠ sep := fun e => h (by simp [e])
    have hcs : sep ∉ cs := fun e => h (by simp [e])
    simp only [jsSplit, if_neg hc, ih hcs]

theorem jsSplit_append_sep (sep : Char) (pre rest : List Char) (h : sep ∉ pre) :
    jsSplit sep (pre ++ sep :: rest) = pre :: jsSplit sep rest := by
  induction pre with
  | nil => simp [jsSplit]
  | cons c cs ih =>
    have hc : c ≠ sep := fun e => h (by simp [e])
    have hcs : sep ∉ cs := fun e => h (by simp [e])
    have e : jsSplit sep (c :: (cs ++ sep :: rest)) = (c :: cs) :: jsSplit sep rest := by
      simp only [jsSplit, if_neg hc, ih hcs]
    exact e

theorem exists_first_sep (sep : Char) (l : List Char) (h : sep ∈ l) :
    ∃ pre rest, l = pre ++ sep :: rest ∧ sep ∉ pre := by
  induction l with
  | nil => simp at h
  | cons c cs ih =>
    by_cases hc : c = sep
    · exact ⟨[], cs, by simp [hc], by simp⟩
    · have hcs : sep ∈ cs := by
        rcases List.mem_cons.1 h with e | e
        · exact absurd e.symm hc
        · exact e
      obtain ⟨pre, rest, e, hn⟩ := ih hcs
      refine ⟨c :: pre, rest, by simp [e], ?_⟩
      intro hm
      rcases List.mem_cons.1 hm with e' | e'
      · exact hc e'.symm
      · exact hn e'

theorem truthy_bearerToken_of_noTokenSegment (h : String) (hn : NoTokenSegment h) :
    truthy (bearerToken (some h)) = false := by
  unfold bearerToken
  by_cases he : h = ""
  · simp [he, truthy]
  · simp only [he, if_false]
    by_cases hs : ' ' ∈ h.toList
    · obtain ⟨pre, rest, e, hp⟩ := exists_first_sep ' ' h.toList hs
      rw [e, jsSplit_append_sep ' ' pre rest hp]
      rcases hn pre rest e hp with hr | ⟨rest', hr⟩
      · subst hr
        simp [jsSplit, truthy]
      · subst hr
        simp [jsSplit, truthy]
    · rw [jsSplit_of_not_mem ' ' h.toList hs]
      simp [truthy]

theorem noTokenSegment_of_not_truthy (h : String)
    (ht : truthy (bearerToken (some h)) = false) : NoTokenSegment h := by
  intro pre rest e hp
  have he : h ≠ "" := by
    intro e'
    rw [e'] at e
    cases pre <;> simp at e
  unfold bearerToken at ht
  simp only [he, if_false] at ht
  rw [e, jsSplit_append_sep ' ' pre rest hp] at ht
  cases rest with
  | nil => exact Or.inl rfl
  | cons c cs =>
    right
    by_cases hc : c = ' '
    · exact ⟨cs, by rw [hc]⟩
    · exfalso
      have hne := jsSplit_ne_nil ' ' cs
      simp only [jsSplit, if_neg hc] at ht
      cases hj : jsSplit ' ' cs with
      | nil => exact hne hj
      | cons x xs =>
        rw [hj] at ht
        simp [truthy, String.ext_iff] at ht

/-! ## The middleware, case by case -/

theorem authenticateToken_verified (env : Env) (w : World) (req : Request) (tok : String)
    (p : Claims) (ht : bearerToken req.authorization = some tok) (hne : tok ≠ "")
    (hv : env.jwt.verify tok env.secret env.now = some p) :
    authenticateToken env w req = .next w { req with user := some p } := by
  simp [authenticateToken, ht, truthy, hne, hv]

theorem authenticateToken_world (env : Env) (w : World) (req : Request) :
    (authenticateToken env w req).world = w := by
  unfold authenticateToken
  simp only
  split
  · rfl
  · split <;> rfl

theorem requireAdmin_forbidden (env : Env) (w : World) (req : Request) (u : Claims)
    (hu : req.user = some u) (hrole : u.role ≠ "admin") :
    requireAdmin env w req = .respond w req ⟨403, .error "Admin access required"⟩ := by
  unfold requireAdmin
  rw [hu]
  simp [hrole]

/-! ## Claims about the middleware -/

/-- C1: when the Authorization header is absent, or has no token segment after
its first space, `authenticateToken` answers 401 with the error
`Access token required`, leaves the request without a new identity and does not
call the downstream handler. -/
theorem authenticateToken_missing_token (env : Env) (w : World) (req : Request)
    (h : req.authorization = none ∨
      ∃ hdr, req.authorization = some hdr ∧ NoTokenSegment hdr) :
    authenticateToken env w req =
      .respond w req ⟨401, .error "Access token required"⟩ := by
  have ht : truthy (bearerToken req.authorization) = false := by
    rcases h with h | ⟨hdr, h, hn⟩
    · rw [h]; rfl
    · rw [h]; exact truthy_bearerToken_of_noTokenSegment hdr hn
  simp [authenticateToken, ht]

/-- Instance of C1 at a header that ends right after its first space. -/
theorem authenticateToken_missing_token_witness :
    authenticateToken sampleEnv {} { authorization := some "Bearer " } =
      .respond {} { authorization := some "Bearer " }
        ⟨401, .error "Access token required"⟩ :=
  authenticateToken_missing_token sampleEnv {} { authorization := some "Bearer " }
    (Or.inr ⟨"Bearer ", rfl, noTokenSegment_of_not_truthy "Bearer " (by decide)⟩)

/-- C2 as stated fails: a token that verification rejects is answered with
status 403, so no 401 response is sent for it. -/
theorem authenticateToken_invalid_token_not_401 :
    bearerToken (some "Bearer tok-bob") = some "tok-bob" ∧
    sampleEnv.jwt.verify "tok-bob" sampleEnv.secret sampleEnv.now = none ∧
    ¬ ∃ msg, authenticateToken sampleEnv {} { authorization := some "Bearer tok-bob" } =
      .respond {} { authorization := some "Bearer tok-bob" } ⟨401, .error msg⟩ := by
  refine ⟨by decide, by decide, ?_⟩
  rintro ⟨msg, h⟩
  have e : authenticateToken sampleEnv {} { authorization := some "Bearer tok-bob" } =
      .respond {} { authorization := some "Bearer tok-bob" } ⟨403, .error "Invalid token"⟩ := by
    decide
  rw [e] at h
  injection h with _ _ h3
  injection h3 with h4 _
  exact absurd h4 (by decide)

/-- C2, amended: a request whose token verification rejects is answered with
status 403 and the error `Invalid token`; the request is left as it was and
the downstream handler is not called. -/
theorem authenticateToken_invalid_token (env : Env) (w : World) (req : Request)
    (tok : String) (ht : bearerToken req.authorization = some tok) (hne : tok ≠ "")
    (hv : env.jwt.verify tok env.secret env.now = none) :
    authenticateToken env w req = .respond w req ⟨403, .error "Invalid token"⟩ := by
  simp [authenticateToken, ht, truthy, hne, hv]

/-- Instance of the amended C2 at a token the sample token service rejects. -/
theorem authenticateToken_invalid_token_witness :
    authenticateToken sampleEnv {} { authorization := some "Bearer tok-bob" } =
      .respond {} { authorization := some "Bearer tok-bob" }
        ⟨403, .error "Invalid token"⟩ :=
  authenticateToken_invalid_token sampleEnv {} { authorization := some "Bearer tok-bob" }
    "tok-bob" (by decide) (by decide) (by decide)

/-- C3: when the token of the request verifies to a payload `p`,
`authenticateToken` passes the request downstream once with `req.user = p` and
every other field untouched, and sends nothing; whatever the request, its
verdict depends on the Authorization header only (not on the rest of the
request nor on the store), and the store and files are left as they were. -/
theorem authenticateToken_pure (env : Env) (w : World) (req : Request) :
    (∀ tok p, bearerToken req.authorization = some tok → tok ≠ "" →
        env.jwt.verify tok env.secret env.now = some p →
        authenticateToken env w req = .next w { req with user := some p }) ∧
    (∀ (w' : World) (req' : Request), req'.authorization = req.authorization →
        (authenticateToken env w' req').verdict = (authenticateToken env w req).verdict) ∧
    (authenticateToken env w req).world = w := by
  refine ⟨?_, ?_, authenticateToken_world env w req⟩
  · intro tok p ht hne hv
    exact authenticateToken_verified env w req tok p ht hne hv
  · intro w' req' hh
    unfold authenticateToken
    simp only [hh]
    split
    · rfl
    · split <;> rfl

/-- Instance of C3: a verified token, and a second request with the same header
but another body against another store. -/
theorem authenticateToken_pure_witness :
    authenticateToken sampleEnv {} { authorization := some "Bearer tok-alice" } =
      .next {} { authorization := some "Bearer tok-alice",
                 user := some { userId := 1, username := "alice", role := "user",
                                iat := 1, exp := 604801 } } ∧
    (authenticateToken sampleEnv { files := ["a.png"] }
        { authorization := some "Bearer tok-alice", body := { role := some "admin" } }).verdict =
      (authenticateToken sampleEnv {} { authorization := some "Bearer tok-alice" }).verdict :=
  ⟨(authenticateToken_pure sampleEnv {} { authorization := some "Bearer tok-alice" }).1
      "tok-alice" _ (by decide) (by decide) (by decide),
   (authenticateToken_pure sampleEnv {} { authorization := some "Bearer tok-alice" }).2.1
      { files := ["a.png"] }
      { authorization := some "Bearer tok-alice", body := { role := some "admin" } } rfl⟩

/-- C4: for a request carrying an identity, `requireAdmin` answers 403 with the
error `Admin access required` (request untouched, downstream handler not
called) exactly when the role of the identity is not `admin`, and passes the
unchanged request downstream, sending nothing, exactly when it is `admin`. -/
theorem requireAdmin_iff (env : Env) (w : World) (req : Request) (u : Claims)
    (hu : req.user = some u) :
    (requireAdmin env w req = .respond w req ⟨403, .error "Admin access required"⟩ ↔
        u.role ≠ "admin") ∧
    (requireAdmin env w req = .next w req ↔ u.role = "admin") := by
  unfold requireAdmin
  rw [hu]
  by_cases hr : u.role = "admin" <;> simp [hr]

/-- Instance of C4 at an identity with role `user`. -/
theorem requireAdmin_iff_witness :
    requireAdmin sampleEnv {}
        { user := some { userId := 1, username := "alice", role := "user",
                         iat := 1, exp := 604801 } } =
      .respond {} { user := some { userId := 1, username := "alice", role := "user",
                                   iat := 1, exp := 604801 } }
        ⟨403, .error "Admin access required"⟩ :=
  (requireAdmin_iff sampleEnv {} _ _ rfl).1.2 (by decide)

/-! ## Claims about the routes -/

theorem route_admin_forbidden (handler : Handler) (env : Env) (w : World) (req : Request)
    (tok : String) (p : Claims) (ht : bearerToken req.authorization = some tok)
    (hne : tok ≠ "") (hv : env.jwt.verify tok env.secret env.now = some p)
    (hrole : p.role ≠ "admin") :
    route [authenticateToken, requireAdmin] handler env w req =
      (w, ⟨403, .error "Admin access required"⟩) := by
  have h1 := authenticateToken_verified env w req tok p ht hne hv
  have h2 := requireAdmin_forbidden env w { req with user := some p } p rfl hrole
  simp only [route, h1, h2]

/-- C5: for every store and every request whose token verifies to an identity
whose role is not `admin`, each admin-tier route answers 403 and leaves the
five collections and the stored files exactly as they were. -/
theorem admin_routes_forbidden (env : Env) (w : World) (req : Request)
    (tok : String) (p : Claims) (ht : bearerToken req.authorization = some tok)
    (hne : tok ≠ "") (hv : env.jwt.verify tok env.secret env.now = some p)
    (hrole : p.role ≠ "admin") :
    ∀ r ∈ adminRoutes,
      handle r env w req = (w, ⟨403, .error "Admin access required"⟩) := by
  intro r hr
  simp only [adminRoutes, List.mem_cons, List.mem_singleton, List.not_mem_nil, or_false] at hr
  rcases hr with h | h | h | h | h | h <;> subst h <;>
    exact route_admin_forbidden _ env w req tok p ht hne hv hrole

/-- Instance of C5: `alice`, whose role is `user`, asks to delete a trend. -/
theorem admin_routes_forbidden_witness :
    handle .deleteTrend sampleEnv sampleWorld aliceRequest =
      (sampleWorld, ⟨403, .error "Admin access required"⟩) :=
  admin_routes_forbidden sampleEnv sampleWorld aliceRequest "tok-alice" aliceClaims
    (by decide) (by decide) (by decide) (by decide) .deleteTrend (by decide)

/-- C6: when the email of the request is the email of a stored user, or its
username is the username of a stored user, `register` answers 400 with an
error body (so no token) and the store is unchanged. -/
theorem register_duplicate (env : Env) (w : World) (req : Request)
    (h : ∃ u ∈ w.users, some u.email = req.body.email ∨ some u.username = req.body.username) :
    handle .register env w req = (w, ⟨400, .error "User already exists"⟩) := by
  obtain ⟨u, hu, hm⟩ := h
  have hsome : (w.users.find?
      (fun u => some u.email = req.body.email || some u.username = req.body.username)).isSome := by
    rw [List.find?_isSome]
    exact ⟨u, hu, by simpa using hm⟩
  obtain ⟨x, hx⟩ := Option.isSome_iff_exists.1 hsome
  simp only [handle, route, register, hx]

/-- Instance of C6: a registration reusing the email of `alice`. -/
theorem register_duplicate_witness :
    handle .register sampleEnv sampleWorld
        { body := { username := some "carol", email := some "alice@example.com",
                    password := some "pw" } } =
      (sampleWorld, ⟨400, .error "User already exists"⟩) :=
  register_duplicate sampleEnv sampleWorld _
    ⟨alice, List.mem_cons_self _ _, Or.inl rfl⟩

theorem login_cases (env : Env) (w : World) (req : Request) (email pw : String)
    (he : req.body.email = some email) (hp : req.body.password = some pw)
    (huniq : (w.users.map (fun u => u.email)).Nodup) :
    ((∃ u ∈ w.users, u.email = email ∧ env.bcrypt.compare pw u.password = true) ∧
      ∃ tok info, (handle .login env w req).2 = ⟨200, .auth "Login successful" tok info⟩) ∨
    ((¬ ∃ u ∈ w.users, u.email = email ∧ env.bcrypt.compare pw u.password = true) ∧
      handle .login env w req = (w, ⟨400, .error "Invalid credentials"⟩)) := by
  cases hf : w.users.find? (fun u => some u.email = some email) with
  | none =>
    right
    rw [List.find?_eq_none] at hf
    refine ⟨?_, ?_⟩
    · rintro ⟨u, hu, hue, _⟩
      exact hf u hu (by simp [hue])
    · have hf' : w.users.find? (fun u => some u.email = some email) = none := by
        rw [List.find?_eq_none]; exact hf
      simp only [handle, route, login, he, hf']
  | some u0 =>
    have hmem := List.mem_of_find?_eq_some hf
    have hem : u0.email = email := by
      have := List.find?_some hf
      simpa using this
    cases hc : env.bcrypt.compare pw u0.password with
    | false =>
      right
      refine ⟨?_, ?_⟩
      · rintro ⟨u, hu, hue, hcu⟩
        have : u = u0 := List.inj_on_of_nodup_map huniq hu hmem (by rw [hue, hem])
        rw [this, hc] at hcu
        exact Bool.noConfusion hcu
      · simp only [handle, route, login, he, hp, hf, hc]
        rfl
    | true =>
      left
      refine ⟨⟨u0, hmem, hem, hc⟩, ?_⟩
      simp only [handle, route, login, he, hp, hf, hc]
      exact ⟨_, _, rfl⟩

theorem login_unknown_email (env : Env) (w : World) (req : Request)
    (h : ∀ u ∈ w.users, some u.email ≠ req.body.email) :
    handle .login env w req = (w, ⟨400, .error "Invalid credentials"⟩) := by
  have hf : w.users.find? (fun u => decide (some u.email = req.body.email)) = none := by
    rw [List.find?_eq_none]
    intro u hu
    simpa using h u hu
  simp only [handle, route, login, hf]

theorem login_no_password (env : Env) (w : World) (req : Request)
    (hp : req.body.password = none) (h : ∃ u ∈ w.users, some u.email = req.body.email) :
    handle .login env w req =
      (w, ⟨500, .error "Illegal arguments: undefined, string"⟩) := by
  cases hf : w.users.find? (fun u => decide (some u.email = req.body.email)) with
  | none =>
    rw [List.find?_eq_none] at hf
    obtain ⟨u, hu, he⟩ := h
    exact absurd he (by simpa using hf u hu)
  | some u0 => simp only [handle, route, login, hf, hp]

/-- C8 fails as stated: a login request that carries the email of `alice` and
no password is answered 500 with the message of the hashing library, not 400,
while the same request for an unknown email is answered 400
`Invalid credentials`; the two answers tell a stored email from an unknown
one. -/
theorem login_without_password_not_400 :
    handle .login sampleEnv sampleWorld { body := { email := some "alice@example.com" } } =
      (sampleWorld, ⟨500, .error "Illegal arguments: undefined, string"⟩) ∧
    handle .login sampleEnv sampleWorld { body := { email := some "nobody@example.com" } } =
      (sampleWorld, ⟨400, .error "Invalid credentials"⟩) := by
  decide

/-- C8, as the code has it: for every login request over a store whose emails
are unique, the answer is 200 with a token and the user exactly when a stored
user has the email of the request and the request carries a password that
matches the stored hash of that user.  A request whose email is unknown, and a
request whose password does not match, are answered 400 with the same error
`Invalid credentials`; a request without a password for a stored email is
answered 500 with the message of the hashing library.  In all three cases no
token is issued and the store, every `lastLogin` included, is unchanged. -/
theorem login_iff (env : Env) (w : World) (req : Request)
    (huniq : (w.users.map (fun u => u.email)).Nodup) :
    ((∃ tok info, (handle .login env w req).2 = ⟨200, .auth "Login successful" tok info⟩) ↔
      ∃ u ∈ w.users, some u.email = req.body.email ∧
        ∃ pw, req.body.password = some pw ∧ env.bcrypt.compare pw u.password = true) ∧
    ((∀ u ∈ w.users, some u.email ≠ req.body.email) →
      handle .login env w req = (w, ⟨400, .error "Invalid credentials"⟩)) ∧
    (∀ pw, req.body.password = some pw →
      (¬ ∃ u ∈ w.users, some u.email = req.body.email ∧
        env.bcrypt.compare pw u.password = true) →
      handle .login env w req = (w, ⟨400, .error "Invalid credentials"⟩)) ∧
    (req.body.password = none → (∃ u ∈ w.users, some u.email = req.body.email) →
      handle .login env w req =
        (w, ⟨500, .error "Illegal arguments: undefined, string"⟩)) := by
  have hwrong : ∀ pw, req.body.password = some pw →
      (¬ ∃ u ∈ w.users, some u.email = req.body.email ∧
        env.bcrypt.compare pw u.password = true) →
      handle .login env w req = (w, ⟨400, .error "Invalid credentials"⟩) := by
    intro pw hp hno
    cases he : req.body.email with
    | none => exact login_unknown_email env w req (fun u _ => by rw [he]; simp)
    | some email =>
      rcases login_cases env w req email pw he hp huniq with ⟨hex, _⟩ | ⟨_, hbad⟩
      · obtain ⟨u, hu, hue, hc⟩ := hex
        exact absurd ⟨u, hu, by rw [he, hue], hc⟩ hno
      · exact hbad
  refine ⟨⟨?_, ?_⟩, login_unknown_email env w req, hwrong, login_no_password env w req⟩
  · rintro ⟨tok, info, h⟩
    by_contra hno
    by_cases hknown : ∃ u ∈ w.users, some u.email = req.body.email
    · cases hp : req.body.password with
      | none =>
        rw [login_no_password env w req hp hknown] at h
        simp at h
      | some pw =>
        have hno' : ¬ ∃ u ∈ w.users, some u.email = req.body.email ∧
            env.bcrypt.compare pw u.password = true := by
          rintro ⟨u, hu, hue, hc⟩
          exact hno ⟨u, hu, hue, pw, hp, hc⟩
        rw [hwrong pw hp hno'] at h
        simp at h
    · rw [login_unknown_email env w req (fun u hu he => hknown ⟨u, hu, he⟩)] at h
      simp at h
  · rintro ⟨u, hu, hue, pw, hp, hc⟩
    cases he : req.body.email with
    | none =>
      rw [he] at hue
      simp at hue
    | some email =>
      rcases login_cases env w req email pw he hp huniq with ⟨_, hok⟩ | ⟨hno, _⟩
      · exact hok
      · exact absurd ⟨u, hu, by rw [he] at hue; simpa using hue, hc⟩ hno

/-- Instance of C8: `alice` logs in with her password, with a wrong one, and
without one. -/
theorem login_iff_witness :
    (sampleWorld.users.map (fun u => u.email)).Nodup ∧
    (∃ tok info, (handle .login sampleEnv sampleWorld aliceLogin).2 =
        ⟨200, .auth "Login successful" tok info⟩) ∧
    handle .login sampleEnv sampleWorld
        { body := { email := some "alice@example.com", password := some "guess" } } =
      (sampleWorld, ⟨400, .error "Invalid credentials"⟩) ∧
    handle .login sampleEnv sampleWorld { body := { email := some "alice@example.com" } } =
      (sampleWorld, ⟨500, .error "Illegal arguments: undefined, string"⟩) :=
  ⟨by decide,
   (login_iff sampleEnv sampleWorld aliceLogin (by decide)).1.2
      ⟨alice, List.mem_cons_self _ _, rfl, "secret", rfl, by decide⟩,
   (login_iff sampleEnv sampleWorld
      { body := { email := some "alice@example.com", password := some "guess" } }
      (by decide)).2.2.1 "guess" rfl (by decide),
   (login_iff sampleEnv sampleWorld { body := { email := some "alice@example.com" } }
      (by decide)).2.2.2 rfl ⟨alice, List.mem_cons_self _ _, rfl⟩⟩

theorem mem_updateFirst {α : Type} (p : α → Bool) (f : α → α) (l : List α) (x : α)
    (hx : x ∈ l) (hp : p x = true) :
    x ∈ updateFirst p f l ∨ f x ∈ updateFirst p f l := by
  induction l with
  | nil => simp at hx
  | cons a as ih =>
    unfold updateFirst
    by_cases ha : p a = true
    · rw [if_pos ha]
      rcases List.mem_cons.1 hx with e | e
      · right; rw [e]; simp
      · left; simp [e]
    · rw [if_neg ha]
      rcases List.mem_cons.1 hx with e | e
      · rw [e] at hp; exact absurd hp ha
      · rcases ih e with h | h
        · left; simp [h]
        · right; simp [h]

theorem bearerToken_bearer (tok : String) (hs : ' ' ∉ tok.toList) :
    bearerToken (some ("Bearer " ++ tok)) = some tok := by
  have hl : ("Bearer " ++ tok).toList = "Bearer".toList ++ ' ' :: tok.toList := by
    show ("Bearer " ++ tok).data = _
    rw [String.data_append]
    rfl
  have hne : "Bearer " ++ tok ≠ "" := by
    intro e
    have := congrArg String.toList e
    rw [hl] at this
    simp at this
  unfold bearerToken
  simp only [hne, if_false]
  rw [hl, jsSplit_append_sep ' ' "Bearer".toList tok.toList (by decide),
    jsSplit_of_not_mem ' ' tok.toList hs]
  rfl

/-- C9: a token issued by `register` or `login` carries the id, username and
role of the user as stored at issuance; given a token library that honours
what it signed, for every later clock before the expiry, every later store
(whatever became of the role or active flag of the user) and every request
presenting the token, `authenticateToken` passes the request downstream with
an identity whose userId, username and role are those of issuance. -/
theorem issued_token_identity (env : Env) (w : World) (r : Route) (req : Request)
    (hr : r = .register ∨ r = .login) (msg tok : String) (info : UserInfo)
    (hout : (handle r env w req).2.body = .auth msg tok info)
    (hlib : env.jwt.Honours env.secret ⟨info.id, info.username, info.role⟩ env.now)
    (later : Env) (hjwt : later.jwt = env.jwt) (hsecret : later.jwtSecret = env.jwtSecret)
    (h1 : env.now ≤ later.now) (h2 : later.now / 1000 < env.now / 1000 + 604800)
    (w' : World) (req' : Request) (hhdr : req'.authorization = some ("Bearer " ++ tok)) :
    (∃ u ∈ (handle r env w req).1.users,
        u.id = info.id ∧ u.username = info.username ∧ u.role = info.role) ∧
    ∃ c, authenticateToken later w' req' = .next w' { req' with user := some c } ∧
      c.userId = info.id ∧ c.username = info.username ∧ c.role = info.role := by
  have key : tok = env.jwt.sign ⟨info.id, info.username, info.role⟩ env.secret "7d" env.now ∧
      ∃ u ∈ (handle r env w req).1.users,
        u.id = info.id ∧ u.username = info.username ∧ u.role = info.role := by
    rcases hr with hr | hr <;> subst hr
    · simp only [handle, route, register] at hout ⊢
      split at hout
      · simp at hout
      · split at hout
        · simp at hout
        · split at hout
          · rename_i hfind _ pw hpw hreq
            simp only [ResBody.auth.injEq] at hout
            obtain ⟨_, htok, hinfo⟩ := hout
            subst hinfo
            refine ⟨htok.symm, ?_⟩
            simp only [hfind, hpw, hreq, if_true]
            exact ⟨_, List.mem_append_right _ (List.mem_singleton.2 rfl), rfl, rfl, rfl⟩
          · simp at hout
    · simp only [handle, route, login] at hout ⊢
      split at hout
      · simp at hout
      · split at hout
        · simp at hout
        · split at hout
          · simp at hout
          · rename_i user hfind _ pw hpw hcmp
            simp only [ResBody.auth.injEq] at hout
            obtain ⟨_, htok, hinfo⟩ := hout
            subst hinfo
            refine ⟨htok.symm, ?_⟩
            simp only [hfind, hpw, hcmp, if_false]
            have hmem := List.mem_of_find?_eq_some hfind
            rcases mem_updateFirst (fun u => decide (u.id = user.id))
              (fun u => { u with lastLogin := some env.now }) w.users user hmem (by simp)
              with h | h
            · exact ⟨_, h, rfl, rfl, rfl⟩
            · exact ⟨_, h, rfl, rfl, rfl⟩
  obtain ⟨htok, hu⟩ := key
  refine ⟨hu, ?_⟩
  obtain ⟨hne, hsp, hver⟩ := hlib
  rw [← htok] at hne hsp hver
  obtain ⟨c, hc, hc1, hc2, hc3⟩ := hver later.now h1 h2
  have hsec : later.secret = env.secret := by simp [Env.secret, hsecret]
  refine ⟨c, ?_, hc1, hc2, hc3⟩
  have hb : bearerToken req'.authorization = some tok := by
    rw [hhdr]; exact bearerToken_bearer tok hsp
  exact authenticateToken_verified later w' req' tok c hb hne (by rw [hjwt, hsec]; exact hc)

theorem sampleJwt_honours :
    sampleJwt.Honours sampleEnv.secret ⟨1, "alice", "user"⟩ 1000 := by
  refine ⟨by decide, by decide, ?_⟩
  intro now _ h2
  refine ⟨aliceClaims, ?_, rfl, rfl, rfl⟩
  have h3 : now / 1000 < 604801 := h2
  show sampleJwt.verify "tok-alice" sampleEnv.secret now = some aliceClaims
  simp [sampleJwt, h3, aliceClaims]

/-- Instance of C9: the token `alice` got at login still yields the role `user`
after she was made an inactive admin. -/
theorem issued_token_identity_witness :
    (∃ u ∈ (handle .login sampleEnv sampleWorld aliceLogin).1.users,
        u.id = 1 ∧ u.username = "alice" ∧ u.role = "user") ∧
    ∃ c, authenticateToken { sampleEnv with now := 90000000 } laterWorld aliceRequest =
        .next laterWorld { aliceRequest with user := some c } ∧
      c.userId = 1 ∧ c.username = "alice" ∧ c.role = "user" :=
  issued_token_identity sampleEnv sampleWorld .login aliceLogin (Or.inr rfl)
    "Login successful" "tok-alice"
    { id := 1, username := "alice", email := "alice@example.com", role := "user",
      avatar := some "" }
    (by decide) sampleJwt_honours { sampleEnv with now := 90000000 } rfl rfl
    (by decide) (by decide) laterWorld aliceRequest rfl

/-! ## Pagination -/

theorem page_slices_disjoint {α : Type} (key : α → ObjectId) (L : List α)
    (hL : (L.map key).Nodup) (limit p q : Int) (hl : 1 ≤ limit) (hp : 1 ≤ p) (hpq : p < q)
    (xs ys : List α) (hx : findPage L (limit * 1) ((p - 1) * limit) = some xs)
    (hy : findPage L (limit * 1) ((q - 1) * limit) = some ys) :
    List.Disjoint (xs.map key) (ys.map key) := by
  have ha : 0 ≤ (p - 1) * limit := mul_nonneg (by omega) (by omega)
  have hab : (p - 1) * limit + limit ≤ (q - 1) * limit := by nlinarith
  have hb : 0 ≤ (q - 1) * limit := by omega
  have hl0 : limit * 1 ≠ 0 := by omega
  unfold findPage at hx hy
  rw [if_neg (by omega)] at hx hy
  simp only [hl0, if_false, Option.some.injEq] at hx hy
  subst hx
  subst hy
  have hA : (((p - 1) * limit).toNat : Int) = (p - 1) * limit := Int.toNat_of_nonneg ha
  have hB : (((q - 1) * limit).toNat : Int) = (q - 1) * limit := Int.toNat_of_nonneg hb
  have hN : (((limit * 1).natAbs : Nat) : Int) = limit := by
    rw [Int.natAbs_of_nonneg (by omega)]; omega
  have hle : ((p - 1) * limit).toNat + (limit * 1).natAbs ≤ ((q - 1) * limit).toNat := by
    omega
  rw [List.map_take, List.map_drop, List.map_take, List.map_drop, List.take_drop]
  exact List.disjoint_of_subset_left (List.drop_subset _ _)
    (List.disjoint_of_subset_right (List.take_subset _ _)
      (List.disjoint_take_drop hL hle))

theorem nodup_map_insertionSort_filter {α : Type} (key : α → ObjectId) (r : α → α → Prop)
    [DecidableRel r] (f : α → Bool) (l : List α) (h : (l.map key).Nodup) :
    (((l.filter f).insertionSort r).map key).Nodup := by
  have h1 : ((l.filter f).map key).Nodup :=
    List.Nodup.sublist ((List.filter_sublist l).map key) h
  exact (((List.perm_insertionSort r (l.filter f)).map key).nodup_iff).2 h1

theorem getTrends_pages_lt (env : Env) (w : World) (req : Request) (p q : Int)
    (hp : 1 ≤ p) (hpq : p < q) (hl : 1 ≤ req.query.limit.getD 10)
    (hid : (w.trends.map (fun t => t.id)).Nodup) :
    List.Disjoint (listedIds (getTrends env w (withPage req p)).2.body)
      (listedIds (getTrends env w (withPage req q)).2.body) := by
  have hf : ∀ k, trendFilter (withPage req k).query = trendFilter req.query := fun _ => rfl
  have hlim : ∀ k, (withPage req k).query.limit = req.query.limit := fun _ => rfl
  have hpage : ∀ k, (withPage req k).query.page.getD 1 = k := fun _ => rfl
  simp only [getTrends, hf, hlim, hpage]
  have hL := nodup_map_insertionSort_filter (fun t : Trend => t.id)
    (fun a b => a.createdAt ≥ b.createdAt) (trendFilter req.query) w.trends hid
  cases hx : findPage (newestFirst (fun t => t.createdAt) (w.trends.filter (trendFilter req.query)))
      (req.query.limit.getD 10 * 1) ((p - 1) * req.query.limit.getD 10) with
  | none => simp [listedIds]
  | some xs =>
    cases hy : findPage (newestFirst (fun t => t.createdAt)
        (w.trends.filter (trendFilter req.query)))
        (req.query.limit.getD 10 * 1) ((q - 1) * req.query.limit.getD 10) with
    | none => simp [listedIds]
    | some ys =>
      simp only [listedIds, List.map_map]
      exact page_slices_disjoint (fun t : Trend => t.id) _ hL _ p q hl hp hpq xs ys hx hy

theorem getTemplates_pages_lt (env : Env) (w : World) (req : Request) (p q : Int)
    (hp : 1 ≤ p) (hpq : p < q) (hl : 1 ≤ req.query.limit.getD 10)
    (hid : (w.templates.map (fun t => t.id)).Nodup) :
    List.Disjoint (listedIds (getTemplates env w (withPage req p)).2.body)
      (listedIds (getTemplates env w (withPage req q)).2.body) := by
  have hf : ∀ k, templateFilter (withPage req k).query = templateFilter req.query :=
    fun _ => rfl
  have hlim : ∀ k, (withPage req k).query.limit = req.query.limit := fun _ => rfl
  have hcat : ∀ k, (withPage req k).query.category = req.query.category := fun _ => rfl
  have hpage : ∀ k, (withPage req k).query.page.getD 1 = k := fun _ => rfl
  simp only [getTemplates, hf, hlim, hpage, hcat]
  generalize hS : (if req.query.category = some "popular" then
      popularFirst (w.templates.filter (templateFilter req.query))
    else newestFirst (fun t => t.createdAt) (w.templates.filter (templateFilter req.query))) = S
  have hL : (S.map (fun t : Template => t.id)).Nodup := by
    rw [← hS]
    split
    · exact nodup_map_insertionSort_filter (fun t : Template => t.id) _ _ w.templates hid
    · exact nodup_map_insertionSort_filter (fun t : Template => t.id) _ _ w.templates hid
  cases hx : findPage S (req.query.limit.getD 10 * 1) ((p - 1) * req.query.limit.getD 10) with
  | none => simp [listedIds]
  | some xs =>
    cases hy : findPage S (req.query.limit.getD 10 * 1)
        ((q - 1) * req.query.limit.getD 10) with
    | none => simp [listedIds]
    | some ys =>
      simp only [listedIds, List.map_map]
      exact page_slices_disjoint (fun t : Template => t.id) _ hL _ p q hl hp hpq xs ys hx hy

theorem getMemes_pages_lt (env : Env) (w : World) (req : Request) (p q : Int)
    (hp : 1 ≤ p) (hpq : p < q) (hl : 1 ≤ req.query.limit.getD 10)
    (hid : (w.memes.map (fun m => m.id)).Nodup) :
    List.Disjoint (listedIds (handle .getMemes env w (withPage req p)).2.body)
      (listedIds (handle .getMemes env w (withPage req q)).2.body) := by
  have hauth : ∀ k, (withPage req k).authorization = req.authorization := fun _ => rfl
  cases ht : truthy (bearerToken req.authorization) with
  | false => simp [handle, route, authenticateToken, hauth, ht, listedIds]
  | true =>
    cases hv : env.jwt.verify ((bearerToken req.authorization).getD "") env.secret env.now with
    | none => simp [handle, route, authenticateToken, hauth, ht, hv, listedIds]
    | some c =>
      simp only [handle, route, authenticateToken, hauth, ht, hv, Bool.not_true,
        Bool.false_eq_true, if_false]
      have hL := nodup_map_insertionSort_filter (fun m : Meme => m.id)
        (fun a b => a.createdAt ≥ b.createdAt) (fun m => m.createdBy = some c.userId)
        w.memes hid
      simp only [getMemes]
      have hlim : ∀ k, (withPage req k).query.limit = req.query.limit := fun _ => rfl
      have hpage : ∀ k, (withPage req k).query.page.getD 1 = k := fun _ => rfl
      simp only [hlim, hpage]
      cases hx : findPage (newestFirst (fun m => m.createdAt)
          (w.memes.filter (fun m => m.createdBy = some c.userId)))
          (req.query.limit.getD 10 * 1) ((p - 1) * req.query.limit.getD 10) with
      | none => simp [listedIds]
      | some xs =>
        cases hy : findPage (newestFirst (fun m => m.createdAt)
            (w.memes.filter (fun m => m.createdBy = some c.userId)))
            (req.query.limit.getD 10 * 1) ((q - 1) * req.query.limit.getD 10) with
        | none => simp [listedIds]
        | some ys =>
          simp only [listedIds, List.map_map]
          exact page_slices_disjoint (fun m : Meme => m.id) _ hL _ p q hl hp hpq xs ys hx hy

/-- C10: over a fixed store with unique ids, for every filter and every page
size of at least 1, the items that a list route (`GET /api/trends`,
`GET /api/templates`, `GET /api/memes`) returns for two distinct pages `p` and
`q`, both at least 1, share no id; pages 1 and 2 in particular. -/
theorem pages_disjoint (env : Env) (w : World) (r : Route) (req : Request) (p q : Int)
    (hr : r = .getTrends ∨ r = .getTemplates ∨ r = .getMemes)
    (hp : 1 ≤ p) (hq : 1 ≤ q) (hpq : p ≠ q) (hl : 1 ≤ req.query.limit.getD 10)
    (htrends : (w.trends.map (fun t => t.id)).Nodup)
    (htemplates : (w.templates.map (fun t => t.id)).Nodup)
    (hmemes : (w.memes.map (fun m => m.id)).Nodup) :
    List.Disjoint (listedIds (handle r env w (withPage req p)).2.body)
      (listedIds (handle r env w (withPage req q)).2.body) := by
  rcases lt_or_gt_of_ne hpq with h | h
  · rcases hr with hr | hr | hr <;> subst hr
    · exact getTrends_pages_lt env w req p q hp h hl htrends
    · exact getTemplates_pages_lt env w req p q hp h hl htemplates
    · exact getMemes_pages_lt env w req p q hp h hl hmemes
  · apply List.Disjoint.symm
    rcases hr with hr | hr | hr <;> subst hr
    · exact getTrends_pages_lt env w req q p hq h hl htrends
    · exact getTemplates_pages_lt env w req q p hq h hl htemplates
    · exact getMemes_pages_lt env w req q p hq h hl hmemes

/-- Instance of C10: pages 1 and 2 of the sample trends, two per page. -/
theorem pages_disjoint_witness :
    List.Disjoint
      (listedIds (handle .getTrends sampleEnv sampleWorld
        (withPage { query := { limit := some 2 } } 1)).2.body)
      (listedIds (handle .getTrends sampleEnv sampleWorld
        (withPage { query := { limit := some 2 } } 2)).2.body) :=
  pages_disjoint sampleEnv sampleWorld .getTrends { query := { limit := some 2 } } 1 2
    (Or.inl rfl) (by decide) (by decide) (by decide) (by decide) (by decide) (by decide)
    (by decide)

/-! ## Roles -/

theorem rolesKept_of_users_eq {w w' : World} (h : w'.users = w.users) : RolesKept w w' :=
  ⟨[], by rw [h]; simp⟩

theorem rolesKept_trans {a b c : World} (h1 : RolesKept a b) (h2 : RolesKept b c) :
    RolesKept a c := by
  obtain ⟨x, hx⟩ := h1
  obtain ⟨y, hy⟩ := h2
  exact ⟨x ++ y, by rw [hy, hx, List.append_assoc]⟩

theorem map_updateFirst {α β : Type} (g : α → β) (p : α → Bool) (f : α → α)
    (hg : ∀ a, g (f a) = g a) (l : List α) : (updateFirst p f l).map g = l.map g := by
  induction l with
  | nil => rfl
  | cons a as ih =>
    unfold updateFirst
    split
    · simp [hg]
    · simp [ih]

theorem route_rolesKept (mws : List Middleware) (handler : Handler)
    (hm : ∀ mw ∈ mws, ∀ env w req, RolesKept w (mw env w req).world)
    (hh : ∀ env w req, RolesKept w (handler env w req).1) (env : Env) (w : World)
    (req : Request) : RolesKept w (route mws handler env w req).1 := by
  induction mws generalizing w req with
  | nil => exact hh env w req
  | cons mw rest ih =>
    have h1 := hm mw (by simp) env w req
    have hrest : ∀ m ∈ rest, ∀ env w req, RolesKept w (m env w req).world :=
      fun m hmem => hm m (by simp [hmem])
    unfold route
    cases hr : mw env w req with
    | next w' req' =>
      rw [hr] at h1
      exact rolesKept_trans h1 (ih hrest w' req')
    | respond w' req' res =>
      rw [hr] at h1
      exact h1
    | fail w' req' msg =>
      rw [hr] at h1
      exact h1

theorem authenticateToken_rolesKept (env : Env) (w : World) (req : Request) :
    RolesKept w (authenticateToken env w req).world :=
  rolesKept_of_users_eq (by rw [authenticateToken_world env w req])

theorem requireAdmin_rolesKept (env : Env) (w : World) (req : Request) :
    RolesKept w (requireAdmin env w req).world := by
  apply rolesKept_of_users_eq
  unfold requireAdmin
  split
  · rfl
  · split <;> rfl

theorem uploadSingleImage_rolesKept (env : Env) (w : World) (req : Request) :
    RolesKept w (uploadSingleImage env w req).world := by
  apply rolesKept_of_users_eq
  unfold uploadSingleImage
  split
  · rfl
  · split
    · rfl
    · split
      · rfl
      · split <;> rfl

theorem getTrends_users (env : Env) (w : World) (req : Request) :
    (getTrends env w req).1.users = w.users := by
  unfold getTrends
  repeat' (first | rfl | split | simp only [])

theorem createTrend_users (env : Env) (w : World) (req : Request) :
    (createTrend env w req).1.users = w.users := by
  unfold createTrend
  repeat' (first | rfl | split | simp only [])

theorem viewTrend_users (env : Env) (w : World) (req : Request) :
    (viewTrend env w req).1.users = w.users := by
  unfold viewTrend
  repeat' (first | rfl | split | simp only [])

theorem getTemplates_users (env : Env) (w : World) (req : Request) :
    (getTemplates env w req).1.users = w.users := by
  unfold getTemplates
  repeat' (first | rfl | split | simp only [])

theorem createTemplate_users (env : Env) (w : World) (req : Request) :
    (createTemplate env w req).1.users = w.users := by
  unfold createTemplate
  repeat' (first | rfl | split | simp only [])

theorem useTemplate_users (env : Env) (w : World) (req : Request) :
    (useTemplate env w req).1.users = w.users := by
  unfold useTemplate
  repeat' (first | rfl | split | simp only [])

theorem getMemes_users (env : Env) (w : World) (req : Request) :
    (getMemes env w req).1.users = w.users := by
  unfold getMemes
  repeat' (first | rfl | split | simp only [])

theorem createMeme_users (env : Env) (w : World) (req : Request) :
    (createMeme env w req).1.users = w.users := by
  unfold createMeme
  repeat' (first | rfl | split | simp only [])

theorem adminStats_users (env : Env) (w : World) (req : Request) :
    (adminStats env w req).1.users = w.users := by
  unfold adminStats
  repeat' (first | rfl | split | simp only [])

theorem adminUsers_users (env : Env) (w : World) (req : Request) :
    (adminUsers env w req).1.users = w.users := by
  unfold adminUsers
  repeat' (first | rfl | split | simp only [])

theorem deleteTrend_users (env : Env) (w : World) (req : Request) :
    (deleteTrend env w req).1.users = w.users := by
  unfold deleteTrend
  repeat' (first | rfl | split | simp only [])

theorem deleteTemplate_users (env : Env) (w : World) (req : Request) :
    (deleteTemplate env w req).1.users = w.users := by
  unfold deleteTemplate
  repeat' (first | rfl | split | simp only [])

theorem updateAnalytics_users (env : Env) (w : World) (req : Request) :
    (updateAnalytics env w req).1.users = w.users := by
  unfold updateAnalytics
  repeat' (first | rfl | split | simp only [])

theorem getAnalytics_users (env : Env) (w : World) (req : Request) :
    (getAnalytics env w req).1.users = w.users := by
  unfold getAnalytics
  repeat' (first | rfl | split | simp only [])

theorem health_users (env : Env) (w : World) (req : Request) :
    (health env w req).1.users = w.users := by
  unfold health
  repeat' (first | rfl | split | simp only [])

theorem search_users (env : Env) (w : World) (req : Request) :
    (search env w req).1.users = w.users := by
  unfold search
  repeat' (first | rfl | split | simp only [])

theorem frontend_users (env : Env) (w : World) (req : Request) :
    (frontend env w req).1.users = w.users := by
  unfold frontend
  repeat' (first | rfl | split | simp only [])

theorem register_users (env : Env) (w : World) (req : Request) :
    (register env w req).1.users = w.users ∨
      ∃ u, (register env w req).1.users = w.users ++ [u] ∧ u.role = "user" := by
  unfold register
  simp only
  split
  · exact Or.inl rfl
  · split
    · exact Or.inl rfl
    · split
      · exact Or.inr ⟨_, rfl, rfl⟩
      · exact Or.inl rfl

theorem register_rolesKept (env : Env) (w : World) (req : Request) :
    RolesKept w (register env w req).1 := by
  rcases register_users env w req with h | ⟨u, h, _⟩
  · exact rolesKept_of_users_eq h
  · exact ⟨[(u.id, u.role)], by rw [h]; simp⟩

theorem login_rolesKept (env : Env) (w : World) (req : Request) :
    RolesKept w (login env w req).1 := by
  refine ⟨[], ?_⟩
  unfold login
  simp only
  split
  · simp
  · split
    · simp
    · split
      · simp
      · simp only [List.append_nil]
        exact map_updateFirst (fun u : User => (u.id, u.role)) _
          (fun u => { u with lastLogin := some env.now }) (fun _ => rfl) _

theorem updateUser_route_unchanged (env : Env) (w : World) (req : Request)
    (h : ¬ AdminAuthenticated env req) :
    (handle .updateUser env w req).1 = w := by
  cases ht : truthy (bearerToken req.authorization) with
  | false => simp [handle, route, authenticateToken, ht]
  | true =>
    cases hv : env.jwt.verify ((bearerToken req.authorization).getD "") env.secret env.now with
    | none => simp [handle, route, authenticateToken, ht, hv]
    | some c =>
      have hrole : c.role ≠ "admin" := fun e => h ⟨ht, c, hv, e⟩
      simp [handle, route, authenticateToken, ht, hv, requireAdmin, hrole]

/-- C7: `register` either leaves the users as they are or appends one user
whose role is `user`, and its whole outcome depends on the username, email and
password of the body only (a `role` or any other key in the body changes
nothing); and every request to every route, other than a request to
`PUT /api/admin/users/:id` that passed `requireAdmin` with an admin identity,
leaves every stored user with the id and the role it had. -/
theorem role_invariant (env : Env) (w : World) (r : Route) (req : Request) :
    ((handle .register env w req).1.users = w.users ∨
      ∃ u, (handle .register env w req).1.users = w.users ++ [u] ∧ u.role = "user") ∧
    (∀ req' : Request, req'.body.username = req.body.username →
      req'.body.email = req.body.email → req'.body.password = req.body.password →
      handle .register env w req' = handle .register env w req) ∧
    ((r ≠ .updateUser ∨ ¬ AdminAuthenticated env req) →
      RolesKept w (handle r env w req).1) := by
  refine ⟨register_users env w req, ?_, ?_⟩
  · intro req' h1 h2 h3
    simp only [handle, route, register, h1, h2, h3]
  · intro h
    have ha : ∀ mw ∈ [authenticateToken], ∀ env w req, RolesKept w (mw env w req).world := by
      intro mw hmw
      simp only [List.mem_singleton] at hmw
      subst hmw
      exact authenticateToken_rolesKept
    have hau : ∀ mw ∈ [authenticateToken, uploadSingleImage], ∀ env w req,
        RolesKept w (mw env w req).world := by
      intro mw hmw
      simp only [List.mem_cons, List.mem_singleton, List.not_mem_nil, or_false] at hmw
      rcases hmw with e | e <;> subst e
      · exact authenticateToken_rolesKept
      · exact uploadSingleImage_rolesKept
    have haa : ∀ mw ∈ [authenticateToken, requireAdmin], ∀ env w req,
        RolesKept w (mw env w req).world := by
      intro mw hmw
      simp only [List.mem_cons, List.mem_singleton, List.not_mem_nil, or_false] at hmw
      rcases hmw with e | e <;> subst e
      · exact authenticateToken_rolesKept
      · exact requireAdmin_rolesKept
    have hnil : ∀ mw ∈ ([] : List Middleware), ∀ env w req,
        RolesKept w (mw env w req).world := by
      intro mw hmw
      simp at hmw
    cases r with
    | register => exact route_rolesKept [] register hnil register_rolesKept env w req
    | login => exact route_rolesKept [] login hnil login_rolesKept env w req
    | getTrends =>
      exact route_rolesKept [] getTrends hnil
        (fun e w r => rolesKept_of_users_eq (getTrends_users e w r)) env w req
    | createTrend =>
      exact route_rolesKept _ createTrend hau
        (fun e w r => rolesKept_of_users_eq (createTrend_users e w r)) env w req
    | viewTrend =>
      exact route_rolesKept [] viewTrend hnil
        (fun e w r => rolesKept_of_users_eq (viewTrend_users e w r)) env w req
    | getTemplates =>
      exact route_rolesKept [] getTemplates hnil
        (fun e w r => rolesKept_of_users_eq (getTemplates_users e w r)) env w req
    | createTemplate =>
      exact route_rolesKept _ createTemplate hau
        (fun e w r => rolesKept_of_users_eq (createTemplate_users e w r)) env w req
    | useTemplate =>
      exact route_rolesKept [] useTemplate hnil
        (fun e w r => rolesKept_of_users_eq (useTemplate_users e w r)) env w req
    | getMemes =>
      exact route_rolesKept _ getMemes ha
        (fun e w r => rolesKept_of_users_eq (getMemes_users e w r)) env w req
    | createMeme =>
      exact route_rolesKept _ createMeme hau
        (fun e w r => rolesKept_of_users_eq (createMeme_users e w r)) env w req
    | adminStats =>
      exact route_rolesKept _ adminStats haa
        (fun e w r => rolesKept_of_users_eq (adminStats_users e w r)) env w req
    | adminUsers =>
      exact route_rolesKept _ adminUsers haa
        (fun e w r => rolesKept_of_users_eq (adminUsers_users e w r)) env w req
    | updateUser =>
      rcases h with h | h
      · exact absurd rfl h
      · exact rolesKept_of_users_eq (by rw [updateUser_route_unchanged env w req h])
    | deleteTrend =>
      exact route_rolesKept _ deleteTrend haa
        (fun e w r => rolesKept_of_users_eq (deleteTrend_users e w r)) env w req
    | deleteTemplate =>
      exact route_rolesKept _ deleteTemplate haa
        (fun e w r => rolesKept_of_users_eq (deleteTemplate_users e w r)) env w req
    | updateAnalytics =>
      exact route_rolesKept [] updateAnalytics hnil
        (fun e w r => rolesKept_of_users_eq (updateAnalytics_users e w r)) env w req
    | getAnalytics =>
      exact route_rolesKept _ getAnalytics haa
        (fun e w r => rolesKept_of_users_eq (getAnalytics_users e w r)) env w req
    | health =>
      exact route_rolesKept [] health hnil
        (fun e w r => rolesKept_of_users_eq (health_users e w r)) env w req
    | search =>
      exact route_rolesKept [] search hnil
        (fun e w r => rolesKept_of_users_eq (search_users e w r)) env w req
    | frontend =>
      exact route_rolesKept [] frontend hnil
        (fun e w r => rolesKept_of_users_eq (frontend_users e w r)) env w req

/-- Instance of C7: a registration whose body asks for the role `admin`
keeps the roles of the stored users. -/
theorem role_invariant_witness :
    RolesKept sampleWorld (handle .register sampleEnv sampleWorld bobRegister).1 :=
  (role_invariant sampleEnv sampleWorld .register bobRegister).2.2 (Or.inl (by decide))

/-! ## Listing trends -/

theorem trendFilter_iff (q : Query) (t : Trend) :
    trendFilter q t = true ↔ MatchesTrendQuery q t := by
  unfold trendFilter MatchesTrendQuery
  rcases hc : q.category with _ | c <;> rcases hs : q.status with _ | s <;>
    simp [truthy]
  · by_cases h1 : s = "" <;> simp [h1, eq_comm]
  · by_cases h1 : c = "" <;> by_cases h2 : c = "all" <;> simp [h1, h2, eq_comm]
  · by_cases h1 : c = "" <;> by_cases h2 : c = "all" <;> by_cases h3 : s = "" <;>
      simp [h1, h2, h3, eq_comm]

theorem totalPages_spec (total : Nat) (limit : Int) (hl : 1 ≤ limit) :
    ∃ tp : Int, totalPages total limit = some tp ∧ (total : Int) ≤ tp * limit ∧
      ∀ k : Int, (total : Int) ≤ k * limit → tp ≤ k := by
  have hpos : (0 : ℚ) < (limit : ℚ) := by exact_mod_cast (by omega : (0 : Int) < limit)
  refine ⟨⌈(total : ℚ) / (limit : ℚ)⌉, ?_, ?_, ?_⟩
  · unfold totalPages
    rw [if_neg (by omega)]
  · have h := Int.le_ceil ((total : ℚ) / (limit : ℚ))
    rw [div_le_iff₀ hpos] at h
    exact_mod_cast h
  · intro k hk
    rw [Int.ceil_le, div_le_iff₀ hpos]
    exact_mod_cast hk

theorem findPage_of_pos {α : Type} (sorted : List α) (limit page : Int) (hl : 1 ≤ limit)
    (hp : 1 ≤ page) :
    findPage sorted (limit * 1) ((page - 1) * limit) =
      some ((sorted.drop ((page - 1) * limit).toNat).take limit.toNat) := by
  have ha : 0 ≤ (page - 1) * limit := mul_nonneg (by omega) (by omega)
  unfold findPage
  rw [if_neg (by omega)]
  have hl0 : limit * 1 ≠ 0 := by omega
  have hn : (limit * 1).natAbs = limit.toNat := by omega
  simp only [hl0, if_false, hn]

/-- C11: for every store, every filter and all integers `page ≥ 1` and
`limit ≥ 1`, `GET /api/trends` answers 200 with `total` the number of trends
matching the filter (category when given and not `all`, status when given),
`totalPages` the least `k` with `k * limit ≥ total`, `currentPage` the
requested page, and at most `limit` items, each a stored trend matching the
filter; a page beyond `totalPages` has no items; the store is unchanged. -/
theorem getTrends_page (env : Env) (w : World) (req : Request)
    (hp : 1 ≤ req.query.page.getD 1) (hl : 1 ≤ req.query.limit.getD 10) :
    ∃ items tp,
      handle .getTrends env w req =
        (w, ⟨200, .trendList items (some tp) (req.query.page.getD 1)
          (w.trends.filter (trendFilter req.query)).length⟩) ∧
      (∀ t, trendFilter req.query t = true ↔ MatchesTrendQuery req.query t) ∧
      (((w.trends.filter (trendFilter req.query)).length : Int) ≤
          tp * req.query.limit.getD 10 ∧
        ∀ k : Int, ((w.trends.filter (trendFilter req.query)).length : Int) ≤
          k * req.query.limit.getD 10 → tp ≤ k) ∧
      (items.length : Int) ≤ req.query.limit.getD 10 ∧
      (∀ x ∈ items, x.1 ∈ w.trends ∧ MatchesTrendQuery req.query x.1) ∧
      (tp < req.query.page.getD 1 → items = []) := by
  obtain ⟨tp, htp, hle, hleast⟩ :=
    totalPages_spec (w.trends.filter (trendFilter req.query)).length _ hl
  have hfp := findPage_of_pos
    (newestFirst (fun t : Trend => t.createdAt) (w.trends.filter (trendFilter req.query)))
    _ _ hl hp
  refine ⟨(((newestFirst (fun t : Trend => t.createdAt)
      (w.trends.filter (trendFilter req.query))).drop
        ((req.query.page.getD 1 - 1) * req.query.limit.getD 10).toNat).take
          (req.query.limit.getD 10).toNat).map (fun t => (t, populateUsername w t.createdBy)),
    tp, ?_, trendFilter_iff req.query, ⟨hle, hleast⟩, ?_, ?_, ?_⟩
  · simp only [handle, route, getTrends, hfp, htp]
  · rw [List.length_map]
    have := List.length_take_le (req.query.limit.getD 10).toNat
      ((newestFirst (fun t : Trend => t.createdAt)
        (w.trends.filter (trendFilter req.query))).drop
          ((req.query.page.getD 1 - 1) * req.query.limit.getD 10).toNat)
    omega
  · intro x hx
    rw [List.mem_map] at hx
    obtain ⟨t, ht, rfl⟩ := hx
    have h1 := List.mem_of_mem_drop (List.mem_of_mem_take ht)
    have h2 : t ∈ w.trends.filter (trendFilter req.query) :=
      (List.perm_insertionSort _ _).subset h1
    rw [List.mem_filter] at h2
    exact ⟨h2.1, (trendFilter_iff req.query t).1 h2.2⟩
  · intro hlt
    have hlen : (newestFirst (fun t : Trend => t.createdAt)
        (w.trends.filter (trendFilter req.query))).length =
        (w.trends.filter (trendFilter req.query)).length :=
      (List.perm_insertionSort _ _).length_eq
    have hskip : ((w.trends.filter (trendFilter req.query)).length : Int) ≤
        (req.query.page.getD 1 - 1) * req.query.limit.getD 10 := by
      have h1 : tp ≤ req.query.page.getD 1 - 1 := by omega
      have h2 : tp * req.query.limit.getD 10 ≤
          (req.query.page.getD 1 - 1) * req.query.limit.getD 10 :=
        Int.mul_le_mul_of_nonneg_right h1 (by omega)
      omega
    have hdrop : (newestFirst (fun t : Trend => t.createdAt)
        (w.trends.filter (trendFilter req.query))).drop
          ((req.query.page.getD 1 - 1) * req.query.limit.getD 10).toNat = [] := by
      apply List.drop_eq_nil_of_le
      rw [hlen]
      omega
    rw [hdrop]
    simp

/-- Instance of C11: page 2 of the sample trends of category `tech`. -/
theorem getTrends_page_witness :
    ∃ items tp,
      handle .getTrends sampleEnv sampleWorld techPage =
        (sampleWorld, ⟨200, .trendList items (some tp) (techPage.query.page.getD 1)
          (sampleWorld.trends.filter (trendFilter techPage.query)).length⟩) ∧
      (items.length : Int) ≤ techPage.query.limit.getD 10 :=
  let ⟨items, tp, h1, _, _, h4, _⟩ :=
    getTrends_page sampleEnv sampleWorld techPage (by decide) (by decide)
  ⟨items, tp, h1, h4⟩

/-! ## Listing templates -/

theorem popularFirst_sorted (l : List Template) : (popularFirst l).Pairwise PopularBefore := by
  have h := @List.sorted_insertionSort Template
    (fun a b => a.uses > b.uses ∨ (a.uses = b.uses ∧ a.rating ≥ b.rating)) _
    ⟨fun a b => by
      rcases lt_trichotomy a.uses b.uses with h | h | h
      · exact Or.inr (Or.inl h)
      · rcases le_total a.rating b.rating with h' | h'
        · exact Or.inr (Or.inr ⟨h.symm, h'⟩)
        · exact Or.inl (Or.inr ⟨h, h'⟩)
      · exact Or.inl (Or.inl h)⟩
    ⟨fun a b c hab hbc => by
      rcases hab with h1 | ⟨h1, h1'⟩ <;> rcases hbc with h2 | ⟨h2, h2'⟩
      · exact Or.inl (lt_trans h2 h1)
      · exact Or.inl (by omega)
      · exact Or.inl (by omega)
      · exact Or.inr ⟨by omega, le_trans h2' h1'⟩⟩ l
  refine List.Pairwise.imp ?_ h
  intro a b hab
  rcases hab with h1 | ⟨h1, h1'⟩
  · exact ⟨by omega, fun e => by omega⟩
  · exact ⟨by omega, fun _ => h1'⟩

theorem newestFirst_sorted {α : Type} (createdAt : α → Time) (l : List α) :
    (newestFirst createdAt l).Pairwise (fun a b => createdAt a ≥ createdAt b) :=
  @List.sorted_insertionSort α (fun a b => createdAt a ≥ createdAt b) _
    ⟨fun a b => le_total (createdAt b) (createdAt a)⟩
    ⟨fun _ _ _ hab hbc => le_trans hbc hab⟩ l

theorem findPage_sublist {α : Type} (sorted : List α) (limit skip : Int) (hs : 0 ≤ skip) :
    ∃ items, findPage sorted limit skip = some items ∧ items.Sublist sorted := by
  unfold findPage
  rw [if_neg (by omega)]
  refine ⟨_, rfl, ?_⟩
  split
  · exact List.drop_sublist _ _
  · exact (List.take_sublist _ _).trans (List.drop_sublist _ _)

theorem findPage_slice {α : Type} (sorted : List α) (limit skip : Int) (hs : 0 ≤ skip) :
    findPage sorted limit skip =
      some (if limit = 0 then sorted.drop skip.toNat
        else (sorted.drop skip.toNat).take limit.natAbs) := by
  unfold findPage
  rw [if_neg (by omega)]

theorem slice_first_page {α : Type} (listing : List α) (limit skip : Int) (hs : skip = 0)
    (hl : (listing.length : Int) ≤ limit) :
    (if limit = 0 then listing.drop skip.toNat
      else (listing.drop skip.toNat).take limit.natAbs) = listing := by
  subst hs
  simp only [Int.toNat_zero, List.drop_zero]
  split
  · rfl
  · exact List.take_of_length_le (by omega)

/-- C12: for `GET /api/templates` with a page the store accepts, the items are
exactly the slice `skip = (page - 1) * limit`, `limit` of a listing of the
eligible templates, and the whole listing when the first page is asked with a
limit that the eligible templates do not exceed.  With `category=popular`
every template of the store is eligible and the listing is ordered by uses
descending, ties by rating descending; with another category exactly the
templates of that category are eligible and the listing is newest first;
without a category every template is eligible, newest first.  `total` counts
the eligible templates. -/
theorem getTemplates_order (env : Env) (w : World) (req : Request)
    (hskip : 0 ≤ (req.query.page.getD 1 - 1) * req.query.limit.getD 10) :
    ∃ eligible listing items : List Template,
      handle .getTemplates env w req =
        (w, ⟨200, .templateList (items.map (fun t => (t, populateUsername w t.createdBy)))
          (totalPages eligible.length (req.query.limit.getD 10)) (req.query.page.getD 1)
          eligible.length⟩) ∧
      listing.Perm eligible ∧
      items =
        (if req.query.limit.getD 10 * 1 = 0 then
          listing.drop ((req.query.page.getD 1 - 1) * req.query.limit.getD 10).toNat
        else
          (listing.drop ((req.query.page.getD 1 - 1) * req.query.limit.getD 10).toNat).take
            (req.query.limit.getD 10 * 1).natAbs) ∧
      (req.query.page.getD 1 = 1 → (eligible.length : Int) ≤ req.query.limit.getD 10 →
        items = listing) ∧
      (req.query.category = some "popular" →
        eligible = w.templates ∧ listing.Pairwise PopularBefore ∧
          items.Pairwise PopularBefore) ∧
      (∀ c, req.query.category = some c → c ≠ "" → c ≠ "popular" →
        eligible = w.templates.filter (fun t => t.category = c) ∧
          listing.Pairwise NewerBefore ∧ items.Pairwise NewerBefore ∧
          ∀ t ∈ items, t.category = c) ∧
      ((req.query.category = none ∨ req.query.category = some "") →
        eligible = w.templates ∧ listing.Pairwise NewerBefore ∧
          items.Pairwise NewerBefore) := by
  have hitems := findPage_slice
    (if req.query.category = some "popular" then
      popularFirst (w.templates.filter (templateFilter req.query))
    else newestFirst (fun t => t.createdAt) (w.templates.filter (templateFilter req.query)))
    (req.query.limit.getD 10 * 1) _ hskip
  obtain ⟨items, hitems2, hsub⟩ := findPage_sublist
    (if req.query.category = some "popular" then
      popularFirst (w.templates.filter (templateFilter req.query))
    else newestFirst (fun t => t.createdAt) (w.templates.filter (templateFilter req.query)))
    (req.query.limit.getD 10 * 1) _ hskip
  have hslice := Option.some.inj (hitems2.symm.trans hitems)
  have hperm : (if req.query.category = some "popular" then
      popularFirst (w.templates.filter (templateFilter req.query))
    else newestFirst (fun t => t.createdAt)
      (w.templates.filter (templateFilter req.query))).Perm
      (w.templates.filter (templateFilter req.query)) := by
    split
    · exact List.perm_insertionSort _ _
    · exact List.perm_insertionSort _ _
  refine ⟨w.templates.filter (templateFilter req.query), _, items, ?_, hperm, hslice, ?_,
    ?_, ?_, ?_⟩
  · simp only [handle, route, getTemplates, hitems2]
  · intro hpage hlen
    rw [hslice]
    apply slice_first_page
    · rw [hpage]; simp
    · rw [hperm.length_eq]
      simpa using hlen
  · intro hc
    have hall : w.templates.filter (templateFilter req.query) = w.templates := by
      rw [List.filter_eq_self]
      intro t _
      simp [templateFilter, hc]
    rw [if_pos hc] at hsub ⊢
    exact ⟨hall, popularFirst_sorted _, (popularFirst_sorted _).sublist hsub⟩
  · intro c hc hne hpop
    have hcp : req.query.category ≠ some "popular" := by
      rw [hc]; simpa using hpop
    have hf : w.templates.filter (templateFilter req.query) =
        w.templates.filter (fun t => t.category = c) := by
      apply List.filter_congr
      intro t _
      simp [templateFilter, hc, truthy, hne, hpop]
      by_cases h : t.category = c <;> simp [h]
    rw [if_neg hcp] at hsub ⊢
    refine ⟨hf, newestFirst_sorted _ _, (newestFirst_sorted _ _).sublist hsub, ?_⟩
    intro t ht
    have h1 := (List.perm_insertionSort _ _).subset (hsub.subset ht)
    rw [hf, List.mem_filter] at h1
    simpa using h1.2
  · intro hc
    have hcp : req.query.category ≠ some "popular" := by
      rcases hc with hc | hc <;> rw [hc] <;> simp
    have hall : w.templates.filter (templateFilter req.query) = w.templates := by
      rw [List.filter_eq_self]
      intro t _
      rcases hc with hc | hc <;> simp [templateFilter, hc, truthy]
    rw [if_neg hcp] at hsub ⊢
    exact ⟨hall, newestFirst_sorted _ _, (newestFirst_sorted _ _).sublist hsub⟩

/-- Instance of C12: the popularity listing of the sample templates holds the
templates of both categories, most used first. -/
theorem getTemplates_order_witness :
    ∃ items : List Template,
      handle .getTemplates sampleEnv templateWorld { query := { category := some "popular" } } =
        (templateWorld,
          ⟨200, .templateList
            (items.map (fun t => (t, populateUsername templateWorld t.createdBy)))
            (totalPages templateWorld.templates.length 10) 1
            templateWorld.templates.length⟩) ∧
      items.Pairwise PopularBefore ∧ items.Perm templateWorld.templates :=
  let ⟨_, _, items, h1, h2, _, h3, h4, _, _⟩ :=
    getTemplates_order sampleEnv templateWorld { query := { category := some "popular" } }
      (by decide)
  ⟨items, by rw [h1, (h4 rfl).1]; rfl, (h4 rfl).2.2, by
    rw [h3 rfl (by rw [(h4 rfl).1]; decide)]
    exact (h4 rfl).1 ▸ h2⟩

/-! ## Creating trends, templates and memes -/

/-- C13: an authenticated create request that carries no file part is answered
by `POST /api/templates` with 400 `Image is required` and by `POST /api/memes`
with 400 `Meme image is required`, whatever its body, and nothing is stored. -/
theorem create_without_image (env : Env) (w : World) (req : Request) (tok : String)
    (c : Claims) (ht : bearerToken req.authorization = some tok) (hne : tok ≠ "")
    (hv : env.jwt.verify tok env.secret env.now = some c)
    (hup : req.upload = none) (hfile : req.file = none) :
    handle .createTemplate env w req = (w, ⟨400, .error "Image is required"⟩) ∧
    handle .createMeme env w req = (w, ⟨400, .error "Meme image is required"⟩) := by
  have h1 := authenticateToken_verified env w req tok c ht hne hv
  constructor
  · simp only [handle, route, h1, uploadSingleImage, hup, createTemplate, hfile]
  · simp only [handle, route, h1, uploadSingleImage, hup, createMeme, hfile]

/-- Instance of C13: `alice` posts a template without a file. -/
theorem create_without_image_witness :
    handle .createTemplate sampleEnv sampleWorld aliceCreate =
      (sampleWorld, ⟨400, .error "Image is required"⟩) ∧
    handle .createMeme sampleEnv sampleWorld aliceCreate =
      (sampleWorld, ⟨400, .error "Meme image is required"⟩) :=
  create_without_image sampleEnv sampleWorld aliceCreate "tok-alice" aliceClaims
    (by decide) (by decide) (by decide) rfl rfl

theorem uploadSingleImage_cases (env : Env) (w : World) (req : Request) :
    (∃ msg, uploadSingleImage env w req = .fail w req msg) ∨
    ∃ w1 r1, uploadSingleImage env w req = .next w1 r1 ∧ w1.users = w.users ∧
      w1.trends = w.trends ∧ w1.templates = w.templates ∧ w1.memes = w.memes ∧
      r1.user = req.user := by
  unfold uploadSingleImage
  split
  · exact Or.inr ⟨_, _, rfl, rfl, rfl, rfl, rfl, rfl⟩
  · split
    · exact Or.inl ⟨_, rfl⟩
    · split
      · exact Or.inl ⟨_, rfl⟩
      · split
        · exact Or.inl ⟨_, rfl⟩
        · exact Or.inr ⟨_, _, rfl, rfl, rfl, rfl, rfl, rfl⟩

theorem createTrend_owner (env : Env) (w : World) (req : Request)
    (h : (createTrend env w req).2.status = 201) :
    ∃ u t, req.user = some u ∧ (createTrend env w req).1.trends = w.trends ++ [t] ∧
      t.createdBy = some u.userId := by
  unfold createTrend at h ⊢
  cases hu : req.user with
  | none => simp [hu] at h
  | some u =>
    simp only [hu] at h ⊢
    by_cases hreq : (required req.body.title && required req.body.description &&
        required req.body.category) = true
    · simp only [hreq, if_true]
      exact ⟨u, _, rfl, rfl, rfl⟩
    · simp [hreq] at h

theorem createTemplate_owner (env : Env) (w : World) (req : Request)
    (h : (createTemplate env w req).2.status = 201) :
    ∃ u t, req.user = some u ∧ (createTemplate env w req).1.templates = w.templates ++ [t] ∧
      t.createdBy = some u.userId := by
  unfold createTemplate at h ⊢
  cases hf : req.file with
  | none => simp [hf] at h
  | some f =>
    cases hu : req.user with
    | none => simp [hf, hu] at h
    | some u =>
      simp only [hf, hu] at h ⊢
      by_cases hreq : (required req.body.name && required req.body.category) = true
      · simp only [hreq, if_true]
        exact ⟨u, _, rfl, rfl, rfl⟩
      · simp [hreq] at h

theorem createMeme_owner (env : Env) (w : World) (req : Request)
    (h : (createMeme env w req).2.status = 201) :
    ∃ u m, req.user = some u ∧ (createMeme env w req).1.memes = w.memes ++ [m] ∧
      m.createdBy = some u.userId := by
  unfold createMeme at h ⊢
  cases hf : req.file with
  | none => simp [hf] at h
  | some f =>
    cases hu : req.user with
    | none => simp [hf, hu] at h
    | some u =>
      simp only [hf, hu] at h ⊢
      by_cases hreq : required req.body.title = true
      · simp only [hreq, if_true]
        exact ⟨u, _, rfl, rfl, rfl⟩
      · simp [hreq] at h

theorem route_auth_upload_created (handler : Handler) (env : Env) (w : World)
    (req : Request)
    (h : (route [authenticateToken, uploadSingleImage] handler env w req).2.status = 201) :
    ∃ c w1 r1, truthy (bearerToken req.authorization) = true ∧
      env.jwt.verify ((bearerToken req.authorization).getD "") env.secret env.now = some c ∧
      r1.user = some c ∧ w1.trends = w.trends ∧ w1.templates = w.templates ∧
      w1.memes = w.memes ∧
      route [authenticateToken, uploadSingleImage] handler env w req = handler env w1 r1 := by
  cases ht : truthy (bearerToken req.authorization) with
  | false => simp [route, authenticateToken, ht] at h
  | true =>
    cases hv : env.jwt.verify ((bearerToken req.authorization).getD "") env.secret env.now with
    | none => simp [route, authenticateToken, ht, hv] at h
    | some c =>
      have hroute : route [authenticateToken, uploadSingleImage] handler env w req =
          match uploadSingleImage env w { req with user := some c } with
          | .next w' req' => handler env w' req'
          | .respond w' _ res => (w', res)
          | .fail w' _ msg => (w', errorHandler env msg) := by
        simp only [route, authenticateToken, ht, hv, Bool.not_true, Bool.false_eq_true,
          if_false]
      rw [hroute] at h ⊢
      rcases uploadSingleImage_cases env w { req with user := some c } with
        ⟨msg, hm⟩ | ⟨w1, r1, hm, _, h2, h3, h4, h5⟩
      · rw [hm] at h
        simp [errorHandler] at h
      · rw [hm]
        exact ⟨c, w1, r1, rfl, rfl, h5, h2, h3, h4, rfl⟩

theorem route_auth_upload_body (handler : Handler)
    (hh : ∀ env w (r : Request) owner extra,
      handler env w { r with body := { r.body with createdBy := owner, extra := extra } } =
        handler env w r)
    (env : Env) (w : World) (req : Request) (owner : Option ObjectId)
    (extra : List (String × String)) :
    route [authenticateToken, uploadSingleImage] handler env w
        { req with body := { req.body with createdBy := owner, extra := extra } } =
      route [authenticateToken, uploadSingleImage] handler env w req := by
  cases ht : truthy (bearerToken req.authorization) with
  | false => simp [route, authenticateToken, ht]
  | true =>
    cases hv : env.jwt.verify ((bearerToken req.authorization).getD "") env.secret env.now with
    | none => simp [route, authenticateToken, ht, hv]
    | some c =>
      simp only [route, authenticateToken, ht, hv, Bool.not_true, Bool.false_eq_true,
        if_false, uploadSingleImage]
      cases hu : req.upload with
      | none =>
        exact hh env w { req with upload := none, user := some c } owner extra
      | some file =>
        by_cases h1 : file.fieldname ≠ "image"
        · simp only [if_pos h1]
        · by_cases h2 : (!fileFilter env file) = true
          · simp only [if_neg h1, if_pos h2]
          · by_cases h3 : file.size > 10 * 1024 * 1024
            · simp only [if_neg h1, if_neg h2, if_pos h3]
            · simp only [if_neg h1, if_neg h2, if_neg h3]
              exact hh env _
                { req with upload := some file, user := some c,
                           file := some ⟨uploadFilename env file⟩ } owner extra

theorem route_auth_upload_passed (handler : Handler) (env : Env) (w : World)
    (req : Request) (tok : String) (c : Claims)
    (ht : bearerToken req.authorization = some tok) (hne : tok ≠ "")
    (hv : env.jwt.verify tok env.secret env.now = some c)
    (hup : req.upload = none ∨ UploadAccepted env req) :
    ∃ w1 r1, route [authenticateToken, uploadSingleImage] handler env w req =
        handler env w1 r1 ∧ r1.user = some c ∧ r1.body = req.body ∧
      (UploadAccepted env req → ∃ f, r1.file = some f) := by
  have h1 := authenticateToken_verified env w req tok c ht hne hv
  rcases hup with hnone | ⟨file, hf, hname, hfilter, hsize⟩
  · refine ⟨w, { req with user := some c }, ?_, rfl, rfl, ?_⟩
    · simp only [route, h1, uploadSingleImage, hnone]
    · rintro ⟨file, hf, _⟩
      rw [hnone] at hf
      cases hf
  · refine ⟨{ w with files := uploadFilename env file :: w.files.erase (uploadFilename env file) },
      { req with user := some c, file := some ⟨uploadFilename env file⟩ }, ?_, rfl, rfl,
      fun _ => ⟨_, rfl⟩⟩
    have hsize2 : ¬ file.size > 10 * 1024 * 1024 := by omega
    simp only [route, h1, uploadSingleImage, hf, hname, hfilter, hsize2, ne_eq,
      not_true_eq_false, if_false, Bool.not_true, Bool.false_eq_true]

theorem createTrend_status (env : Env) (w : World) (req : Request) (c : Claims)
    (hu : req.user = some c) (h1 : required req.body.title = true)
    (h2 : required req.body.description = true) (h3 : required req.body.category = true) :
    (createTrend env w req).2.status = 201 := by
  simp [createTrend, hu, h1, h2, h3]

theorem createTemplate_status (env : Env) (w : World) (req : Request) (c : Claims)
    (f : StoredFile) (hf : req.file = some f) (hu : req.user = some c)
    (h1 : required req.body.name = true) (h2 : required req.body.category = true) :
    (createTemplate env w req).2.status = 201 := by
  simp [createTemplate, hf, hu, h1, h2]

theorem createMeme_status (env : Env) (w : World) (req : Request) (c : Claims)
    (f : StoredFile) (hf : req.file = some f) (hu : req.user = some c)
    (h1 : required req.body.title = true) :
    (createMeme env w req).2.status = 201 := by
  simp [createMeme, hf, hu, h1]

/-- C14: a request to `POST /api/trends`, `POST /api/templates` or
`POST /api/memes` whose token verifies to an identity, whose image part is
accepted (for a trend it may also be absent) and whose body holds the required
fields is answered 201.  Whenever one of the three routes answers 201, the
token of the request verifies to an identity and the entity appended to the
collection has `createdBy` equal to the `userId` of that identity.  The
outcome of the route does not depend on a `createdBy` key or on any further
key of the body. -/
theorem create_owner (env : Env) (w : World) (req : Request) (r : Route)
    (hr : r = .createTrend ∨ r = .createTemplate ∨ r = .createMeme) :
    ((handle r env w req).2.status = 201 →
      ∃ c, truthy (bearerToken req.authorization) = true ∧
        env.jwt.verify ((bearerToken req.authorization).getD "") env.secret env.now =
          some c ∧
        (r = .createTrend → ∃ t, (handle r env w req).1.trends = w.trends ++ [t] ∧
          t.createdBy = some c.userId) ∧
        (r = .createTemplate → ∃ t, (handle r env w req).1.templates = w.templates ++ [t] ∧
          t.createdBy = some c.userId) ∧
        (r = .createMeme → ∃ m, (handle r env w req).1.memes = w.memes ++ [m] ∧
          m.createdBy = some c.userId)) ∧
    (∀ tok c, bearerToken req.authorization = some tok → tok ≠ "" →
      env.jwt.verify tok env.secret env.now = some c →
      (r = .createTrend → (req.upload = none ∨ UploadAccepted env req) →
        required req.body.title = true → required req.body.description = true →
        required req.body.category = true →
        (handle r env w req).2.status = 201 ∧
        ∃ t, (handle r env w req).1.trends = w.trends ++ [t] ∧
          t.createdBy = some c.userId) ∧
      (r = .createTemplate → UploadAccepted env req →
        required req.body.name = true → required req.body.category = true →
        (handle r env w req).2.status = 201 ∧
        ∃ t, (handle r env w req).1.templates = w.templates ++ [t] ∧
          t.createdBy = some c.userId) ∧
      (r = .createMeme → UploadAccepted env req → required req.body.title = true →
        (handle r env w req).2.status = 201 ∧
        ∃ m, (handle r env w req).1.memes = w.memes ++ [m] ∧
          m.createdBy = some c.userId)) ∧
    ∀ owner extra,
      handle r env w { req with body := { req.body with createdBy := owner, extra := extra } } =
        handle r env w req := by
  have hA : (handle r env w req).2.status = 201 →
      ∃ c, truthy (bearerToken req.authorization) = true ∧
        env.jwt.verify ((bearerToken req.authorization).getD "") env.secret env.now =
          some c ∧
        (r = .createTrend → ∃ t, (handle r env w req).1.trends = w.trends ++ [t] ∧
          t.createdBy = some c.userId) ∧
        (r = .createTemplate → ∃ t, (handle r env w req).1.templates = w.templates ++ [t] ∧
          t.createdBy = some c.userId) ∧
        (r = .createMeme → ∃ m, (handle r env w req).1.memes = w.memes ++ [m] ∧
          m.createdBy = some c.userId) := by
    intro h
    rcases hr with hr | hr | hr <;> subst hr
    · obtain ⟨c, w1, r1, ht, hv, hu, h1, _, _, he⟩ :=
        route_auth_upload_created createTrend env w req h
      have h' : (createTrend env w1 r1).2.status = 201 := by rw [← he]; exact h
      obtain ⟨u, t, hu', htr, hown⟩ := createTrend_owner env w1 r1 h'
      have huc : u = c := by rw [hu] at hu'; exact (Option.some.inj hu').symm
      refine ⟨c, ht, hv, fun _ => ⟨t, ?_, by rw [← huc]; exact hown⟩,
        (fun e => by cases e), (fun e => by cases e)⟩
      show (route [authenticateToken, uploadSingleImage] createTrend env w req).1.trends = _
      rw [he, htr, h1]
    · obtain ⟨c, w1, r1, ht, hv, hu, _, h1, _, he⟩ :=
        route_auth_upload_created createTemplate env w req h
      have h' : (createTemplate env w1 r1).2.status = 201 := by rw [← he]; exact h
      obtain ⟨u, t, hu', htr, hown⟩ := createTemplate_owner env w1 r1 h'
      have huc : u = c := by rw [hu] at hu'; exact (Option.some.inj hu').symm
      refine ⟨c, ht, hv, (fun e => by cases e),
        fun _ => ⟨t, ?_, by rw [← huc]; exact hown⟩, (fun e => by cases e)⟩
      show (route [authenticateToken, uploadSingleImage] createTemplate env w req).1.templates
        = _
      rw [he, htr, h1]
    · obtain ⟨c, w1, r1, ht, hv, hu, _, _, h1, he⟩ :=
        route_auth_upload_created createMeme env w req h
      have h' : (createMeme env w1 r1).2.status = 201 := by rw [← he]; exact h
      obtain ⟨u, t, hu', htr, hown⟩ := createMeme_owner env w1 r1 h'
      have huc : u = c := by rw [hu] at hu'; exact (Option.some.inj hu').symm
      refine ⟨c, ht, hv, (fun e => by cases e), (fun e => by cases e),
        fun _ => ⟨t, ?_, by rw [← huc]; exact hown⟩⟩
      show (route [authenticateToken, uploadSingleImage] createMeme env w req).1.memes = _
      rw [he, htr, h1]
  refine ⟨hA, ?_, ?_⟩
  · intro tok c ht hne hv
    have hsame : ∀ c', env.jwt.verify ((bearerToken req.authorization).getD "") env.secret
        env.now = some c' → c' = c := by
      intro c' hv'
      rw [ht, Option.getD_some, hv] at hv'
      exact (Option.some.inj hv').symm
    refine ⟨fun hr1 hup h1 h2 h3 => ?_, fun hr1 hup h1 h2 => ?_, fun hr1 hup h1 => ?_⟩
    · have hst : (handle r env w req).2.status = 201 := by
        subst hr1
        obtain ⟨w1, r1, he, hu, hb, _⟩ :=
          route_auth_upload_passed createTrend env w req tok c ht hne hv hup
        show (route [authenticateToken, uploadSingleImage] createTrend env w req).2.status = _
        rw [he]
        exact createTrend_status env w1 r1 c hu (by rw [hb]; exact h1) (by rw [hb]; exact h2)
          (by rw [hb]; exact h3)
      obtain ⟨c', _, hv', hres, _, _⟩ := hA hst
      rw [hsame c' hv'] at hres
      exact ⟨hst, hres hr1⟩
    · have hst : (handle r env w req).2.status = 201 := by
        subst hr1
        obtain ⟨w1, r1, he, hu, hb, hfile⟩ :=
          route_auth_upload_passed createTemplate env w req tok c ht hne hv (Or.inr hup)
        obtain ⟨f, hf⟩ := hfile hup
        show (route [authenticateToken, uploadSingleImage] createTemplate env w req).2.status
          = _
        rw [he]
        exact createTemplate_status env w1 r1 c f hf hu (by rw [hb]; exact h1)
          (by rw [hb]; exact h2)
      obtain ⟨c', _, hv', _, hres, _⟩ := hA hst
      rw [hsame c' hv'] at hres
      exact ⟨hst, hres hr1⟩
    · have hst : (handle r env w req).2.status = 201 := by
        subst hr1
        obtain ⟨w1, r1, he, hu, hb, hfile⟩ :=
          route_auth_upload_passed createMeme env w req tok c ht hne hv (Or.inr hup)
        obtain ⟨f, hf⟩ := hfile hup
        show (route [authenticateToken, uploadSingleImage] createMeme env w req).2.status = _
        rw [he]
        exact createMeme_status env w1 r1 c f hf hu (by rw [hb]; exact h1)
      obtain ⟨c', _, hv', _, _, hres⟩ := hA hst
      rw [hsame c' hv'] at hres
      exact ⟨hst, hres hr1⟩
  · intro owner extra
    rcases hr with hr | hr | hr <;> subst hr
    · exact route_auth_upload_body createTrend (fun _ _ _ _ _ => rfl) env w req owner extra
    · exact route_auth_upload_body createTemplate (fun _ _ _ _ _ => rfl) env w req owner extra
    · exact route_auth_upload_body createMeme (fun _ _ _ _ _ => rfl) env w req owner extra

/-- Instance of C14: `alice` creates a trend, a template and a meme with an
image while the body names user 2 as owner; each is answered 201 and stored
with `alice` (user 1) as owner. -/
theorem create_owner_witness :
    UploadAccepted sampleEnv aliceUpload ∧
    ((handle .createTrend sampleEnv sampleWorld aliceUpload).2.status = 201 ∧
      ∃ t, (handle .createTrend sampleEnv sampleWorld aliceUpload).1.trends =
        sampleWorld.trends ++ [t] ∧ t.createdBy = some 1) ∧
    ((handle .createTemplate sampleEnv sampleWorld aliceUpload).2.status = 201 ∧
      ∃ t, (handle .createTemplate sampleEnv sampleWorld aliceUpload).1.templates =
        sampleWorld.templates ++ [t] ∧ t.createdBy = some 1) ∧
    ((handle .createMeme sampleEnv sampleWorld aliceUpload).2.status = 201 ∧
      ∃ m, (handle .createMeme sampleEnv sampleWorld aliceUpload).1.memes =
        sampleWorld.memes ++ [m] ∧ m.createdBy = some 1) :=
  have hup : UploadAccepted sampleEnv aliceUpload :=
    ⟨_, rfl, rfl, by decide, by decide⟩
  ⟨hup,
    ((create_owner sampleEnv sampleWorld aliceUpload .createTrend (Or.inl rfl)).2.1
      "tok-alice" aliceClaims (by decide) (by decide) (by decide)).1 rfl (Or.inr hup)
      (by decide) (by decide) (by decide),
    ((create_owner sampleEnv sampleWorld aliceUpload .createTemplate
      (Or.inr (Or.inl rfl))).2.1
      "tok-alice" aliceClaims (by decide) (by decide) (by decide)).2.1 rfl hup
      (by decide) (by decide),
    ((create_owner sampleEnv sampleWorld aliceUpload .createMeme
      (Or.inr (Or.inr rfl))).2.1
      "tok-alice" aliceClaims (by decide) (by decide) (by decide)).2.2 rfl hup (by decide)⟩

/-! ## Counters -/

theorem find?_split {α : Type} (p : α → Bool) (l : List α) (h : ∃ x ∈ l, p x = true) :
    ∃ pre t post, l = pre ++ t :: post ∧ p t = true ∧ (∀ x ∈ pre, p x = false) ∧
      l.find? p = some t := by
  induction l with
  | nil => simp at h
  | cons a as ih =>
    by_cases ha : p a = true
    · exact ⟨[], a, as, rfl, ha, by simp, by simp [List.find?, ha]⟩
    · have h' : ∃ x ∈ as, p x = true := by
        obtain ⟨x, hx, hpx⟩ := h
        rcases List.mem_cons.1 hx with e | e
        · rw [e] at hpx; exact absurd hpx ha
        · exact ⟨x, e, hpx⟩
      obtain ⟨pre, t, post, e, ht, hpre, hf⟩ := ih h'
      refine ⟨a :: pre, t, post, by rw [e]; rfl, ht, ?_, ?_⟩
      · intro x hx
        rcases List.mem_cons.1 hx with e' | e'
        · rw [e']; simpa using ha
        · exact hpre x e'
      · simp [List.find?, ha, hf]

theorem updateFirst_append {α : Type} (p : α → Bool) (f : α → α) (pre : List α) (t : α)
    (post : List α) (ht : p t = true) (hpre : ∀ x ∈ pre, p x = false) :
    updateFirst p f (pre ++ t :: post) = pre ++ f t :: post := by
  induction pre with
  | nil => simp [updateFirst, ht]
  | cons a as ih =>
    have ha : p a = false := hpre a (by simp)
    have has : ∀ x ∈ as, p x = false := fun x hx => hpre x (by simp [hx])
    simp [updateFirst, ha, ih has]

theorem removeFirst_append {α : Type} (p : α → Bool) (pre : List α) (t : α)
    (post : List α) (ht : p t = true) (hpre : ∀ x ∈ pre, p x = false) :
    removeFirst p (pre ++ t :: post) = pre ++ post := by
  induction pre with
  | nil => simp [removeFirst, ht]
  | cons a as ih =>
    have ha : p a = false := hpre a (by simp)
    have has : ∀ x ∈ as, p x = false := fun x hx => hpre x (by simp [hx])
    simp [removeFirst, ha, ih has]

/-- C15 as stated fails: the id `abc` is the id of no trend, yet
`POST /api/trends/abc/view` is answered with 500, not 404. -/
theorem viewTrend_malformed_id_not_404 :
    (∀ t ∈ sampleWorld.trends, sampleEnv.castObjectId "abc" ≠ some t.id) ∧
    handle .viewTrend sampleEnv sampleWorld { id := "abc" } =
      (sampleWorld, ⟨500, .error "Cast to ObjectId failed"⟩) ∧
    (handle .viewTrend sampleEnv sampleWorld { id := "abc" }).2.status ≠ 404 := by
  decide

/-- C15, amended: for every store and every request, authenticated or not,
whose id is a well-formed ObjectId: if a trend has that id, with `views = v`,
`POST /api/trends/:id/view` answers 200 with `views = v + 1` and stores it,
every other field of that trend, every other trend and every other collection
staying as they were; if no trend has that id it answers 404 and the store is
unchanged.  The same holds for `POST /api/templates/:id/use` and `uses`.  An
id that is not a well-formed ObjectId is answered with 500, store unchanged. -/
theorem counter_increment (env : Env) (w : World) (req : Request) :
    (∀ id, env.castObjectId req.id = some id →
      ((∃ t ∈ w.trends, t.id = id) →
        ∃ pre t post, w.trends = pre ++ t :: post ∧ t.id = id ∧ (∀ x ∈ pre, x.id ≠ id) ∧
          handle .viewTrend env w req =
            ({ w with trends := pre ++ { t with views := t.views + 1 } :: post },
              ⟨200, .views "View recorded" (t.views + 1)⟩)) ∧
      ((∀ t ∈ w.trends, t.id ≠ id) →
        handle .viewTrend env w req = (w, ⟨404, .error "Trend not found"⟩)) ∧
      ((∃ t ∈ w.templates, t.id = id) →
        ∃ pre t post, w.templates = pre ++ t :: post ∧ t.id = id ∧
          (∀ x ∈ pre, x.id ≠ id) ∧
          handle .useTemplate env w req =
            ({ w with templates := pre ++ { t with uses := t.uses + 1 } :: post },
              ⟨200, .uses "Usage recorded" (t.uses + 1)⟩)) ∧
      ((∀ t ∈ w.templates, t.id ≠ id) →
        handle .useTemplate env w req = (w, ⟨404, .error "Template not found"⟩))) ∧
    (env.castObjectId req.id = none →
      handle .viewTrend env w req = (w, ⟨500, .error "Cast to ObjectId failed"⟩) ∧
      handle .useTemplate env w req = (w, ⟨500, .error "Cast to ObjectId failed"⟩)) := by
  refine ⟨fun id hid => ⟨?_, ?_, ?_, ?_⟩, fun hid => ⟨?_, ?_⟩⟩
  · rintro ⟨t, ht, hti⟩
    obtain ⟨pre, t0, post, e, hp, hpre, hf⟩ :=
      find?_split (fun t : Trend => decide (t.id = id)) w.trends ⟨t, ht, by simp [hti]⟩
    refine ⟨pre, t0, post, e, by simpa using hp, fun x hx => by simpa using hpre x hx, ?_⟩
    simp only [handle, route, viewTrend, hid, hf]
    rw [e, updateFirst_append _ _ pre t0 post hp hpre]
  · intro hno
    have hf : w.trends.find? (fun t => decide (t.id = id)) = none := by
      rw [List.find?_eq_none]
      intro x hx
      simpa using hno x hx
    simp only [handle, route, viewTrend, hid, hf]
  · rintro ⟨t, ht, hti⟩
    obtain ⟨pre, t0, post, e, hp, hpre, hf⟩ :=
      find?_split (fun t : Template => decide (t.id = id)) w.templates ⟨t, ht, by simp [hti]⟩
    refine ⟨pre, t0, post, e, by simpa using hp, fun x hx => by simpa using hpre x hx, ?_⟩
    simp only [handle, route, useTemplate, hid, hf]
    rw [e, updateFirst_append _ _ pre t0 post hp hpre]
  · intro hno
    have hf : w.templates.find? (fun t => decide (t.id = id)) = none := by
      rw [List.find?_eq_none]
      intro x hx
      simpa using hno x hx
    simp only [handle, route, useTemplate, hid, hf]
  · simp only [handle, route, viewTrend, hid]
  · simp only [handle, route, useTemplate, hid]

/-- Instance of the amended C15: an anonymous view of the sample trend 10. -/
theorem counter_increment_witness :
    ∃ pre t post, sampleWorld.trends = pre ++ t :: post ∧ t.id = 10 ∧
      (∀ x ∈ pre, x.id ≠ 10) ∧
      handle .viewTrend sampleEnv sampleWorld { id := "10" } =
        ({ sampleWorld with trends := pre ++ { t with views := t.views + 1 } :: post },
          ⟨200, .views "View recorded" (t.views + 1)⟩) :=
  ((counter_increment sampleEnv sampleWorld { id := "10" }).1 10 (by decide)).1
    ⟨_, List.mem_cons_self _ _, rfl⟩

/-! ## Double-precision arithmetic -/

theorem roundHalfEven_error (q : ℚ) : |(roundHalfEven q : ℚ) - q| ≤ 1 / 2 := by
  have h1 := Int.floor_le q
  have h2 := Int.lt_floor_add_one q
  unfold roundHalfEven
  rw [abs_le]
  split
  · constructor <;> linarith
  · split
    · push_cast
      constructor <;> linarith
    · split
      · constructor <;> linarith
      · push_cast
        constructor <;> linarith

theorem roundHalfEven_intCast (z : ℤ) : roundHalfEven (z : ℚ) = z := by
  unfold roundHalfEven
  rw [Int.floor_intCast, if_pos (by norm_num)]

theorem roundHalfEven_nonneg (q : ℚ) (h : 0 ≤ q) : 0 ≤ roundHalfEven q := by
  have h1 : 0 ≤ ⌊q⌋ := Int.floor_nonneg.2 h
  unfold roundHalfEven
  split
  · exact h1
  · split
    · omega
    · split <;> omega

theorem roundHalfEven_of_close (q : ℚ) (m : ℤ) (h : |q - m| < 1 / 2) : roundHalfEven q = m := by
  have h1 := Int.floor_le q
  have h2 := Int.lt_floor_add_one q
  rw [abs_lt] at h
  unfold roundHalfEven
  split
  · rename_i h3
    have : (⌊q⌋ : ℚ) < m + 1 := by linarith
    have : ((m : ℚ)) < ⌊q⌋ + 1 := by linarith
    have a1 : ⌊q⌋ < m + 1 := by exact_mod_cast ‹(⌊q⌋ : ℚ) < m + 1›
    have a2 : m < ⌊q⌋ + 1 := by exact_mod_cast ‹((m : ℚ)) < ⌊q⌋ + 1›
    omega
  · rename_i h3
    have b1 : (⌊q⌋ : ℚ) < m := by linarith
    have b2 : ((m : ℚ)) < ⌊q⌋ + 2 := by linarith
    have a1 : ⌊q⌋ < m := by exact_mod_cast b1
    have a2 : m < ⌊q⌋ + 2 := by exact_mod_cast b2
    have : m = ⌊q⌋ + 1 := by omega
    split
    · omega
    · rename_i h4
      exfalso
      have : q - ⌊q⌋ = 1 / 2 := by linarith
      have : (m : ℚ) = ⌊q⌋ + 1 := by exact_mod_cast ‹m = ⌊q⌋ + 1›
      linarith

theorem roundDouble_nonneg (x : ℚ) (h : 0 ≤ x) : 0 ≤ roundDouble x := by
  unfold roundDouble
  split
  · exact le_refl 0
  · have hu : (0 : ℚ) < 2 ^ (Int.log 2 |x| - 52) := zpow_pos (by norm_num) _
    have := roundHalfEven_nonneg (x / 2 ^ (Int.log 2 |x| - 52)) (div_nonneg h hu.le)
    exact mul_nonneg (by exact_mod_cast this) hu.le

theorem roundDouble_error (x : ℚ) : |roundDouble x - x| ≤ |x| / 2 ^ 53 := by
  unfold roundDouble
  split
  · rename_i h
    rw [h]; simp
  · rename_i h
    have hx : 0 < |x| := abs_pos.2 h
    have hu : (0 : ℚ) < 2 ^ (Int.log 2 |x| - 52) := zpow_pos (by norm_num) _
    have hlog : (2 : ℚ) ^ Int.log 2 |x| ≤ |x| := Int.zpow_log_le_self (by norm_num) hx
    have he := roundHalfEven_error (x / 2 ^ (Int.log 2 |x| - 52))
    have hsplit : (2 : ℚ) ^ (Int.log 2 |x| - 52) = 2 ^ Int.log 2 |x| / 2 ^ 52 := by
      rw [zpow_sub₀ (by norm_num)]
      norm_num
    have heq : (roundHalfEven (x / 2 ^ (Int.log 2 |x| - 52)) : ℚ) * 2 ^ (Int.log 2 |x| - 52) - x
        = ((roundHalfEven (x / 2 ^ (Int.log 2 |x| - 52)) : ℚ) - x / 2 ^ (Int.log 2 |x| - 52))
          * 2 ^ (Int.log 2 |x| - 52) := by
      field_simp
    rw [heq, abs_mul, abs_of_pos hu]
    calc |(roundHalfEven (x / 2 ^ (Int.log 2 |x| - 52)) : ℚ) - x / 2 ^ (Int.log 2 |x| - 52)|
          * 2 ^ (Int.log 2 |x| - 52)
        ≤ 1 / 2 * 2 ^ (Int.log 2 |x| - 52) := mul_le_mul_of_nonneg_right he hu.le
      _ = 2 ^ Int.log 2 |x| / 2 ^ 53 := by rw [hsplit]; ring
      _ ≤ |x| / 2 ^ 53 := div_le_div_of_nonneg_right hlog (by norm_num)

theorem roundDouble_of_close (x : ℚ) (e m : ℤ) (hlo : (2 : ℚ) ^ e ≤ |x|)
    (hhi : |x| < (2 : ℚ) ^ (e + 1)) (hm : |x / 2 ^ (e - 52) - m| < 1 / 2) :
    roundDouble x = m * 2 ^ (e - 52) := by
  have hpos : 0 < |x| := lt_of_lt_of_le (zpow_pos (by norm_num) _) hlo
  have hx : x ≠ 0 := abs_pos.1 hpos
  have h1 : e ≤ Int.log 2 |x| := (Int.zpow_le_iff_le_log (by norm_num) hpos).1 hlo
  have h2 : Int.log 2 |x| < e + 1 := (Int.lt_zpow_iff_log_lt (by norm_num) hpos).1 hhi
  have he : Int.log 2 |x| = e := by omega
  unfold roundDouble
  rw [if_neg hx, he, roundHalfEven_of_close _ m hm]

theorem roundDouble_intCast (z : ℤ) (h : |z| < 2 ^ 53) : roundDouble (z : ℚ) = z := by
  by_cases hz : z = 0
  · subst hz
    simp [roundDouble]
  · have hzq : (z : ℚ) ≠ 0 := by exact_mod_cast hz
    have habs : |(z : ℚ)| = ((z.natAbs : ℕ) : ℚ) := by
      rw [Nat.cast_natAbs, Int.cast_abs]
    have hn : z.natAbs < 2 ^ 53 := by
      have h1 : (z.natAbs : ℤ) < 2 ^ 53 := by
        rw [← Int.abs_eq_natAbs]
        exact h
      exact_mod_cast h1
    have hn0 : z.natAbs ≠ 0 := Int.natAbs_ne_zero.2 hz
    have hlog : Int.log 2 |(z : ℚ)| = (Nat.log 2 z.natAbs : ℤ) := by
      rw [habs, Int.log_natCast]
    have hle : Nat.log 2 z.natAbs < 53 := (Nat.lt_pow_iff_log_lt (by norm_num) hn0).1 hn
    have hulp : (2 : ℚ) ^ ((Nat.log 2 z.natAbs : ℤ) - 52) =
        1 / ((2 ^ (52 - Nat.log 2 z.natAbs) : ℤ) : ℚ) := by
      have : ((Nat.log 2 z.natAbs : ℤ) - 52) = -((52 - Nat.log 2 z.natAbs : ℕ) : ℤ) := by
        omega
      rw [this, zpow_neg, zpow_natCast]
      push_cast
      rw [one_div]
    unfold roundDouble
    rw [if_neg hzq, hlog, hulp]
    have hdiv : (z : ℚ) / (1 / ((2 ^ (52 - Nat.log 2 z.natAbs) : ℤ) : ℚ)) =
        ((z * 2 ^ (52 - Nat.log 2 z.natAbs) : ℤ) : ℚ) := by
      push_cast
      field_simp
    rw [hdiv, roundHalfEven_intCast]
    push_cast
    field_simp

theorem roundDouble_natCast (n : Nat) (h : n < 2 ^ 53) : roundDouble (n : ℚ) = n := by
  have := roundDouble_intCast (n : ℤ) (by
    rw [abs_of_nonneg (by positivity)]
    exact_mod_cast h)
  simpa using this

/-! ## Growth percentages -/

theorem orOne_eq_max (y : Nat) : orOne y = ((max y 1 : Nat) : ℚ) := by
  unfold orOne
  by_cases h : y = 0
  · simp [h]
  · have h1 : max y 1 = y := by omega
    rw [if_neg h, h1]

theorem orOne_ne_zero (y : Nat) : orOne y ≠ 0 := by
  rw [orOne_eq_max]
  have h : 0 < max y 1 := by omega
  exact_mod_cast h.ne'

theorem roundTenths_near (x : ℚ) : |(roundTenths x : ℚ) / 10 - x| ≤ 1 / 20 := by
  unfold roundTenths
  by_cases h : x < 0
  · rw [if_pos h]
    have h1 := Int.floor_le ((-x) * 10 + 1 / 2)
    have h2 := Int.lt_floor_add_one ((-x) * 10 + 1 / 2)
    rw [abs_le]
    push_cast
    constructor <;> linarith
  · rw [if_neg h]
    have h1 := Int.floor_le (x * 10 + 1 / 2)
    have h2 := Int.lt_floor_add_one (x * 10 + 1 / 2)
    rw [abs_le]
    constructor <;> linarith

theorem roundTenths_nearest (x : ℚ) (a : ℤ) (c : ℕ) (hc : 0 < c)
    (h : |x - (a : ℚ) / (20 * c)| < 1 / (20 * c)) :
    |(roundTenths x : ℚ) / 10 - (a : ℚ) / (20 * c)| ≤ 1 / 20 := by
  have hcq : (0 : ℚ) < c := by exact_mod_cast hc
  have h1 := roundTenths_near x
  have h2 : |(roundTenths x : ℚ) / 10 - (a : ℚ) / (20 * c)| < 1 / 20 + 1 / (20 * c) := by
    have := abs_sub_le ((roundTenths x : ℚ) / 10) x ((a : ℚ) / (20 * c))
    linarith
  have h3 : (roundTenths x : ℚ) / 10 - (a : ℚ) / (20 * c) =
      ((2 * c * roundTenths x - a : ℤ) : ℚ) / (20 * c) := by
    push_cast
    field_simp
    ring
  rw [h3, abs_div, abs_of_pos (by positivity : (0 : ℚ) < 20 * c)] at h2 ⊢
  rw [div_lt_iff₀ (by positivity)] at h2
  rw [div_le_iff₀ (by positivity)]
  have h4 : (|((2 * c * roundTenths x - a : ℤ) : ℚ)|) < c + 1 := by
    have : (1 / 20 + 1 / (20 * (c : ℚ))) * (20 * c) = c + 1 := by
      field_simp
    linarith
  have h5 : |(2 * c * roundTenths x - a : ℤ)| < (c : ℤ) + 1 := by
    have : ((|(2 * c * roundTenths x - a : ℤ)| : ℤ) : ℚ) < ((c : ℤ) + 1 : ℤ) := by
      push_cast
      push_cast at h4
      exact h4
    exact_mod_cast this
  have h6 : |(2 * c * roundTenths x - a : ℤ)| ≤ (c : ℤ) := by omega
  have h7 : (|((2 * c * roundTenths x - a : ℤ) : ℚ)|) ≤ c := by
    have : ((|(2 * c * roundTenths x - a : ℤ)| : ℤ) : ℚ) ≤ ((c : ℤ) : ℚ) := by
      exact_mod_cast h6
    push_cast at this ⊢
    exact this
  calc |((2 * c * roundTenths x - a : ℤ) : ℚ)| ≤ c := h7
    _ = 1 / 20 * (20 * c) := by ring

theorem fsub_natCast (t y : Nat) (ht : t < 2 ^ 53) (hy : y < 2 ^ 53) :
    fsub (t : ℚ) (y : ℚ) = (t : ℚ) - (y : ℚ) := by
  unfold fsub
  have := roundDouble_intCast ((t : ℤ) - (y : ℤ)) (by
    rw [abs_lt]
    constructor <;> omega)
  simpa using this

theorem growthOf_error (t y : Nat) (ht : t < 2 ^ 53) (hy : y < 2 ^ 53) :
    |growthOf t y - ((t : ℚ) - (y : ℚ)) / orOne y * 100| ≤
      |((t : ℚ) - (y : ℚ)) / orOne y * 100| / 2 ^ 51 := by
  unfold growthOf fmul fdiv
  rw [fsub_natCast t y ht hy]
  set q : ℚ := ((t : ℚ) - (y : ℚ)) / orOne y with hq
  have h1 := roundDouble_error q
  have h2 := roundDouble_error (roundDouble q * 100)
  have h3 : |roundDouble q| ≤ |q| + |q| / 2 ^ 53 := by
    have := abs_sub_abs_le_abs_sub (roundDouble q) q
    linarith
  have h4 : |roundDouble q * 100| = |roundDouble q| * 100 := by
    rw [abs_mul]; norm_num
  have h5 : |q * 100| = |q| * 100 := by
    rw [abs_mul]; norm_num
  have h6 : |roundDouble (roundDouble q * 100) - q * 100| ≤
      |roundDouble (roundDouble q * 100) - roundDouble q * 100| +
        |roundDouble q * 100 - q * 100| := by
    have := abs_sub_le (roundDouble (roundDouble q * 100)) (roundDouble q * 100) (q * 100)
    exact this
  have h7 : |roundDouble q * 100 - q * 100| = |roundDouble q - q| * 100 := by
    rw [← sub_mul, abs_mul]; norm_num
  have hq0 : 0 ≤ |q| := abs_nonneg q
  rw [h4] at h2
  rw [h5]
  rw [h7] at h6
  have e1 : |roundDouble (roundDouble q * 100) - q * 100| ≤
      (|q| + |q| / 2 ^ 53) * 100 / 2 ^ 53 + |q| / 2 ^ 53 * 100 := by
    have : |roundDouble q| * 100 / 2 ^ 53 ≤ (|q| + |q| / 2 ^ 53) * 100 / 2 ^ 53 := by
      apply div_le_div_of_nonneg_right _ (by norm_num)
      exact mul_le_mul_of_nonneg_right h3 (by norm_num)
    linarith
  have e2 : (|q| + |q| / 2 ^ 53) * 100 / 2 ^ 53 + |q| / 2 ^ 53 * 100 ≤ |q| * 100 / 2 ^ 51 := by
    have : (|q| + |q| / 2 ^ 53) * 100 / 2 ^ 53 + |q| / 2 ^ 53 * 100 =
        |q| * (100 * (2 + 1 / 2 ^ 53) / 2 ^ 53) := by ring
    rw [this]
    have : |q| * 100 / 2 ^ 51 = |q| * (100 / 2 ^ 51) := by ring
    rw [this]
    apply mul_le_mul_of_nonneg_left _ hq0
    norm_num
  exact le_trans e1 e2

theorem growthOf_nearest (t y : Nat) (ht : t < 2 ^ 40) (hy : y < 2 ^ 40) :
    |(roundTenths (growthOf t y) : ℚ) / 10 - ((t : ℚ) - (y : ℚ)) / orOne y * 100| ≤ 1 / 20 := by
  have hm : 0 < max y 1 := by omega
  have hmq : (0 : ℚ) < ((max y 1 : ℕ) : ℚ) := by exact_mod_cast hm
  have herr := growthOf_error t y (by omega) (by omega)
  have hval : ((t : ℚ) - (y : ℚ)) / orOne y * 100 =
      ((2000 * ((t : ℤ) - (y : ℤ)) : ℤ) : ℚ) / (20 * ((max y 1 : ℕ) : ℚ)) := by
    rw [orOne_eq_max]
    push_cast
    field_simp
    ring
  rw [hval] at herr ⊢
  apply roundTenths_nearest _ _ _ hm
  refine lt_of_le_of_lt herr ?_
  rw [abs_div, abs_of_pos (by positivity : (0 : ℚ) < 20 * ((max y 1 : ℕ) : ℚ))]
  rw [div_div, div_lt_div_iff₀ (by positivity) (by positivity)]
  have hd : |((2000 * ((t : ℤ) - (y : ℤ)) : ℤ) : ℚ)| < 2000 * 2 ^ 40 := by
    have : |(2000 * ((t : ℤ) - (y : ℤ)) : ℤ)| < 2000 * 2 ^ 40 := by
      rw [abs_lt]
      constructor <;> omega
    have h2 : ((|(2000 * ((t : ℤ) - (y : ℤ)) : ℤ)| : ℤ) : ℚ) < ((2000 * 2 ^ 40 : ℤ) : ℚ) := by
      exact_mod_cast this
    push_cast at h2 ⊢
    exact lt_of_lt_of_le h2 (by norm_num)
  have : |((2000 * ((t : ℤ) - (y : ℤ)) : ℤ) : ℚ)| * (20 * ((max y 1 : ℕ) : ℚ)) <
      2000 * 2 ^ 40 * (20 * ((max y 1 : ℕ) : ℚ)) :=
    mul_lt_mul_of_pos_right hd (by positivity)
  calc |((2000 * ((t : ℤ) - (y : ℤ)) : ℤ) : ℚ)| * (20 * ((max y 1 : ℕ) : ℚ))
      < 2000 * 2 ^ 40 * (20 * ((max y 1 : ℕ) : ℚ)) := this
    _ ≤ 1 * (20 * ((max y 1 : ℕ) : ℚ) * 2 ^ 51) := by
        have : (2000 : ℚ) * 2 ^ 40 ≤ 2 ^ 51 := by norm_num
        nlinarith

theorem growthOf_five_zero : growthOf 5 0 = 500 := by
  unfold growthOf fmul fdiv
  rw [fsub_natCast 5 0 (by norm_num) (by norm_num)]
  have h1 : ((5 : ℕ) : ℚ) - ((0 : ℕ) : ℚ) = ((5 : ℕ) : ℚ) := by norm_num
  have h2 : ((5 : ℕ) : ℚ) / orOne 0 = ((5 : ℕ) : ℚ) := by norm_num [orOne]
  rw [h1, h2, roundDouble_natCast 5 (by norm_num)]
  have h3 : ((5 : ℕ) : ℚ) * 100 = ((500 : ℕ) : ℚ) := by norm_num
  rw [h3, roundDouble_natCast 500 (by norm_num)]
  norm_num

theorem roundTenths_five_hundred : roundTenths 500 = 5000 := by
  unfold roundTenths
  rw [if_neg (by norm_num)]
  rw [Int.floor_eq_iff]
  constructor <;> norm_num

theorem toFixed1_growthOf_five_zero : toFixed1 (growthOf 5 0) = "500.0" := by
  rw [growthOf_five_zero]
  unfold toFixed1
  rw [roundTenths_five_hundred, if_neg (by norm_num)]
  decide

theorem growthOf_tie : growthOf 103 80 = 8092405580431359 / 2 ^ 48 := by
  unfold growthOf fmul fdiv
  rw [fsub_natCast 103 80 (by norm_num) (by norm_num)]
  have h1 : ((103 : ℕ) : ℚ) - ((80 : ℕ) : ℚ) = 23 := by norm_num
  have h2 : orOne 80 = 80 := by norm_num [orOne]
  rw [h1, h2]
  have h3 : roundDouble (23 / 80) = (5179139571476070 : ℤ) * 2 ^ ((-2 : ℤ) - 52) := by
    apply roundDouble_of_close
    · norm_num [abs_of_pos]
    · norm_num [abs_of_pos]
    · rw [abs_lt]
      constructor <;> norm_num
  rw [h3]
  have h4 : roundDouble ((5179139571476070 : ℤ) * 2 ^ ((-2 : ℤ) - 52) * 100) =
      (8092405580431359 : ℤ) * 2 ^ ((4 : ℤ) - 52) := by
    apply roundDouble_of_close
    · norm_num [abs_of_pos]
    · norm_num [abs_of_pos]
    · rw [abs_lt]
      constructor <;> norm_num
  rw [h4]
  norm_num

theorem toFixed1_growthOf_tie : toFixed1 (growthOf 103 80) = "28.7" := by
  rw [growthOf_tie]
  have h : roundTenths (8092405580431359 / 2 ^ 48) = 287 := by
    unfold roundTenths
    rw [if_neg (by norm_num), Int.floor_eq_iff]
    constructor <;> norm_num
  unfold toFixed1
  rw [h, if_neg (by norm_num)]
  decide

/-- C18: for all counts `t` and `y`, the divisor `y || 1` of the stats route is
`max(y, 1)`, so it is never zero; the tenths that `.toFixed(1)` prints are
within one twentieth of the double formatted; for counts below `2^53` that
double differs from `(t - y) / max(y, 1) * 100` by at most the fraction
`2^-51` of it, and for counts below `2^40` the tenths printed are within one
twentieth of `(t - y) / max(y, 1) * 100` itself, that is, it is rounded to one
decimal.  `y = 0`, `t = 5` prints `500.0`; `y = 80`, `t = 103`, where the exact
value 28.75 lies midway between two tenths, prints `28.7`.  Each of the four
growth entries of the route is this value for the current total and the count
of documents created before yesterday. -/
theorem growth_value (t y : Nat) :
    orOne y = ((max y 1 : Nat) : ℚ) ∧ orOne y ≠ 0 ∧
    growthOf t y = fmul (fdiv (fsub (t : ℚ) (y : ℚ)) ((max y 1 : Nat) : ℚ)) 100 ∧
    |(roundTenths (growthOf t y) : ℚ) / 10 - growthOf t y| ≤ 1 / 20 ∧
    (t < 2 ^ 53 → y < 2 ^ 53 →
      |growthOf t y - ((t : ℚ) - (y : ℚ)) / ((max y 1 : Nat) : ℚ) * 100| ≤
        |((t : ℚ) - (y : ℚ)) / ((max y 1 : Nat) : ℚ) * 100| / 2 ^ 51) ∧
    (t < 2 ^ 40 → y < 2 ^ 40 →
      |(roundTenths (growthOf t y) : ℚ) / 10 -
        ((t : ℚ) - (y : ℚ)) / ((max y 1 : Nat) : ℚ) * 100| ≤ 1 / 20) ∧
    toFixed1 (growthOf t y) =
      (if growthOf t y < 0 then "-" else "") ++
        toString ((roundTenths (growthOf t y)).natAbs / 10) ++ "." ++
        toString ((roundTenths (growthOf t y)).natAbs % 10) ∧
    toFixed1 (growthOf 5 0) = "500.0" ∧ toFixed1 (growthOf 103 80) = "28.7" ∧
    ∀ (env : Env) (w : World) (req : Request), ∃ stats,
      adminStats env w req =
        (w, ⟨200, .stats stats
          { users := toFixed1 (growthOf w.users.length
              (w.users.filter (fun u => u.createdAt < yesterday env)).length)
            trends := toFixed1 (growthOf w.trends.length
              (w.trends.filter (fun x => x.createdAt < yesterday env)).length)
            templates := toFixed1 (growthOf w.templates.length
              (w.templates.filter (fun x => x.createdAt < yesterday env)).length)
            memes := toFixed1 (growthOf w.memes.length
              (w.memes.filter (fun m => m.createdAt < yesterday env)).length) }⟩) := by
  refine ⟨orOne_eq_max y, orOne_ne_zero y, ?_, roundTenths_near _, fun ht hy => ?_,
    fun ht hy => ?_, rfl, toFixed1_growthOf_five_zero, toFixed1_growthOf_tie,
    fun env w req => ⟨_, rfl⟩⟩
  · unfold growthOf
    rw [orOne_eq_max]
  · rw [← orOne_eq_max]
    exact growthOf_error t y ht hy
  · rw [← orOne_eq_max]
    exact growthOf_nearest t y ht hy

/-- Instance of C18: the counts 103 and 80, whose exact growth 28.75 lies
midway between two tenths. -/
theorem growth_value_witness :
    ((103 : Nat) < 2 ^ 40 ∧ (80 : Nat) < 2 ^ 40) ∧
    |(roundTenths (growthOf 103 80) : ℚ) / 10 -
      (((103 : Nat) : ℚ) - ((80 : Nat) : ℚ)) / ((max 80 1 : Nat) : ℚ) * 100| ≤ 1 / 20 :=
  ⟨by decide, (growth_value 103 80).2.2.2.2.2.1 (by decide) (by decide)⟩

/-! ## Admin routes on documents -/

theorem route_admin_pass (handler : Handler) (env : Env) (w : World) (req : Request)
    (h : AdminAuthenticated env req) :
    ∃ c, route [authenticateToken, requireAdmin] handler env w req =
      handler env w { req with user := some c } := by
  obtain ⟨ht, c, hv, hrole⟩ := h
  refine ⟨c, ?_⟩
  simp [route, authenticateToken, ht, hv, requireAdmin, hrole]

theorem adminAuthenticated_root (id : String) : AdminAuthenticated adminEnv (rootRequest id) := by
  have h1 : truthy (bearerToken (some "Bearer tok-root")) = true := by decide
  have h2 : adminEnv.jwt.verify ((bearerToken (some "Bearer tok-root")).getD "")
      adminEnv.secret adminEnv.now = some rootClaims := by decide
  exact ⟨h1, rootClaims, h2, rfl⟩

theorem not_mem_of_nodup_split {α : Type} (key : α → ObjectId) (pre : List α) (t : α)
    (post : List α) (h : ((pre ++ t :: post).map key).Nodup) :
    ∀ x ∈ pre ++ post, key x ≠ key t := by
  rw [List.map_append, List.map_cons, List.nodup_middle] at h
  obtain ⟨h1, _⟩ := List.nodup_cons.1 h
  intro x hx hk
  apply h1
  rw [← hk, ← List.map_append]
  exact List.mem_map_of_mem key hx

theorem deleteImage_gone (env : Env) (url : String) (files : List String)
    (hn : files.Nodup) (hu : url ≠ "") : env.basename url ∉ deleteImage env url files := by
  unfold deleteImage
  rw [if_pos hu]
  simp only
  split
  · exact fun h => (List.Nodup.mem_erase_iff hn).1 h |>.1 rfl
  · assumption

theorem deleteImage_keeps (env : Env) (url : String) (files : List String) (f : String)
    (hf : f ∈ files) (hne : f ≠ env.basename url) : f ∈ deleteImage env url files := by
  unfold deleteImage
  split
  · simp only
    split
    · exact (List.mem_erase_of_ne hne).2 hf
    · exact hf
  · exact hf

theorem find?_id_none {α : Type} (key : α → ObjectId) (l : List α) (id : ObjectId)
    (h : ∀ x ∈ l, key x ≠ id) : l.find? (fun x => decide (key x = id)) = none := by
  rw [List.find?_eq_none]
  intro x hx
  simpa using h x hx

theorem viewTrend_not_found (env : Env) (w : World) (req : Request) (id : ObjectId)
    (hid : env.castObjectId req.id = some id) (h : ∀ t ∈ w.trends, t.id ≠ id) :
    handle .viewTrend env w req = (w, ⟨404, .error "Trend not found"⟩) := by
  have hf := find?_id_none (fun t : Trend => t.id) w.trends id h
  simp only [handle, route, viewTrend, hid, hf]

theorem useTemplate_not_found (env : Env) (w : World) (req : Request) (id : ObjectId)
    (hid : env.castObjectId req.id = some id) (h : ∀ t ∈ w.templates, t.id ≠ id) :
    handle .useTemplate env w req = (w, ⟨404, .error "Template not found"⟩) := by
  have hf := find?_id_none (fun t : Template => t.id) w.templates id h
  simp only [handle, route, useTemplate, hid, hf]

theorem deleteTrend_not_found (env : Env) (w : World) (req : Request) (id : ObjectId)
    (hadmin : AdminAuthenticated env req)
    (hid : env.castObjectId req.id = some id) (h : ∀ t ∈ w.trends, t.id ≠ id) :
    handle .deleteTrend env w req = (w, ⟨404, .error "Trend not found"⟩) := by
  obtain ⟨c, hc⟩ := route_admin_pass deleteTrend env w req hadmin
  have hf := find?_id_none (fun t : Trend => t.id) w.trends id h
  simp only [handle, hc, deleteTrend, hid, hf]

theorem deleteTemplate_not_found (env : Env) (w : World) (req : Request) (id : ObjectId)
    (hadmin : AdminAuthenticated env req)
    (hid : env.castObjectId req.id = some id) (h : ∀ t ∈ w.templates, t.id ≠ id) :
    handle .deleteTemplate env w req = (w, ⟨404, .error "Template not found"⟩) := by
  obtain ⟨c, hc⟩ := route_admin_pass deleteTemplate env w req hadmin
  have hf := find?_id_none (fun t : Template => t.id) w.templates id h
  simp only [handle, hc, deleteTemplate, hid, hf]

theorem deleteTrend_found (env : Env) (w : World) (req : Request) (id : ObjectId)
    (hadmin : AdminAuthenticated env req)
    (hid : env.castObjectId req.id = some id) (h : ∃ t ∈ w.trends, t.id = id) :
    ∃ pre t post, w.trends = pre ++ t :: post ∧ t.id = id ∧
      handle .deleteTrend env w req =
        ({ w with trends := pre ++ post, files := deleteImage env t.imageUrl w.files },
          ⟨200, .message "Trend deleted successfully"⟩) := by
  obtain ⟨c, hc⟩ := route_admin_pass deleteTrend env w req hadmin
  obtain ⟨t, ht, hti⟩ := h
  obtain ⟨pre, t0, post, e, hp, hpre, hf⟩ :=
    find?_split (fun t : Trend => decide (t.id = id)) w.trends ⟨t, ht, by simp [hti]⟩
  refine ⟨pre, t0, post, e, by simpa using hp, ?_⟩
  simp only [handle, hc, deleteTrend, hid, hf]
  rw [e, removeFirst_append _ pre t0 post hp hpre]

theorem deleteTemplate_found (env : Env) (w : World) (req : Request) (id : ObjectId)
    (hadmin : AdminAuthenticated env req)
    (hid : env.castObjectId req.id = some id) (h : ∃ t ∈ w.templates, t.id = id) :
    ∃ pre t post, w.templates = pre ++ t :: post ∧ t.id = id ∧
      handle .deleteTemplate env w req =
        ({ w with templates := pre ++ post, files := deleteImage env t.imageUrl w.files },
          ⟨200, .message "Template deleted successfully"⟩) := by
  obtain ⟨c, hc⟩ := route_admin_pass deleteTemplate env w req hadmin
  obtain ⟨t, ht, hti⟩ := h
  obtain ⟨pre, t0, post, e, hp, hpre, hf⟩ :=
    find?_split (fun t : Template => decide (t.id = id)) w.templates ⟨t, ht, by simp [hti]⟩
  refine ⟨pre, t0, post, e, by simpa using hp, ?_⟩
  simp only [handle, hc, deleteTemplate, hid, hf]
  rw [e, removeFirst_append _ pre t0 post hp hpre]

/-- C17 as stated fails: the id `abc` is the id of no trend, yet the admin
request `DELETE /api/admin/trends/abc` is answered with 500, not 404. -/
theorem deleteTrend_malformed_id_not_404 :
    (∀ t ∈ sampleWorld.trends, adminEnv.castObjectId "abc" ≠ some t.id) ∧
    handle .deleteTrend adminEnv sampleWorld (rootRequest "abc") =
      (sampleWorld, ⟨500, .error "Cast to ObjectId failed"⟩) ∧
    (handle .deleteTrend adminEnv sampleWorld (rootRequest "abc")).2.status ≠ 404 := by
  decide

/-- C17, amended: for an admin identity, a store with unique ids and file
names, and an id that is a well-formed ObjectId: if a trend (template) has
that id, delete answers 200, the record is removed, every other record stays,
no file named after its non-empty `imageUrl` remains and every other file
stays, whether or not the image file existed; afterwards a view (use)
increment and a second delete of that id answer 404 and change nothing.  If
no record has that id, delete answers 404 and neither the store nor any file
changes.  An id that is not a well-formed ObjectId is answered with 500,
nothing changed. -/
theorem delete_cascade (env : Env) (w : World) (req : Request)
    (hadmin : AdminAuthenticated env req)
    (htrends : (w.trends.map (fun t => t.id)).Nodup)
    (htemplates : (w.templates.map (fun t => t.id)).Nodup)
    (hfiles : w.files.Nodup) :
    (∀ id, env.castObjectId req.id = some id →
      ((∃ t ∈ w.trends, t.id = id) →
        ∃ pre t post, w.trends = pre ++ t :: post ∧ t.id = id ∧
          handle .deleteTrend env w req =
            ({ w with trends := pre ++ post, files := deleteImage env t.imageUrl w.files }, ⟨200, .message "Trend deleted successfully"⟩) ∧
          (∀ x ∈ pre ++ post, x.id ≠ id) ∧
          (t.imageUrl ≠ "" → env.basename t.imageUrl ∉ deleteImage env t.imageUrl w.files) ∧
          (∀ f ∈ w.files, f ≠ env.basename t.imageUrl →
            f ∈ deleteImage env t.imageUrl w.files) ∧
          ∀ (env' : Env) (req' : Request), env'.castObjectId req'.id = some id →
            handle .viewTrend env' { w with trends := pre ++ post, files := deleteImage env t.imageUrl w.files } req' =
              ({ w with trends := pre ++ post, files := deleteImage env t.imageUrl w.files }, ⟨404, .error "Trend not found"⟩) ∧
            (AdminAuthenticated env' req' →
              handle .deleteTrend env' { w with trends := pre ++ post, files := deleteImage env t.imageUrl w.files } req' =
                ({ w with trends := pre ++ post, files := deleteImage env t.imageUrl w.files }, ⟨404, .error "Trend not found"⟩))) ∧
      ((∀ t ∈ w.trends, t.id ≠ id) →
        handle .deleteTrend env w req = (w, ⟨404, .error "Trend not found"⟩)) ∧
      ((∃ t ∈ w.templates, t.id = id) →
        ∃ pre t post, w.templates = pre ++ t :: post ∧ t.id = id ∧
          handle .deleteTemplate env w req =
            ({ w with templates := pre ++ post, files := deleteImage env t.imageUrl w.files }, ⟨200, .message "Template deleted successfully"⟩) ∧
          (∀ x ∈ pre ++ post, x.id ≠ id) ∧
          (t.imageUrl ≠ "" → env.basename t.imageUrl ∉ deleteImage env t.imageUrl w.files) ∧
          (∀ f ∈ w.files, f ≠ env.basename t.imageUrl →
            f ∈ deleteImage env t.imageUrl w.files) ∧
          ∀ (env' : Env) (req' : Request), env'.castObjectId req'.id = some id →
            handle .useTemplate env' { w with templates := pre ++ post, files := deleteImage env t.imageUrl w.files } req' =
              ({ w with templates := pre ++ post, files := deleteImage env t.imageUrl w.files }, ⟨404, .error "Template not found"⟩) ∧
            (AdminAuthenticated env' req' →
              handle .deleteTemplate env' { w with templates := pre ++ post, files := deleteImage env t.imageUrl w.files } req' =
                ({ w with templates := pre ++ post, files := deleteImage env t.imageUrl w.files }, ⟨404, .error "Template not found"⟩))) ∧
      ((∀ t ∈ w.templates, t.id ≠ id) →
        handle .deleteTemplate env w req = (w, ⟨404, .error "Template not found"⟩))) ∧
    (env.castObjectId req.id = none →
      handle .deleteTrend env w req = (w, ⟨500, .error "Cast to ObjectId failed"⟩) ∧
      handle .deleteTemplate env w req = (w, ⟨500, .error "Cast to ObjectId failed"⟩)) := by
  refine ⟨fun id hid => ⟨?_, ?_, ?_, ?_⟩, fun hid => ?_⟩
  · intro hex
    obtain ⟨pre, t, post, e, hti, hdel⟩ := deleteTrend_found env w req id hadmin hid hex
    have hrest : ∀ x ∈ pre ++ post, x.id ≠ id := by
      rw [e] at htrends
      intro x hx
      rw [← hti]
      exact not_mem_of_nodup_split (fun t : Trend => t.id) pre t post htrends x hx
    refine ⟨pre, t, post, e, hti, hdel, hrest,
      deleteImage_gone env t.imageUrl w.files hfiles,
      fun f hf hne => deleteImage_keeps env t.imageUrl w.files f hf hne, ?_⟩
    intro env' req' hid'
    exact ⟨viewTrend_not_found env' _ req' id hid' hrest,
      fun ha => deleteTrend_not_found env' _ req' id ha hid' hrest⟩
  · exact deleteTrend_not_found env w req id hadmin hid
  · intro hex
    obtain ⟨pre, t, post, e, hti, hdel⟩ := deleteTemplate_found env w req id hadmin hid hex
    have hrest : ∀ x ∈ pre ++ post, x.id ≠ id := by
      rw [e] at htemplates
      intro x hx
      rw [← hti]
      exact not_mem_of_nodup_split (fun t : Template => t.id) pre t post htemplates x hx
    refine ⟨pre, t, post, e, hti, hdel, hrest,
      deleteImage_gone env t.imageUrl w.files hfiles,
      fun f hf hne => deleteImage_keeps env t.imageUrl w.files f hf hne, ?_⟩
    intro env' req' hid'
    exact ⟨useTemplate_not_found env' _ req' id hid' hrest,
      fun ha => deleteTemplate_not_found env' _ req' id ha hid' hrest⟩
  · exact deleteTemplate_not_found env w req id hadmin hid
  · obtain ⟨c, hc⟩ := route_admin_pass deleteTrend env w req hadmin
    obtain ⟨c', hc'⟩ := route_admin_pass deleteTemplate env w req hadmin
    constructor
    · simp only [handle, hc, deleteTrend, hid]
    · simp only [handle, hc', deleteTemplate, hid]

/-- Instance of the amended C17: the admin deletes the sample trend 10, whose
image is stored. -/
theorem delete_cascade_witness :
    ∃ pre t post, sampleWorld.trends = pre ++ t :: post ∧ t.id = 10 ∧
      handle .deleteTrend adminEnv sampleWorld (rootRequest "10") =
        ({ sampleWorld with trends := pre ++ post,
                            files := deleteImage adminEnv t.imageUrl sampleWorld.files },
          ⟨200, .message "Trend deleted successfully"⟩) :=
  let ⟨pre, t, post, h1, h2, h3, _⟩ :=
    ((delete_cascade adminEnv sampleWorld (rootRequest "10") (adminAuthenticated_root "10")
      (by decide) (by decide) (by decide)).1 10 (by decide)).1
      ⟨_, List.mem_cons_self _ _, rfl⟩
  ⟨pre, t, post, h1, h2, h3⟩

/-! ## Updating a user -/

/-- C20 as stated fails: the id `abc` matches no user, yet the admin request
`PUT /api/admin/users/abc` is answered with 500, not 404. -/
theorem updateUser_malformed_id_not_404 :
    (∀ u ∈ sampleWorld.users, adminEnv.castObjectId "abc" ≠ some u.id) ∧
    handle .updateUser adminEnv sampleWorld (rootRequest "abc") =
      (sampleWorld, ⟨500, .error "Cast to ObjectId failed"⟩) ∧
    (handle .updateUser adminEnv sampleWorld (rootRequest "abc")).2.status ≠ 404 := by
  decide

/-- C20, amended: for an admin identity and an id that is a well-formed
ObjectId of a stored user, `updateUser` answers 200 and changes that user
only, setting `role` and `isActive` to the values the body carries and keeping
the stored value of a key the body lacks: a body with only `role` leaves
`isActive` and every other field, a body with only `isActive` leaves `role`;
no user is created or deleted.  For a well-formed id of no user it answers 404
and the store is unchanged; an id that is not a well-formed ObjectId is
answered with 500, store unchanged. -/
theorem updateUser_given_keys (env : Env) (w : World) (req : Request)
    (hadmin : AdminAuthenticated env req) :
    (∀ id, env.castObjectId req.id = some id →
      ((∃ u ∈ w.users, u.id = id) →
        ∃ pre u post, w.users = pre ++ u :: post ∧ u.id = id ∧ (∀ x ∈ pre, x.id ≠ id) ∧
          handle .updateUser env w req =
            ({ w with users := pre ++ { u with role := req.body.role.getD u.role, isActive := req.body.isActive.getD u.isActive } :: post },
              ⟨200, .user "User updated successfully" (publicUser { u with role := req.body.role.getD u.role, isActive := req.body.isActive.getD u.isActive })⟩) ∧
          (∀ r, req.body.role = some r → req.body.isActive = none →
            (handle .updateUser env w req).1.users = pre ++ { u with role := r } :: post) ∧
          (∀ b, req.body.isActive = some b → req.body.role = none →
            (handle .updateUser env w req).1.users =
              pre ++ { u with isActive := b } :: post) ∧
          (handle .updateUser env w req).1.users.map (fun u => u.id) =
            w.users.map (fun u => u.id)) ∧
      ((∀ u ∈ w.users, u.id ≠ id) →
        handle .updateUser env w req = (w, ⟨404, .error "User not found"⟩))) ∧
    (env.castObjectId req.id = none →
      handle .updateUser env w req = (w, ⟨500, .error "Cast to ObjectId failed"⟩)) := by
  obtain ⟨c, hc⟩ := route_admin_pass updateUser env w req hadmin
  refine ⟨fun id hid => ⟨?_, ?_⟩, fun hid => ?_⟩
  · rintro ⟨u, hu, hui⟩
    obtain ⟨pre, u0, post, e, hp, hpre, hf⟩ :=
      find?_split (fun u : User => decide (u.id = id)) w.users ⟨u, hu, by simp [hui]⟩
    have hres : handle .updateUser env w req =
        ({ w with users := pre ++
            { u0 with role := req.body.role.getD u0.role,
                      isActive := req.body.isActive.getD u0.isActive } :: post },
          ⟨200, .user "User updated successfully"
            (publicUser { u0 with role := req.body.role.getD u0.role,
                                  isActive := req.body.isActive.getD u0.isActive })⟩) := by
      simp only [handle, hc, updateUser, hid, hf]
      rw [e, updateFirst_append _ _ pre u0 post hp hpre]
    refine ⟨pre, u0, post, e, by simpa using hp, fun x hx => by simpa using hpre x hx,
      hres, ?_, ?_, ?_⟩
    · intro r hr ha
      rw [hres, hr, ha]
      rfl
    · intro b hb hr
      rw [hres, hb, hr]
      rfl
    · rw [hres, e]
      simp
  · intro hno
    have hf := find?_id_none (fun u : User => u.id) w.users id hno
    simp only [handle, hc, updateUser, hid, hf]
  · simp only [handle, hc, updateUser, hid]

/-- Instance of the amended C20: the admin makes `alice` an admin with a body
that carries only `role`. -/
theorem updateUser_given_keys_witness :
    ∃ pre u post, sampleWorld.users = pre ++ u :: post ∧ u.id = 1 ∧
      (handle .updateUser adminEnv sampleWorld
        { rootRequest "1" with body := { role := some "admin" } }).1.users =
        pre ++ { u with role := "admin" } :: post :=
  let ⟨pre, u, post, h1, h2, _, _, h5, _⟩ :=
    ((updateUser_given_keys adminEnv sampleWorld
      { rootRequest "1" with body := { role := some "admin" } }
      (adminAuthenticated_root "1")).1 1 (by decide)).1 ⟨_, List.mem_cons_self _ _, rfl⟩
  ⟨pre, u, post, h1, h2, h5 "admin" rfl rfl⟩

/-! ## Searching users -/

/-- C19 as stated fails: neither the username nor the email of `bob` contains
a dot, yet the admin search for `.` matches him, because the search string is
used as a regular expression. -/
theorem adminUsers_dot_matches_all :
    ¬ (".".toList <:+: bob.username.toList) ∧ ¬ (".".toList <:+: bob.email.toList) ∧
    ∃ tp, handle .adminUsers regexEnv bobWorld
        { authorization := some "Bearer tok-root", query := { search := some "." } } =
      (bobWorld, ⟨200, .userList [publicUser bob] tp 1 1⟩) :=
  ⟨by decide, by decide, _, rfl⟩

/-- C19, amended: for an admin identity, a non-empty search string `s` and a
page the store accepts, when the store accepts `s` as a case-insensitive
regular expression with matcher `m`, the users matched by `listUsers` are
exactly the stored users whose username or email `m` matches, `total` counts
exactly those, and the users returned are a page of them, newest first,
without the password field; when the store rejects `s` as a pattern the answer
is 500.  The store is unchanged either way. -/
theorem adminUsers_search (env : Env) (w : World) (req : Request) (s : String)
    (hadmin : AdminAuthenticated env req) (hs : req.query.search = some s) (hne : s ≠ "")
    (hskip : 0 ≤ (req.query.page.getD 1 - 1) * req.query.limit.getD 10) :
    (∀ m, env.regex s "i" = some m →
      ∃ items : List User,
        handle .adminUsers env w req =
          (w, ⟨200, .userList (items.map publicUser)
            (totalPages (w.users.filter (fun u => m u.username || m u.email)).length
              (req.query.limit.getD 10))
            (req.query.page.getD 1)
            (w.users.filter (fun u => m u.username || m u.email)).length⟩) ∧
        findPage (newestFirst (fun u => u.createdAt)
            (w.users.filter (fun u => m u.username || m u.email)))
          (req.query.limit.getD 10 * 1)
          ((req.query.page.getD 1 - 1) * req.query.limit.getD 10) = some items ∧
        ∀ u ∈ items, u ∈ w.users ∧ (m u.username = true ∨ m u.email = true)) ∧
    (env.regex s "i" = none →
      handle .adminUsers env w req = (w, ⟨500, .error "Regular expression is invalid"⟩)) := by
  obtain ⟨c, hc⟩ := route_admin_pass adminUsers env w req hadmin
  have ht : truthy (some s) = true := by simp [truthy, hne]
  constructor
  · intro m hm
    obtain ⟨items, hitems, hsub⟩ := findPage_sublist
      (newestFirst (fun u : User => u.createdAt)
        (w.users.filter (fun u => m u.username || m u.email)))
      (req.query.limit.getD 10 * 1) _ hskip
    refine ⟨items, ?_, hitems, ?_⟩
    · simp only [handle, hc, adminUsers, hs, ht, if_true, Option.getD_some, hm, Option.map_some',
        hitems]
    · intro u hu
      have h1 := (List.perm_insertionSort _ _).subset (hsub.subset hu)
      rw [List.mem_filter] at h1
      exact ⟨h1.1, by simpa using h1.2⟩
  · intro hm
    simp only [handle, hc, adminUsers, hs, ht, if_true, Option.getD_some, hm, Option.map_none']

/-- Instance of the amended C19: the admin searches the sample users for `ali`. -/
theorem adminUsers_search_witness :
    ∃ items : List User,
      findPage (newestFirst (fun u => u.createdAt)
          (sampleWorld.users.filter
            (fun u => decide ("ali".toList <:+: (toLowerCase u.username).toList) ||
              decide ("ali".toList <:+: (toLowerCase u.email).toList))))
        (10 * 1) ((1 - 1) * 10) = some items ∧
      ∀ u ∈ items, u ∈ sampleWorld.users :=
  let ⟨items, _, h2, h3⟩ :=
    (adminUsers_search adminEnv sampleWorld
      { authorization := some "Bearer tok-root", query := { search := some "ali" } } "ali"
      (adminAuthenticated_root "") rfl (by decide) (by decide)).1 _ rfl
  ⟨items, h2, fun u hu => (h3 u hu).1⟩

/-! ## Memes of the caller -/

theorem getMemes_route (env : Env) (w : World) (req : Request) (tok : String) (c : Claims)
    (ht : bearerToken req.authorization = some tok) (hne : tok ≠ "")
    (hv : env.jwt.verify tok env.secret env.now = some c)
    (hskip : 0 ≤ (req.query.page.getD 1 - 1) * req.query.limit.getD 10) :
    ∃ items : List Meme,
      handle .getMemes env w req =
        (w, ⟨200, .memeList (items.map (populateMeme w))
          (totalPages (w.memes.filter (fun m => m.createdBy = some c.userId)).length
            (req.query.limit.getD 10))
          (req.query.page.getD 1)
          (w.memes.filter (fun m => m.createdBy = some c.userId)).length⟩) ∧
      findPage (newestFirst (fun m => m.createdAt)
          (w.memes.filter (fun m => m.createdBy = some c.userId)))
        (req.query.limit.getD 10 * 1)
        ((req.query.page.getD 1 - 1) * req.query.limit.getD 10) = some items ∧
      ∀ m ∈ items, m ∈ w.memes ∧ m.createdBy = some c.userId := by
  have h1 := authenticateToken_verified env w req tok c ht hne hv
  obtain ⟨items, hitems, hsub⟩ := findPage_sublist
    (newestFirst (fun m : Meme => m.createdAt)
      (w.memes.filter (fun m => m.createdBy = some c.userId)))
    (req.query.limit.getD 10 * 1) _ hskip
  refine ⟨items, ?_, hitems, ?_⟩
  · simp only [handle, route, h1, getMemes, hitems]
  · intro m hm
    have h2 := (List.perm_insertionSort _ _).subset (hsub.subset hm)
    rw [List.mem_filter] at h2
    exact ⟨h2.1, by simpa using h2.2⟩

theorem uploadSingleImage_next (env : Env) (w w1 : World) (req r1 : Request)
    (h : uploadSingleImage env w req = .next w1 r1) :
    w1.memes = w.memes ∧ r1.user = req.user ∧ r1.body = req.body := by
  unfold uploadSingleImage at h
  split at h
  · injection h with h1 h2
    subst h1 h2
    exact ⟨rfl, rfl, rfl⟩
  · split at h
    · cases h
    · split at h
      · cases h
      · split at h
        · cases h
        · injection h with h1 h2
          subst h1 h2
          exact ⟨rfl, rfl, rfl⟩

theorem createMeme_created (env : Env) (w : World) (req : Request)
    (h : (createMeme env w req).2.status = 201) :
    ∃ u m, req.user = some u ∧ (createMeme env w req).1.memes = w.memes ++ [m] ∧
      m.createdBy = some u.userId ∧ m.title = req.body.title.getD "" := by
  unfold createMeme at h ⊢
  cases hf : req.file with
  | none => simp [hf] at h
  | some f =>
    cases hu : req.user with
    | none => simp [hf, hu] at h
    | some u =>
      simp only [hf, hu] at h ⊢
      by_cases hreq : required req.body.title = true
      · simp only [hreq, if_true]
        exact ⟨u, _, rfl, rfl, rfl, rfl⟩
      · simp [hreq] at h

theorem createMeme_route_created (env : Env) (w : World) (req : Request) (tok : String)
    (c : Claims) (ht : bearerToken req.authorization = some tok) (hne : tok ≠ "")
    (hv : env.jwt.verify tok env.secret env.now = some c)
    (h : (handle .createMeme env w req).2.status = 201) :
    ∃ m, (handle .createMeme env w req).1.memes = w.memes ++ [m] ∧
      m.createdBy = some c.userId ∧ m.title = req.body.title.getD "" := by
  have h1 := authenticateToken_verified env w req tok c ht hne hv
  simp only [handle, route, h1] at h ⊢
  cases hu : uploadSingleImage env w { req with user := some c } with
  | next w1 r1 =>
    rw [hu] at h
    simp only [hu]
    obtain ⟨hm, huser, hbody⟩ := uploadSingleImage_next env w w1 _ r1 hu
    obtain ⟨u, m, hu', hmem, hown, htitle⟩ := createMeme_created env w1 r1 h
    have huc : u = c := by
      rw [huser] at hu'
      exact (Option.some.inj hu').symm
    refine ⟨m, by rw [hmem, hm], by rw [hown, huc], by rw [htitle, hbody]⟩
  | respond w1 r1 res =>
    have := uploadSingleImage_cases env w { req with user := some c }
    rw [hu] at this
    simp at this
  | fail w1 r1 msg =>
    rw [hu] at h
    simp [errorHandler] at h

theorem getMemes_after_create (env : Env) (w : World) (m : Meme) (uid : ObjectId)
    (req : Request) (tok : String) (c : Claims)
    (ht : bearerToken req.authorization = some tok) (hne : tok ≠ "")
    (hv : env.jwt.verify tok env.secret env.now = some c) (hc : c.userId = uid)
    (hown : m.createdBy = some uid) (hnone : ∀ x ∈ w.memes, x.createdBy ≠ some uid)
    (hpage : req.query.page.getD 1 = 1) (hl : 1 ≤ req.query.limit.getD 10)
    (w1 : World) (hw1 : w1.memes = w.memes ++ [m]) :
    handle .getMemes env w1 req =
      (w1, ⟨200, .memeList [populateMeme w1 m] (totalPages 1 (req.query.limit.getD 10)) 1 1⟩) := by
  have hfilter : w1.memes.filter (fun x => x.createdBy = some c.userId) = [m] := by
    rw [hw1, List.filter_append, hc]
    have h0 : w.memes.filter (fun x => decide (x.createdBy = some uid)) = [] := by
      rw [List.filter_eq_nil_iff]
      intro x hx
      simpa using hnone x hx
    rw [h0]
    simp [hown]
  obtain ⟨items, hres, hitems, _⟩ :=
    getMemes_route env w1 req tok c ht hne hv (by rw [hpage]; simp)
  rw [hfilter] at hres hitems
  have hfp := findPage_of_pos (newestFirst (fun x : Meme => x.createdAt) [m])
    (req.query.limit.getD 10) 1 hl (le_refl 1)
  rw [hpage] at hitems hres
  rw [hfp] at hitems
  have hval : items = [m] := by
    have h2 := (Option.some.inj hitems).symm
    rw [h2]
    have h3 : (req.query.limit.getD 10).toNat ≥ 1 := by omega
    simp only [newestFirst, List.insertionSort, List.orderedInsert, sub_self, zero_mul,
      Int.toNat_zero, List.drop_zero]
    rw [List.take_of_length_le (by simpa using h3)]
  rw [hres, hval]
  rfl

/-- C21: for every store and every request whose token verifies to an identity
`c`, `GET /api/memes` answers with stored memes whose `createdBy` is
`c.userId` only, and `total` is the number of memes of the store owned by
`c.userId`.  In particular, when `c` owns no meme and a create request of `c`
titled `T` is answered 201, the store gains one meme titled `T` owned by `c`;
from then on the first page of `c` is exactly that meme with `total = 1`, and
no item of a list answered to another user is owned by `c`. -/
theorem getMemes_scoped (env : Env) (w : World) (req : Request) (tok : String) (c : Claims)
    (ht : bearerToken req.authorization = some tok) (hne : tok ≠ "")
    (hv : env.jwt.verify tok env.secret env.now = some c) :
    (0 ≤ (req.query.page.getD 1 - 1) * req.query.limit.getD 10 →
      ∃ items : List Meme,
        handle .getMemes env w req =
          (w, ⟨200, .memeList (items.map (populateMeme w))
            (totalPages (w.memes.filter (fun m => m.createdBy = some c.userId)).length
              (req.query.limit.getD 10))
            (req.query.page.getD 1)
            (w.memes.filter (fun m => m.createdBy = some c.userId)).length⟩) ∧
        ∀ m ∈ items, m ∈ w.memes ∧ m.createdBy = some c.userId) ∧
    (∀ (create : Request) (T : String),
      bearerToken create.authorization = some tok → create.body.title = some T →
      (∀ x ∈ w.memes, x.createdBy ≠ some c.userId) →
      (handle .createMeme env w create).2.status = 201 →
      ∃ m, (handle .createMeme env w create).1.memes = w.memes ++ [m] ∧ m.title = T ∧
        m.createdBy = some c.userId ∧
        ∀ (env' : Env) (list : Request) (tok' : String) (c' : Claims),
          bearerToken list.authorization = some tok' → tok' ≠ "" →
          env'.jwt.verify tok' env'.secret env'.now = some c' →
          (c'.userId = c.userId → list.query.page.getD 1 = 1 →
            1 ≤ list.query.limit.getD 10 →
            handle .getMemes env' (handle .createMeme env w create).1 list =
              ((handle .createMeme env w create).1,
                ⟨200, .memeList [populateMeme (handle .createMeme env w create).1 m]
                  (totalPages 1 (list.query.limit.getD 10)) 1 1⟩)) ∧
          (c'.userId ≠ c.userId →
            0 ≤ (list.query.page.getD 1 - 1) * list.query.limit.getD 10 →
            ∃ items : List Meme,
              handle .getMemes env' (handle .createMeme env w create).1 list =
                ((handle .createMeme env w create).1,
                  ⟨200, .memeList
                    (items.map (populateMeme (handle .createMeme env w create).1))
                    (totalPages ((handle .createMeme env w create).1.memes.filter
                      (fun m => m.createdBy = some c'.userId)).length
                      (list.query.limit.getD 10))
                    (list.query.page.getD 1)
                    ((handle .createMeme env w create).1.memes.filter
                      (fun m => m.createdBy = some c'.userId)).length⟩) ∧
              ∀ x ∈ items, x.createdBy ≠ some c.userId)) := by
  constructor
  · intro hskip
    obtain ⟨items, h1, _, h3⟩ := getMemes_route env w req tok c ht hne hv hskip
    exact ⟨items, h1, h3⟩
  · intro create T htc hT hnone h201
    obtain ⟨m, hmem, hown, htitle⟩ :=
      createMeme_route_created env w create tok c htc hne hv h201
    refine ⟨m, hmem, by rw [htitle, hT]; rfl, hown, ?_⟩
    intro env' list tok' c' ht' hne' hv'
    constructor
    · intro hsame hpage hl
      exact getMemes_after_create env' w m c.userId list tok' c' ht' hne' hv' hsame hown
        hnone hpage hl _ hmem
    · intro hdiff hskip
      obtain ⟨items, h1, _, h3⟩ := getMemes_route env' _ list tok' c' ht' hne' hv' hskip
      refine ⟨items, h1, ?_⟩
      intro x hx hxc
      have := (h3 x hx).2
      rw [this] at hxc
      exact hdiff (Option.some.inj hxc)

/-- Instance of C21: `alice`, who owns no meme in the sample store, uploads a
meme titled `Test`. -/
theorem getMemes_scoped_witness :
    ∃ m, (handle .createMeme sampleEnv sampleWorld aliceMeme).1.memes =
        sampleWorld.memes ++ [m] ∧ m.title = "Test" ∧ m.createdBy = some 1 :=
  let ⟨m, h1, h2, h3, _⟩ :=
    (getMemes_scoped sampleEnv sampleWorld aliceRequest "tok-alice" aliceClaims
      (by decide) (by decide) (by decide)).2 aliceMeme "Test" (by decide) rfl
      (by decide) (by decide)
  ⟨m, h1, h2, h3⟩

/-! ## Daily snapshots -/

theorem updateAnalytics_new (env : Env) (w : World) (req : Request)
    (h : ∀ a ∈ w.analytics, a.date ≠ midnight env) :
    handle .updateAnalytics env w req =
      ({ w with analytics := w.analytics ++
          [withCounts w { id := env.newId, date := midnight env }] },
        ⟨200, .message "Analytics updated"⟩) := by
  have hf : w.analytics.find? (fun a => decide (a.date = midnight env)) = none := by
    rw [List.find?_eq_none]
    intro x hx
    simpa using h x hx
  simp only [handle, route, updateAnalytics, hf]
  rfl

theorem updateAnalytics_existing (env : Env) (w : World) (req : Request)
    (pre post : List Analytics) (a : Analytics) (hw : w.analytics = pre ++ a :: post)
    (ha : a.date = midnight env) (hpre : ∀ x ∈ pre, x.date ≠ midnight env)
    (hid : ∀ x ∈ pre, x.id ≠ a.id) :
    handle .updateAnalytics env w req =
      ({ w with analytics := pre ++ withCounts w a :: post },
        ⟨200, .message "Analytics updated"⟩) := by
  have hf : w.analytics.find? (fun x => decide (x.date = midnight env)) = some a := by
    rw [hw, List.find?_append]
    have h0 : pre.find? (fun x => decide (x.date = midnight env)) = none := by
      rw [List.find?_eq_none]
      intro x hx
      simpa using hpre x hx
    rw [h0]
    simp [List.find?, ha]
  simp only [handle, route, updateAnalytics, hf]
  rw [hw, updateFirst_append (fun x => decide (x.id = a.id)) _ pre a post (by simp)
    (fun x hx => by simpa using hid x hx)]
  rfl

theorem nodup_split_ne {α β : Type} (key : α → β) (pre : List α) (t : α)
    (post : List α) (h : ((pre ++ t :: post).map key).Nodup) :
    ∀ x ∈ pre ++ post, key x ≠ key t := by
  rw [List.map_append, List.map_cons, List.nodup_middle] at h
  obtain ⟨h1, _⟩ := List.nodup_cons.1 h
  intro x hx hk
  apply h1
  rw [← hk, ← List.map_append]
  exact List.mem_map_of_mem key hx

theorem filter_ne_split {α β : Type} [DecidableEq β] (key : α → β) (pre : List α) (t : α)
    (post : List α) (h : ∀ x ∈ pre ++ post, key x ≠ key t) :
    (pre ++ t :: post).filter (fun x => decide (key x ≠ key t)) = pre ++ post := by
  have hp : pre.filter (fun x => decide (key x ≠ key t)) = pre := by
    rw [List.filter_eq_self]
    intro x hx
    simpa using h x (List.mem_append_left _ hx)
  have hq : post.filter (fun x => decide (key x ≠ key t)) = post := by
    rw [List.filter_eq_self]
    intro x hx
    simpa using h x (List.mem_append_right _ hx)
  rw [List.filter_append, List.filter_cons, hp, hq]
  simp

/-- C22: over a store whose snapshots have pairwise distinct dates and ids, and
a fresh id for a new document, `POST /api/analytics/update` answers 200 and the
store then holds exactly one snapshot dated today, whose four totals are the
current collection counts (written over the previous values, its other fields
kept), together with the snapshots of the other dates, unchanged and in place;
dates stay pairwise distinct, the other collections and the files are
untouched, and a second update on the same day changes nothing more. -/
theorem updateAnalytics_snapshot (env : Env) (w : World) (req : Request)
    (hdates : (w.analytics.map (fun a => a.date)).Nodup)
    (hids : (w.analytics.map (fun a => a.id)).Nodup)
    (hfresh : ∀ a ∈ w.analytics, a.id ≠ env.newId) :
    ∃ pre snap post,
      handle .updateAnalytics env w req =
        ({ w with analytics := pre ++ snap :: post }, ⟨200, .message "Analytics updated"⟩) ∧
      snap.date = midnight env ∧
      snap.totalUsers = w.users.length ∧ snap.totalTrends = w.trends.length ∧
      snap.totalTemplates = w.templates.length ∧ snap.totalMemes = w.memes.length ∧
      (∀ old ∈ w.analytics, old.date = midnight env → snap = withCounts w old) ∧
      pre ++ post = w.analytics.filter (fun a => decide (a.date ≠ midnight env)) ∧
      ((pre ++ snap :: post).map (fun a => a.date)).Nodup ∧
      ∀ (env2 : Env) (req2 : Request), midnight env2 = midnight env →
        handle .updateAnalytics env2 { w with analytics := pre ++ snap :: post } req2 =
          ({ w with analytics := pre ++ snap :: post },
            ⟨200, .message "Analytics updated"⟩) := by
  by_cases hex : ∃ a ∈ w.analytics, decide (a.date = midnight env) = true
  · obtain ⟨pre, a, post, hw, ha, hpre, _⟩ :=
      find?_split (fun a : Analytics => decide (a.date = midnight env)) w.analytics hex
    have ha' : a.date = midnight env := by simpa using ha
    have hpre' : ∀ x ∈ pre, x.date ≠ midnight env := fun x hx => by simpa using hpre x hx
    have hidne : ∀ x ∈ pre ++ post, x.id ≠ a.id := by
      rw [hw] at hids
      exact nodup_split_ne (fun a : Analytics => a.id) pre a post hids
    have hdne : ∀ x ∈ pre ++ post, x.date ≠ a.date := by
      rw [hw] at hdates
      exact nodup_split_ne (fun a : Analytics => a.date) pre a post hdates
    have hid : ∀ x ∈ pre, x.id ≠ a.id := fun x hx => hidne x (List.mem_append_left _ hx)
    refine ⟨pre, withCounts w a, post, updateAnalytics_existing env w req pre post a hw ha'
      hpre' hid, ha', rfl, rfl, rfl, rfl, ?_, ?_, ?_, ?_⟩
    · intro old hold hdate
      rw [hw] at hold
      rcases List.mem_append.1 hold with h | h
      · exact absurd hdate (hpre' old h)
      · rcases List.mem_cons.1 h with h | h
        · rw [h]
        · exact absurd (hdate.trans ha'.symm) (hdne old (List.mem_append_right _ h))
    · rw [hw, ← ha']
      exact (filter_ne_split (fun a : Analytics => a.date) pre a post hdne).symm
    · rw [hw] at hdates
      simpa [List.map_append, withCounts] using hdates
    · intro env2 req2 hmid
      have h2 := updateAnalytics_existing env2 { w with analytics := pre ++ withCounts w a :: post }
        req2 pre post (withCounts w a) rfl (by rw [hmid]; exact ha')
        (fun x hx => by rw [hmid]; exact hpre' x hx) hid
      rw [h2]
      rfl
  · have hno : ∀ a ∈ w.analytics, a.date ≠ midnight env := by
      intro a ha hd
      exact hex ⟨a, ha, by simpa using hd⟩
    refine ⟨w.analytics, withCounts w { id := env.newId, date := midnight env }, [], ?_, rfl,
      rfl, rfl, rfl, rfl, ?_, ?_, ?_, ?_⟩
    · exact updateAnalytics_new env w req hno
    · intro old hold hdate
      exact absurd hdate (hno old hold)
    · rw [List.append_nil, eq_comm, List.filter_eq_self]
      intro a ha
      simpa using hno a ha
    · rw [List.map_append, List.nodup_append]
      refine ⟨hdates, by simp, ?_⟩
      intro d hd1 hd2
      rw [List.mem_map] at hd1
      obtain ⟨a, ha, rfl⟩ := hd1
      simp only [List.map_cons, List.map_nil, List.mem_singleton] at hd2
      exact hno a ha hd2
    · intro env2 req2 hmid
      have h2 := updateAnalytics_existing env2
        { w with analytics := w.analytics ++
            [withCounts w { id := env.newId, date := midnight env }] }
        req2 w.analytics [] (withCounts w { id := env.newId, date := midnight env }) rfl
        (by rw [hmid]; rfl) (fun x hx => by rw [hmid]; exact hno x hx) hfresh
      rw [h2]
      rfl

/-- Instance of C22: an update over the sample store, which already holds a
stale snapshot of the day. -/
theorem updateAnalytics_snapshot_witness :
    ∃ pre snap post,
      handle .updateAnalytics sampleEnv snapshotWorld {} =
        ({ snapshotWorld with analytics := pre ++ snap :: post },
          ⟨200, .message "Analytics updated"⟩) ∧
      snap.totalUsers = 2 ∧ snap.totalTrends = 3 :=
  let ⟨pre, snap, post, h1, _, h3, h4, _⟩ :=
    updateAnalytics_snapshot sampleEnv snapshotWorld {} (by decide) (by decide) (by decide)
  ⟨pre, snap, post, h1, h3, h4⟩

/-! ## Sign of the growth percentages -/

theorem growthOf_nonneg (total before : Nat) (h : before ≤ total) :
    0 ≤ growthOf total before := by
  unfold growthOf fmul fdiv fsub
  have h1 : (0 : ℚ) ≤ (total : ℚ) - (before : ℚ) := by
    have : (before : ℚ) ≤ (total : ℚ) := by exact_mod_cast h
    linarith
  have h2 : (0 : ℚ) < orOne before := by
    rw [orOne_eq_max]
    have : 0 < max before 1 := by omega
    exact_mod_cast this
  apply roundDouble_nonneg
  apply mul_nonneg _ (by norm_num)
  apply roundDouble_nonneg
  apply div_nonneg _ h2.le
  exact roundDouble_nonneg _ h1

theorem nonNegativeGrowth_of_le (total before : Nat) (h : before ≤ total) :
    NonNegativeGrowth total before (toFixed1 (growthOf total before)) := by
  have hg := growthOf_nonneg total before h
  have hlt : ¬ growthOf total before < 0 := not_lt.2 hg
  refine ⟨h, hg, ?_, ?_⟩
  · unfold roundTenths
    rw [if_neg hlt]
    apply Int.floor_nonneg.2
    linarith
  · unfold toFixed1
    simp only [hlt, if_false]
    rfl

theorem adminStats_growth (env : Env) (w : World) (req : Request) :
    ∃ stats, adminStats env w req =
      (w, ⟨200, .stats stats
        { users := toFixed1 (growthOf w.users.length
            (w.users.filter (fun u => u.createdAt < env.now - dayMs)).length)
          trends := toFixed1 (growthOf w.trends.length
            (w.trends.filter (fun x => x.createdAt < env.now - dayMs)).length)
          templates := toFixed1 (growthOf w.templates.length
            (w.templates.filter (fun x => x.createdAt < env.now - dayMs)).length)
          memes := toFixed1 (growthOf w.memes.length
            (w.memes.filter (fun m => m.createdAt < env.now - dayMs)).length) }⟩) :=
  ⟨_, rfl⟩

/-- C27: for every store and every clock, each of the four growth entries the
admin stats route returns is not negative: the count it is compared with is
the number of documents of the same collection created before the instant 24
hours ago, which never exceeds the current total, so the value formatted is at
least 0 and is printed without a minus sign. -/
theorem growth_nonneg (env : Env) (w : World) (req : Request)
    (hadmin : AdminAuthenticated env req) :
    ∃ stats growth,
      handle .adminStats env w req = (w, ⟨200, .stats stats growth⟩) ∧
      NonNegativeGrowth w.users.length
        (w.users.filter (fun u => u.createdAt < env.now - dayMs)).length growth.users ∧
      NonNegativeGrowth w.trends.length
        (w.trends.filter (fun t => t.createdAt < env.now - dayMs)).length growth.trends ∧
      NonNegativeGrowth w.templates.length
        (w.templates.filter (fun t => t.createdAt < env.now - dayMs)).length
        growth.templates ∧
      NonNegativeGrowth w.memes.length
        (w.memes.filter (fun m => m.createdAt < env.now - dayMs)).length growth.memes := by
  obtain ⟨c, hc⟩ := route_admin_pass adminStats env w req hadmin
  obtain ⟨stats, hs⟩ := adminStats_growth env w { req with user := some c }
  have hres : handle .adminStats env w req = _ := (show handle .adminStats env w req =
    route [authenticateToken, requireAdmin] adminStats env w req from rfl).trans
      (hc.trans hs)
  exact ⟨stats, _, hres,
    nonNegativeGrowth_of_le _ _ (List.length_filter_le _ _),
    nonNegativeGrowth_of_le _ _ (List.length_filter_le _ _),
    nonNegativeGrowth_of_le _ _ (List.length_filter_le _ _),
    nonNegativeGrowth_of_le _ _ (List.length_filter_le _ _)⟩

/-- Instance of C27: the admin reads the stats of the sample store. -/
theorem growth_nonneg_witness :
    ∃ stats growth,
      handle .adminStats adminEnv sampleWorld (rootRequest "") =
        (sampleWorld, ⟨200, .stats stats growth⟩) ∧
      0 ≤ growthOf sampleWorld.users.length
        (sampleWorld.users.filter (fun u => u.createdAt < adminEnv.now - dayMs)).length :=
  let ⟨stats, growth, h1, h2, _⟩ :=
    growth_nonneg adminEnv sampleWorld (rootRequest "") (adminAuthenticated_root "")
  ⟨stats, growth, h1, h2.2.1⟩

/-! ## Login of a deactivated user -/

theorem login_success (env : Env) (w : World) (req : Request) (pre post : List User)
    (u : User) (pw : String) (hw : w.users = pre ++ u :: post)
    (hemail : ∀ x ∈ pre, x.email ≠ u.email) (hid : ∀ x ∈ pre, x.id ≠ u.id)
    (he : req.body.email = some u.email) (hp : req.body.password = some pw)
    (hc : env.bcrypt.compare pw u.password = true) :
    handle .login env w req =
      ({ w with users := pre ++ { u with lastLogin := some env.now } :: post },
        ⟨200, .auth "Login successful"
          (env.jwt.sign ⟨u.id, u.username, u.role⟩ env.secret "7d" env.now)
          { id := u.id, username := u.username, email := u.email, role := u.role,
            avatar := some u.avatar }⟩) := by
  have hf : w.users.find? (fun x => decide (some x.email = some u.email)) = some u := by
    rw [hw, List.find?_append]
    have h0 : pre.find? (fun x => decide (some x.email = some u.email)) = none := by
      rw [List.find?_eq_none]
      intro x hx
      simpa using hemail x hx
    rw [h0]
    simp [List.find?]
  simp only [handle, route, login, he, hp, hf, hc]
  rw [hw, updateFirst_append (fun x => decide (x.id = u.id)) _ pre u post (by simp)
    (fun x hx => by simpa using hid x hx)]
  rfl

/-- C30: `login` never reads `isActive`.  For a stored user whose email and id
occur nowhere before it, whatever its `isActive` flag, a request with its
email and a password that matches its hash is answered 200 with a token signed
for its id, username and role with `expiresIn: '7d'`, and its `lastLogin`
becomes the current instant; response and stored result are those obtained
when the flag is `true`, the flag itself being kept. -/
theorem login_ignores_isActive (env : Env) (w : World) (req : Request)
    (pre post : List User) (u : User) (pw : String) (hw : w.users = pre ++ u :: post)
    (hemail : ∀ x ∈ pre, x.email ≠ u.email) (hid : ∀ x ∈ pre, x.id ≠ u.id)
    (he : req.body.email = some u.email) (hp : req.body.password = some pw)
    (hc : env.bcrypt.compare pw u.password = true) :
    handle .login env w req =
      ({ w with users := pre ++ { u with lastLogin := some env.now } :: post },
        ⟨200, .auth "Login successful"
          (env.jwt.sign ⟨u.id, u.username, u.role⟩ env.secret "7d" env.now)
          { id := u.id, username := u.username, email := u.email, role := u.role,
            avatar := some u.avatar }⟩) ∧
    handle .login env { w with users := pre ++ { u with isActive := true } :: post } req =
      ({ w with users :=
          pre ++ { u with isActive := true, lastLogin := some env.now } :: post },
        (handle .login env w req).2) := by
  have h1 := login_success env w req pre post u pw hw hemail hid he hp hc
  have h2 := login_success env { w with users := pre ++ { u with isActive := true } :: post }
    req pre post { u with isActive := true } pw rfl hemail hid he hp hc
  exact ⟨h1, by rw [h2, h1]⟩

/-- Instance of C30: the deactivated `alice` logs in. -/
theorem login_ignores_isActive_witness :
    (handle .login sampleEnv inactiveWorld aliceLogin).2 =
      ⟨200, .auth "Login successful" "tok-alice"
        { id := 1, username := "alice", email := "alice@example.com", role := "user",
          avatar := some "" }⟩ :=
  congrArg Prod.snd
    (login_ignores_isActive sampleEnv inactiveWorld aliceLogin []
      [root] { alice with isActive := false } "secret" rfl (by simp) (by simp) rfl rfl
      (by decide)).1

/-! ## Error responses -/

/-- C23 fails on the code: in production the store rejects the negative skip
of `GET /api/trends?page=0`, and the catch block of the route answers 500 with
the raw message of the error, although the error-handling middleware would
have answered the same error with `Something went wrong`. -/
theorem catch_block_sends_raw_message :
    handle .getTrends productionEnv sampleWorld { query := { page := some 0 } } =
      (sampleWorld, ⟨500, .error "Skip value must be non-negative"⟩) ∧
    errorHandler productionEnv "Skip value must be non-negative" =
      ⟨500, .internal "Internal server error" "Something went wrong"⟩ := by
  decide

theorem createTrend_invalid (env : Env) (w : World) (req : Request) (c : Claims)
    (hu : req.user = some c)
    (hmiss : required req.body.title = false ∨ required req.body.description = false ∨
      required req.body.category = false) :
    createTrend env w req = (w, ⟨500, .error "Trend validation failed"⟩) := by
  have hreq : (required req.body.title && required req.body.description &&
      required req.body.category) = false := by
    rcases hmiss with h | h | h <;> simp [h]
  simp only [createTrend, hu, hreq, Bool.false_eq_true, if_false]

theorem register_missing (env : Env) (w : World) (req : Request)
    (hmiss : required req.body.username = false ∨ required req.body.email = false ∨
      req.body.password = none) :
    (handle .register env w req).1 = w ∧
    ((∃ u ∈ w.users, some u.email = req.body.email ∨ some u.username = req.body.username) →
      handle .register env w req = (w, ⟨400, .error "User already exists"⟩)) ∧
    ((∀ u ∈ w.users, some u.email ≠ req.body.email ∧ some u.username ≠ req.body.username) →
      (handle .register env w req).2.status = 500) := by
  cases hf : w.users.find?
      (fun u => decide (some u.email = req.body.email) ||
        decide (some u.username = req.body.username)) with
  | some u0 =>
    have hres : handle .register env w req = (w, ⟨400, .error "User already exists"⟩) := by
      simp only [handle, route, register, hf]
    refine ⟨by rw [hres], fun _ => hres, fun hno => ?_⟩
    have hmem := List.mem_of_find?_eq_some hf
    have hp := List.find?_some hf
    simp only [Bool.or_eq_true, decide_eq_true_eq] at hp
    rcases hp with hp | hp
    · exact absurd hp (hno u0 hmem).1
    · exact absurd hp (hno u0 hmem).2
  | none =>
    have hnone : ¬ ∃ u ∈ w.users,
        some u.email = req.body.email ∨ some u.username = req.body.username := by
      rintro ⟨u, hu, hor⟩
      rw [List.find?_eq_none] at hf
      exact hf u hu (by simpa using hor)
    cases hp : req.body.password with
    | none =>
      have hres : handle .register env w req =
          (w, ⟨500, .error "Illegal arguments: undefined, number"⟩) := by
        simp only [handle, route, register, hf, hp]
      exact ⟨by rw [hres], fun h => absurd h hnone, fun _ => by rw [hres]⟩
    | some pw =>
      have hreq : (required req.body.username && required req.body.email &&
          required (some (env.bcrypt.hash pw 12))) = false := by
        rcases hmiss with h | h | h
        · simp [h]
        · simp [h]
        · rw [hp] at h
          cases h
      have hres : handle .register env w req =
          (w, ⟨500, .error "User validation failed"⟩) := by
        simp only [handle, route, register, hf, hp, hreq, Bool.false_eq_true, if_false]
      exact ⟨by rw [hres], fun h => absurd h hnone, fun _ => by rw [hres]⟩

/-- C24 fails as stated: an authenticated `POST /api/trends` without a title
and a `POST /api/auth/register` without a password are answered 500, not 400;
nothing is stored. -/
theorem missing_field_answers_500 :
    handle .createTrend sampleEnv sampleWorld untitledTrend =
      (sampleWorld, ⟨500, .error "Trend validation failed"⟩) ∧
    handle .register sampleEnv sampleWorld passwordlessRegister =
      (sampleWorld, ⟨500, .error "Illegal arguments: undefined, number"⟩) := by
  decide

/-- C24, as the code has it: an authenticated `POST /api/trends` whose body
lacks the title, the description or the category is answered 500 and no
collection changes (without a file part the whole store is unchanged and the
error is that of the schema validation).  A `POST /api/auth/register` whose
body lacks the username, the email or the password stores nothing; it is
answered 400 `User already exists` when the email or the username it carries
is taken, and 500 otherwise. -/
theorem missing_field_rejected (env : Env) (w : World) (req : Request) :
    (∀ tok c, bearerToken req.authorization = some tok → tok ≠ "" →
      env.jwt.verify tok env.secret env.now = some c →
      (required req.body.title = false ∨ required req.body.description = false ∨
        required req.body.category = false) →
      (handle .createTrend env w req).2.status = 500 ∧
      (handle .createTrend env w req).1.users = w.users ∧
      (handle .createTrend env w req).1.trends = w.trends ∧
      (handle .createTrend env w req).1.templates = w.templates ∧
      (handle .createTrend env w req).1.memes = w.memes ∧
      (req.upload = none →
        handle .createTrend env w req = (w, ⟨500, .error "Trend validation failed"⟩))) ∧
    ((required req.body.username = false ∨ required req.body.email = false ∨
        req.body.password = none) →
      (handle .register env w req).1 = w ∧
      ((∃ u ∈ w.users, some u.email = req.body.email ∨ some u.username = req.body.username) →
        handle .register env w req = (w, ⟨400, .error "User already exists"⟩)) ∧
      ((∀ u ∈ w.users, some u.email ≠ req.body.email ∧ some u.username ≠ req.body.username) →
        (handle .register env w req).2.status = 500)) := by
  refine ⟨fun tok c ht hne hv hmiss => ?_, register_missing env w req⟩
  have h1 := authenticateToken_verified env w req tok c ht hne hv
  have hroute : handle .createTrend env w req =
      match uploadSingleImage env w { req with user := some c } with
      | .next w1 r1 => createTrend env w1 r1
      | .respond w1 _ res => (w1, res)
      | .fail w1 _ msg => (w1, errorHandler env msg) := by
    simp only [handle, route, h1]
  have hmain : (handle .createTrend env w req).2.status = 500 ∧
      (handle .createTrend env w req).1.users = w.users ∧
      (handle .createTrend env w req).1.trends = w.trends ∧
      (handle .createTrend env w req).1.templates = w.templates ∧
      (handle .createTrend env w req).1.memes = w.memes := by
    rcases uploadSingleImage_cases env w { req with user := some c } with
      ⟨msg, hm⟩ | ⟨w1, r1, hm, hu1, hu2, hu3, hu4, hu5⟩
    · rw [hroute, hm]
      exact ⟨rfl, rfl, rfl, rfl, rfl⟩
    · obtain ⟨_, _, hb⟩ := uploadSingleImage_next env w w1 _ r1 hm
      rw [hroute, hm]
      dsimp only
      rw [createTrend_invalid env w1 r1 c hu5 (by rw [hb]; exact hmiss)]
      exact ⟨rfl, hu1, hu2, hu3, hu4⟩
  refine ⟨hmain.1, hmain.2.1, hmain.2.2.1, hmain.2.2.2.1, hmain.2.2.2.2, fun hnone => ?_⟩
  have hm : uploadSingleImage env w { req with user := some c } =
      .next w { req with user := some c } := by
    simp only [uploadSingleImage, hnone]
  rw [hroute, hm]
  exact createTrend_invalid env w _ c rfl hmiss

/-- Instance of C24: the trend of `alice` without a title and the
registration without a password. -/
theorem missing_field_rejected_witness :
    required untitledTrend.body.title = false ∧
    (handle .createTrend sampleEnv sampleWorld untitledTrend).2.status = 500 ∧
    (handle .createTrend sampleEnv sampleWorld untitledTrend).1.trends = sampleWorld.trends ∧
    passwordlessRegister.body.password = none ∧
    (handle .register sampleEnv sampleWorld passwordlessRegister).1 = sampleWorld ∧
    (handle .register sampleEnv sampleWorld passwordlessRegister).2.status = 500 :=
  have ht := (missing_field_rejected sampleEnv sampleWorld untitledTrend).1 "tok-alice"
    aliceClaims (by decide) (by decide) (by decide) (Or.inl (by decide))
  have hr := (missing_field_rejected sampleEnv sampleWorld passwordlessRegister).2
    (Or.inr (Or.inr rfl))
  ⟨by decide, ht.1, ht.2.2.1, rfl, hr.1, hr.2.2 (by decide)⟩

/-! ## The session of the client -/

theorem apiCall_session (c : Client) (fetch : Fetch) (endpoint : String) (options : Options) :
    (c.apiCall fetch endpoint options).1.token = c.token ∧
    (c.apiCall fetch endpoint options).1.user = c.user ∧
    (c.apiCall fetch endpoint options).1.isAdmin = c.isAdmin ∧
    (c.apiCall fetch endpoint options).1.currentSection = c.currentSection := by
  unfold Client.apiCall
  dsimp only
  repeat' split
  all_goals exact ⟨rfl, rfl, rfl, rfl⟩

theorem apiCall_fails (c : Client) (fetch : Fetch) (endpoint : String) (options : Options)
    (hfail : ∀ req reply, fetch req = .returns reply → reply.ok = false) :
    ∃ m, (c.apiCall fetch endpoint options).2 = .throws m := by
  unfold Client.apiCall
  dsimp only
  split
  · exact ⟨_, rfl⟩
  · rename_i response hres
    rw [if_neg (by rw [hfail _ _ hres]; simp)]
    split <;> exact ⟨_, rfl⟩

theorem logout_cleared (c : Client) : SessionCleared c.logout := by
  unfold Client.logout Client.navigateToSection Client.showNotification Client.showModal
  dsimp only
  repeat' split
  all_goals exact ⟨rfl, rfl, rfl⟩

/-- C25 fails as stated: for the client in which `alice` is logged in, an
`apiCall` answered 401 throws the message of the response and leaves the stored
token and the user in place, and a `checkAuth` answered 401 removes the stored
token but leaves the user in place; neither clears the session state. -/
theorem apiCall_401_keeps_session :
    (aliceClient.apiCall unauthorized "/memes" {}).2 = .throws "Access token required" ∧
    (aliceClient.apiCall unauthorized "/memes" {}).1.token = some "tok-alice" ∧
    (aliceClient.apiCall unauthorized "/memes" {}).1.user = some aliceInfo ∧
    ¬ SessionCleared (aliceClient.apiCall unauthorized "/memes" {}).1 ∧
    (aliceClient.checkAuth unauthorized).token = none ∧
    (aliceClient.checkAuth unauthorized).user = some aliceInfo ∧
    ¬ SessionCleared (aliceClient.checkAuth unauthorized) := by
  unfold SessionCleared
  decide

/-- C25, as the code has it: for every client state and every network,
`logout` clears the session state (stored token removed, `user = null`,
`isAdmin = false`); an `apiCall` leaves the stored token, `user` and `isAdmin`
as they were, whatever the response; and when a token is stored and the network
answers no request with an `ok` response, `checkAuth` removes the stored token
and leaves `user` and `isAdmin` as they were. -/
theorem session_lifecycle (c : Client) (fetch : Fetch) :
    SessionCleared c.logout ∧
    (∀ endpoint options,
      (c.apiCall fetch endpoint options).1.token = c.token ∧
      (c.apiCall fetch endpoint options).1.user = c.user ∧
      (c.apiCall fetch endpoint options).1.isAdmin = c.isAdmin) ∧
    (truthy c.token = true →
      (∀ req reply, fetch req = .returns reply → reply.ok = false) →
      (c.checkAuth fetch).token = none ∧ (c.checkAuth fetch).user = c.user ∧
      (c.checkAuth fetch).isAdmin = c.isAdmin) := by
  refine ⟨logout_cleared c, fun endpoint options => ?_, fun htoken hfail => ?_⟩
  · have h := apiCall_session c fetch endpoint options
    exact ⟨h.1, h.2.1, h.2.2.1⟩
  · unfold Client.checkAuth
    rw [if_pos htoken]
    obtain ⟨m, hm⟩ := apiCall_fails c fetch "/auth/verify"
      { method := some "GET", authorization := some ("Bearer " ++ c.token.getD "") } hfail
    have hs := apiCall_session c fetch "/auth/verify"
      { method := some "GET", authorization := some ("Bearer " ++ c.token.getD "") }
    split
    · rename_i heq
      rw [heq] at hm
      cases hm
    · rename_i heq
      rw [heq] at hm
      cases hm
    · rename_i c1 _ heq
      rw [heq] at hs
      exact ⟨rfl, hs.2.1, hs.2.2.1⟩

theorem session_lifecycle_witness :
    truthy aliceClient.token = true ∧
    (∀ req reply, unauthorized req = .returns reply → reply.ok = false) ∧
    (aliceClient.checkAuth unauthorized).token = none ∧
    (aliceClient.checkAuth unauthorized).user = aliceClient.user ∧
    (aliceClient.checkAuth unauthorized).isAdmin = aliceClient.isAdmin :=
  have hfail : ∀ req reply, unauthorized req = .returns reply → reply.ok = false :=
    fun _ _ h => by cases h; rfl
  ⟨by decide, hfail, (session_lifecycle aliceClient unauthorized).2.2 (by decide) hfail⟩

/-! ## The status toggle of the admin panel -/

theorem apiCall_client (c : Client) (fetch : Fetch) (endpoint : String) (options : Options) :
    (c.apiCall fetch endpoint options).1 =
      { c with
        sent := c.sent ++
          [{ url := c.apiBase ++ endpoint
             method := options.method
             authorization := options.authorization <|>
               (if truthy c.token then c.token.map (fun t => "Bearer " ++ t) else none)
             contentType := options.contentType
             body := options.body }] } := by
  unfold Client.apiCall
  dsimp only
  cases fetch _ with
  | throws m => rfl
  | returns response =>
    dsimp only
    split
    · rfl
    · split <;> rfl

theorem toggleUserStatus_bound (c : Client) (fetch : Fetch) (active : Bool) (userId : String) :
    (c.toggleUserStatus fetch (some active) userId).sent = c.sent ++
      [{ url := c.apiBase ++ ("/admin/users/" ++ userId)
         method := some "PUT"
         authorization := if truthy c.token then c.token.map (fun t => "Bearer " ++ t) else none
         contentType := some "application/json"
         body := some (.status (!active)) }] := by
  unfold Client.toggleUserStatus
  dsimp only
  have h := apiCall_client c fetch ("/admin/users/" ++ userId)
    { method := some "PUT", contentType := some "application/json",
      body := some (.status (!active)) }
  split <;> rename_i heq <;> rw [heq] at h <;> dsimp only at h <;> subst h <;> rfl

/-- C26: for every client state, every network and every `userId`,
`toggleUserStatus` called where no `isActive` is defined only shows the error
notification of the reference error: no request is handed to `fetch`, so no
user changes on the server, the network has no influence on the outcome, and
the success notification is not among the notifications added. -/
theorem toggleUserStatus_fails (c : Client) (fetch : Fetch) (userId : String) :
    c.toggleUserStatus fetch none userId =
      c.showNotification ("❌ " ++ "isActive is not defined") "error" ∧
    (c.toggleUserStatus fetch none userId).sent = c.sent ∧
    (c.toggleUserStatus fetch none userId).notifications =
      c.notifications ++ [("❌ " ++ "isActive is not defined", "error")] ∧
    ("✅ User status updated", "success") ∉
      [("❌ " ++ "isActive is not defined", "error")] ∧
    (∀ other : Fetch, c.toggleUserStatus other none userId =
      c.toggleUserStatus fetch none userId) :=
  ⟨rfl, rfl, rfl, by decide, fun _ => rfl⟩

/-! ## Navigation of the client -/

theorem sectionInvariant_of_open (c : Client) (hadmin : c.currentSection ≠ "admin")
    (hmemes : c.currentSection ≠ "memes") : SectionInvariant c :=
  ⟨fun h => absurd h hadmin, fun h => absurd h hmemes⟩

theorem sectionInvariant_of_loggedOut (c d : Client) (h : SectionInvariant c)
    (huser : c.user = none) (hsection : d.currentSection = c.currentSection) :
    SectionInvariant d := by
  apply sectionInvariant_of_open
  · rw [hsection]
    exact fun hs => (h.1 hs).1 huser
  · rw [hsection]
    exact fun hs => h.2 hs huser

theorem navigateToSection_invariant (c : Client) (sectionName : String)
    (h : SectionInvariant c) : SectionInvariant (c.navigateToSection sectionName) := by
  unfold Client.navigateToSection
  split
  · exact h
  · split
    · exact h
    · split
      · exact h
      · rename_i h1 h2 h3
        unfold SectionInvariant
        dsimp only
        constructor
        · intro hs
          have hu : c.user ≠ none := fun hu => h2 ⟨Or.inr hs, hu⟩
          refine ⟨hu, ?_⟩
          cases ha : c.isAdmin with
          | true => rfl
          | false => exact absurd ⟨hs, ha⟩ h3
        · intro hs hu
          exact h2 ⟨Or.inl hs, hu⟩

theorem navigateToSection_rejected (c : Client) (sectionName : String)
    (h : GateRejects c sectionName) :
    (c.navigateToSection sectionName).currentSection = c.currentSection := by
  unfold Client.navigateToSection
  split
  · rfl
  · split
    · rfl
    · split
      · rfl
      · rename_i h1 h2 h3
        rcases h.2 with h4 | h4
        · exact absurd h4 h2
        · exact absurd h4 h3

theorem login_section (c : Client) (fetch : Fetch) (email password : String) :
    (c.login fetch email password).currentSection = c.currentSection := by
  unfold Client.login
  have hs := (apiCall_session c fetch "/auth/login"
    { method := some "POST", contentType := some "application/json",
      body := some (.credentials email password) }).2.2.2
  split <;> rename_i heq <;> rw [heq] at hs
  · exact hs
  · exact hs
  · dsimp only
    split <;> exact hs

theorem register_section (c : Client) (fetch : Fetch) (username email password : String) :
    (c.register fetch username email password).currentSection = c.currentSection := by
  unfold Client.register
  have hs := (apiCall_session c fetch "/auth/register"
    { method := some "POST", contentType := some "application/json",
      body := some (.registration username email password) }).2.2.2
  split <;> rename_i heq <;> rw [heq] at hs
  · exact hs
  · exact hs
  · dsimp only
    split <;> exact hs

theorem logout_invariant (c : Client) : SectionInvariant c.logout := by
  apply sectionInvariant_of_open <;>
  · unfold Client.logout Client.navigateToSection Client.showNotification Client.showModal
    dsimp only
    split
    · rename_i h
      rw [← h]
      decide
    · split
      · rename_i h
        exact absurd h.1 (by decide)
      · split
        · rename_i h
          exact absurd h.1 (by decide)
        · simp

theorem enableAdmin_invariant (c : Client) (h : SectionInvariant c) :
    SectionInvariant (enableAdmin c) := by
  unfold enableAdmin
  split
  · have h1 : SectionInvariant
        ({ c with isAdmin := true }.showNotification "👑 Admin mode activated!" "success") :=
      ⟨fun hs => ⟨(h.1 hs).1, rfl⟩, h.2⟩
    dsimp only
    split
    · exact navigateToSection_invariant _ _ h1
    · exact h1
  · exact h

theorem disableAdmin_invariant (c : Client) (h : SectionInvariant c) :
    SectionInvariant (disableAdmin c) := by
  unfold disableAdmin
  dsimp only
  split
  · rename_i hs
    apply sectionInvariant_of_open <;>
    · unfold Client.navigateToSection Client.showNotification Client.showModal
      dsimp only
      have hs2 : c.currentSection = "admin" := hs
      rw [hs2]
      simp
  · rename_i hs
    exact ⟨fun hs2 => absurd hs2 hs, h.2⟩

theorem run_invariant (op : ClientOp) (c : Client) (h : SectionInvariant c)
    (hop : op.loggedOutEntry c = true) : SectionInvariant (op.run c) := by
  cases op with
  | navigateToSection sectionName => exact navigateToSection_invariant c sectionName h
  | login fetch email password =>
    exact sectionInvariant_of_loggedOut c _ h (Option.isNone_iff_eq_none.mp hop)
      (login_section c fetch email password)
  | register fetch username email password =>
    exact sectionInvariant_of_loggedOut c _ h (Option.isNone_iff_eq_none.mp hop)
      (register_section c fetch username email password)
  | logout => exact logout_invariant c
  | enableAdmin => exact enableAdmin_invariant c h
  | disableAdmin => exact disableAdmin_invariant c h

theorem runOps_invariant (ops : List ClientOp) (c : Client) (h : SectionInvariant c)
    (hops : entriesLoggedOut c ops = true) : SectionInvariant (runOps c ops) := by
  induction ops generalizing c with
  | nil => exact h
  | cons op rest ih =>
    simp only [entriesLoggedOut, Bool.and_eq_true] at hops
    exact ih (op.run c) (run_invariant op c h hops.1) hops.2

/-- C28 fails as stated: from the initial state, a login as `alice` (role
`user`), `enableAdmin` and a second login as `alice` end in the admin section
with a user logged in and `isAdmin = false`. -/
theorem relogin_breaks_section_invariant :
    (runOps (initialClient none)
      [.login aliceFetch "alice@example.com" "secret", .enableAdmin,
       .login aliceFetch "alice@example.com" "secret"]).currentSection = "admin" ∧
    (runOps (initialClient none)
      [.login aliceFetch "alice@example.com" "secret", .enableAdmin,
       .login aliceFetch "alice@example.com" "secret"]).isAdmin = false ∧
    ¬ SectionInvariant (runOps (initialClient none)
      [.login aliceFetch "alice@example.com" "secret", .enableAdmin,
       .login aliceFetch "alice@example.com" "secret"]) := by
  refine ⟨by decide, by decide, fun h => ?_⟩
  have h1 := (h.1 (by decide)).2
  revert h1
  decide

/-- C28, as the code has it: in every state reached from the initial state by
a sequence of `navigateToSection`, `login`, `register`, `logout`, `enableAdmin`
and `disableAdmin` in which `login` and `register` are called only while
nobody is logged in, `currentSection = 'admin'` implies a logged-in user and
`isAdmin = true`, and `currentSection = 'memes'` implies a logged-in user; a
`navigateToSection` that the gate rejects leaves `currentSection` unchanged. -/
theorem section_invariant (stored : Option String) (ops : List ClientOp)
    (hops : entriesLoggedOut (initialClient stored) ops = true) :
    SectionInvariant (runOps (initialClient stored) ops) ∧
    ∀ sectionName, GateRejects (runOps (initialClient stored) ops) sectionName →
      ((runOps (initialClient stored) ops).navigateToSection sectionName).currentSection =
        (runOps (initialClient stored) ops).currentSection :=
  ⟨runOps_invariant ops _
      (sectionInvariant_of_open _ (show "home" ≠ "admin" from by decide)
        (show "home" ≠ "memes" from by decide)) hops,
    fun sectionName h => navigateToSection_rejected _ sectionName h⟩

theorem section_invariant_witness :
    entriesLoggedOut (initialClient none)
      [.login aliceFetch "alice@example.com" "secret", .enableAdmin] = true ∧
    (runOps (initialClient none)
      [.login aliceFetch "alice@example.com" "secret", .enableAdmin]).currentSection = "admin" ∧
    SectionInvariant (runOps (initialClient none)
      [.login aliceFetch "alice@example.com" "secret", .enableAdmin]) :=
  ⟨by decide, by decide,
    (section_invariant none
      [.login aliceFetch "alice@example.com" "secret", .enableAdmin] (by decide)).1⟩

/-! ## Number formatting of the client -/

theorem fdiv_near (n : Nat) (c : Nat) (hc : 0 < c) (h : n < 2 ^ 53) :
    |fdiv (n : ℚ) ((20 * c : ℕ) : ℚ) - ((n : ℤ) : ℚ) / (20 * c)| < 1 / (20 * c) := by
  have hcq : (0 : ℚ) < c := by exact_mod_cast hc
  unfold fdiv
  have herr := roundDouble_error ((n : ℚ) / ((20 * c : ℕ) : ℚ))
  push_cast at herr ⊢
  refine lt_of_le_of_lt herr ?_
  rw [abs_of_nonneg (by positivity), div_div, div_lt_div_iff₀ (by positivity) (by positivity)]
  have hn : (n : ℚ) < 2 ^ 53 := by exact_mod_cast h
  nlinarith

theorem formatNumber_tie : formatNumber 1150 = "1.1K" := by
  have h1 : fdiv ((1150 : ℕ) : ℚ) 1000 = 5179139571476070 / 2 ^ 52 := by
    unfold fdiv
    have h3 : roundDouble (((1150 : ℕ) : ℚ) / 1000) =
        (5179139571476070 : ℤ) * 2 ^ ((0 : ℤ) - 52) := by
      apply roundDouble_of_close
      · norm_num [abs_of_pos]
      · norm_num [abs_of_pos]
      · rw [abs_lt]
        constructor <;> norm_num
    rw [h3]
    norm_num
  have h2 : roundTenths (5179139571476070 / 2 ^ 52) = 11 := by
    unfold roundTenths
    rw [if_neg (by norm_num), Int.floor_eq_iff]
    constructor <;> norm_num
  unfold formatNumber toFixed1
  rw [if_neg (by decide), if_pos (by decide), h1, h2, if_neg (by norm_num)]
  decide

theorem formatNumber_million : formatNumber 1000000 = "1000.0K" := by
  have h1 : fdiv ((1000000 : ℕ) : ℚ) 1000 = 1000 := by
    unfold fdiv
    have : ((1000000 : ℕ) : ℚ) / 1000 = ((1000 : ℕ) : ℚ) := by norm_num
    rw [this, roundDouble_natCast 1000 (by norm_num)]
    norm_num
  have h2 : roundTenths 1000 = 10000 := by
    unfold roundTenths
    rw [if_neg (by norm_num), Int.floor_eq_iff]
    constructor <;> norm_num
  unfold formatNumber toFixed1
  rw [if_neg (by decide), if_pos (by decide), h1, h2, if_neg (by norm_num)]
  decide

/-- C29: for every natural number `n`, `formatNumber n` is the decimal string
of `n` when `n ≤ 1000`, the one-decimal print of the quotient `n / 1000`
followed by `K` when `1000 < n ≤ 1000000`, and the one-decimal print of the
quotient `n / 1000000` followed by `M` when `n > 1000000`; the tenths printed
are within one twentieth of the double that the division gives and, for `n`
below `2^53`, within one twentieth of the exact quotient.  The thresholds are
strict: `1000` is printed as `1000` and `1000000` as `1000.0K`.  Where the
exact quotient lies midway between two tenths the double decides: `1150` is
printed as `1.1K`. -/
theorem formatNumber_cases (n : Nat) :
    (n ≤ 1000 → formatNumber n = toString n) ∧
    (1000 < n → n ≤ 1000000 →
      formatNumber n = toFixed1 (fdiv (n : ℚ) 1000) ++ "K" ∧
      |(roundTenths (fdiv (n : ℚ) 1000) : ℚ) / 10 - fdiv (n : ℚ) 1000| ≤ 1 / 20 ∧
      |(roundTenths (fdiv (n : ℚ) 1000) : ℚ) / 10 - (n : ℚ) / 1000| ≤ 1 / 20) ∧
    (1000000 < n →
      formatNumber n = toFixed1 (fdiv (n : ℚ) 1000000) ++ "M" ∧
      |(roundTenths (fdiv (n : ℚ) 1000000) : ℚ) / 10 - fdiv (n : ℚ) 1000000| ≤ 1 / 20 ∧
      (n < 2 ^ 53 →
        |(roundTenths (fdiv (n : ℚ) 1000000) : ℚ) / 10 - (n : ℚ) / 1000000| ≤ 1 / 20)) ∧
    formatNumber 1000 = "1000" ∧ formatNumber 1000000 = "1000.0K" ∧
    formatNumber 1150 = "1.1K" := by
  refine ⟨fun h => ?_, fun h1 h2 => ⟨?_, roundTenths_near _, ?_⟩,
    fun h => ⟨?_, roundTenths_near _, fun hn => ?_⟩, ?_, formatNumber_million,
    formatNumber_tie⟩
  · unfold formatNumber
    rw [if_neg (by omega), if_neg (by omega)]
  · unfold formatNumber
    rw [if_neg (by omega), if_pos (by omega)]
  · have h3 := roundTenths_nearest _ (n : ℤ) 50 (by norm_num)
      (fdiv_near n 50 (by norm_num) (by omega))
    norm_num at h3 ⊢
    exact h3
  · unfold formatNumber
    rw [if_pos (by omega)]
  · have h3 := roundTenths_nearest _ (n : ℤ) 50000 (by norm_num)
      (fdiv_near n 50000 (by norm_num) hn)
    norm_num at h3 ⊢
    exact h3
  · decide

/-- Instance of C29: `1500` is printed with one decimal and `K`. -/
theorem formatNumber_cases_witness :
    (1000 < 1500 ∧ 1500 ≤ 1000000) ∧
    formatNumber 1500 = toFixed1 (fdiv ((1500 : Nat) : ℚ) 1000) ++ "K" ∧
    |(roundTenths (fdiv ((1500 : Nat) : ℚ) 1000) : ℚ) / 10 - fdiv ((1500 : Nat) : ℚ) 1000| ≤
      1 / 20 ∧
    |(roundTenths (fdiv ((1500 : Nat) : ℚ) 1000) : ℚ) / 10 - ((1500 : Nat) : ℚ) / 1000| ≤
      1 / 20 :=
  ⟨by decide, (formatNumber_cases 1500).2.1 (by decide) (by decide)⟩

end Trendzn
